import Mathlib

/-!
# The senseact core: queues, fan-out, file operations and device accounting

A shallow embedding of `drivers/senseact.c` and `include/linux/senseact.h`.

* C structures become Lean structures with the same field names.
* Machine integers are `Nat`/`Int`; a narrowing assignment is written out as an
  explicit reduction (`u8`, `s8`, `s32`, `u32`).
* Locks, RCU and wake-ups do not change the data and are left out; a lock that can
  fail (`mutex_lock_interruptible`) is an explicit result passed in.
* Driver callbacks are functions: `open` and `close` on the driver's private data,
  `pass` on the device.
-/

namespace Senseact

/-! ## Constants -/

/-- Number of minors: `#define SENSEACT_DEVICES 32`. -/
abbrev SENSEACT_DEVICES : Nat := 32

/-- Ring size: `#define SENSEACT_BUFFER_SIZE 64`. -/
abbrev SENSEACT_BUFFER_SIZE : Nat := 64

/-- Action type: `#define SENSEACT_TYPE_SYNC 0x00`. -/
abbrev SENSEACT_TYPE_SYNC : Nat := 0

/-- Largest action type: `#define SENSEACT_TYPE_MAX 0x07`. -/
abbrev SENSEACT_TYPE_MAX : Nat := 7

/-- Number of action types: `#define SENSEACT_TYPE_CNT (SENSEACT_TYPE_MAX + 1)`. -/
abbrev SENSEACT_TYPE_CNT : Nat := SENSEACT_TYPE_MAX + 1

/-- Sync subtype: `#define SENSEACT_SYNC_ACTOR 2`. -/
abbrev SENSEACT_SYNC_ACTOR : Nat := 2

/-- Kernel error numbers (`asm-generic/errno-base.h`), used negated as return values. -/
abbrev EAGAIN : Int := 11
/-- Out of memory. -/
abbrev ENOMEM : Int := 12
/-- Bad address. -/
abbrev EFAULT : Int := 14
/-- No such device. -/
abbrev ENODEV : Int := 19
/-- Invalid argument. -/
abbrev EINVAL : Int := 22

/-! ## Integer conversions -/

/-- Conversion to `__u8`. -/
def u8 (n : Nat) : Nat := n % 2 ^ 8

/-- Conversion to `unsigned int`. -/
def u32 (n : Nat) : Nat := n % 2 ^ 32

/-- The decrement `x--` of an `unsigned int`: 0 wraps to `UINT_MAX`. -/
def u32_dec (x : Nat) : Nat := if x = 0 then 2 ^ 32 - 1 else x - 1

/-- Conversion of an unsigned value to `__s8` (two's complement). -/
def s8 (n : Nat) : Int :=
  if n % 2 ^ 8 < 2 ^ 7 then ((n % 2 ^ 8 : Nat) : Int) else ((n % 2 ^ 8 : Nat) : Int) - 2 ^ 8

/-- Conversion of an unsigned value to `__s32` (two's complement). -/
def s32 (n : Nat) : Int :=
  if n % 2 ^ 32 < 2 ^ 31 then ((n % 2 ^ 32 : Nat) : Int) else ((n % 2 ^ 32 : Nat) : Int) - 2 ^ 32

/-! ## Data model -/

/-- The record `struct senseact_action`; `pfx` is the source's `prefix` field.
`sizeof(struct senseact_action)` is 8. -/
structure senseact_action where
  type : Nat
  pfx : Int
  unit : Nat
  index : Nat
  value : Int
  deriving DecidableEq, Repr, Inhabited

/-- The value of `sizeof(struct senseact_action)`: 1 + 1 + 1 + 1 + 4 bytes. -/
abbrev sizeof_senseact_action : Nat := 8

/-- The data fields of `struct senseact_queue`: the ring buffer (indexed by position) and
the two cursors. -/
structure senseact_queue where
  buffer : Nat → senseact_action
  head : Nat
  tail : Nat

/-- A queue as `kzalloc` returns it in `senseact_open_file`: all bytes zero. -/
def senseact_queue_zero : senseact_queue :=
  { buffer := fun _ => { type := 0, pfx := 0, unit := 0, index := 0, value := 0 },
    head := 0, tail := 0 }

/-! ## Queue operations -/

/-- Embedding of `senseact_queue_insert_action` (senseact.c, lines 102 to 121): the new
queue, and whether the overrun message is printed. -/
def senseact_queue_insert_action (queue : senseact_queue) (action : senseact_action) :
    senseact_queue × Bool :=
  -- queue->buffer[queue->head++] = *action;
  let q1 : senseact_queue :=
    { queue with buffer := Function.update queue.buffer queue.head action,
                 head := queue.head + 1 }
  -- queue->head %= SENSEACT_BUFFER_SIZE;
  let q2 : senseact_queue := { q1 with head := q1.head % SENSEACT_BUFFER_SIZE }
  -- if (queue->head == queue->tail) printk(... "buffer overrun" ...)
  (q2, q2.head == q2.tail)

/-- Embedding of `senseact_queue_fetch_next_action` (senseact.c, lines 539 to 555): `none`
is the return value 0 (empty,
`*action` untouched), `some a` is the return value 1 with `*action = a`. -/
def senseact_queue_fetch_next_action (queue : senseact_queue) :
    senseact_queue × Option senseact_action :=
  -- empty = queue->head == queue->tail;
  if queue.head = queue.tail then
    (queue, none)
  else
    -- *action = queue->buffer[queue->tail++]; queue->tail &= SENSEACT_BUFFER_SIZE - 1;
    ({ queue with tail := (queue.tail + 1) &&& (SENSEACT_BUFFER_SIZE - 1) },
      some (queue.buffer queue.tail))

/-! ## Reading a queue as a sequence -/

/-- Both cursors index the buffer. -/
def queue_wf (q : senseact_queue) : Prop :=
  q.head < SENSEACT_BUFFER_SIZE ∧ q.tail < SENSEACT_BUFFER_SIZE

instance (q : senseact_queue) : Decidable (queue_wf q) := by
  unfold queue_wf; infer_instance

/-- Number of inserted-but-not-yet-fetched actions: the distance from `tail` to `head`
around the ring. -/
def queue_pending (q : senseact_queue) : Nat :=
  (q.head + SENSEACT_BUFFER_SIZE - q.tail) % SENSEACT_BUFFER_SIZE

/-- The pending actions, oldest first: the buffer cells from `tail` up to `head`. -/
def queue_contents (q : senseact_queue) : List senseact_action :=
  (List.range (queue_pending q)).map fun k => q.buffer ((q.tail + k) % SENSEACT_BUFFER_SIZE)

/-- One call on a queue. -/
inductive queue_op where
  | insert (action : senseact_action)
  | fetch
  deriving DecidableEq, Repr

/-- Run a sequence of calls; the second component lists what each fetch returned. -/
def run_queue_ops (q : senseact_queue) :
    List queue_op → senseact_queue × List (Option senseact_action)
  | [] => (q, [])
  | queue_op.insert a :: ops => run_queue_ops (senseact_queue_insert_action q a).1 ops
  | queue_op.fetch :: ops =>
      let r := senseact_queue_fetch_next_action q
      let rest := run_queue_ops r.1 ops
      (rest.1, r.2 :: rest.2)

/-- The queue reached from the zero-initialised one by a sequence of calls. -/
def queue_after (ops : List queue_op) : senseact_queue :=
  (run_queue_ops senseact_queue_zero ops).1

/-- The actions inserted by a sequence of calls, in order. -/
def inserted_actions : List queue_op → List senseact_action
  | [] => []
  | queue_op.insert a :: ops => a :: inserted_actions ops
  | queue_op.fetch :: ops => inserted_actions ops

/-- The actions returned by the successful fetches of a sequence of calls on the
zero-initialised queue, in order. -/
def fetched_actions (ops : List queue_op) : List senseact_action :=
  (run_queue_ops senseact_queue_zero ops).2.filterMap id

/-- The number of inserted-but-not-yet-fetched actions after a sequence of calls on the
zero-initialised queue. -/
def pending_count (ops : List queue_op) : Nat :=
  (inserted_actions ops).length - (fetched_actions ops).length

/-- The number of pending actions stays below `SENSEACT_BUFFER_SIZE` throughout. -/
def never_full (ops : List queue_op) : Prop :=
  ∀ n, n ≤ ops.length → pending_count (ops.take n) < SENSEACT_BUFFER_SIZE

instance (ops : List queue_op) : Decidable (never_full ops) := by
  unfold never_full; infer_instance

/-! ## Devices -/

/-- The data fields of `struct senseact_device`: the capability bitmap `types` (one word,
`SENSEACT_TYPE_CNT` bits declared), the `users` counter (`unsigned int`), the `going_away`
flag, the list of attached queues and the driver's private data; further the `minor` and
the reference count of the embedded `struct device dev` (`get_device` / `put_device`),
which only the table and file functions look at. -/
structure senseact_device (σ : Type) where
  types : Nat
  users : Nat
  going_away : Bool
  queue_list : List senseact_queue
  drvdata : σ
  minor : Nat := 0
  refcount : Nat := 1

/-- The function-pointer fields of `struct senseact_device`; `none` is a NULL pointer.
`open_` is the source's `open` (a reserved word here). `open_` and `close` act on the
driver's private data; `pass` receives the device itself, since a handler may call back
into `senseact_pass_actions` (as `test_pass` does). The arguments of `pass` are type,
index, count and the value pointed to. -/
structure senseact_callbacks (σ : Type) where
  open_ : Option (σ → σ × Int)
  close : Option (σ → σ)
  pass : Option (senseact_device σ → Nat → Nat → Nat → Int → senseact_device σ × Int)

/-- Embedding of `is_type_supported` (senseact.c, lines 49 to 52):
`code <= SENSEACT_TYPE_MAX && test_bit(code, senseact->types)`. -/
def is_type_supported {σ : Type} (senseact : senseact_device σ) (code : Nat) : Bool :=
  decide (code ≤ SENSEACT_TYPE_MAX) && senseact.types.testBit code

/-- Embedding of `senseact_set_capabilities` (senseact.c, lines 299 to 307): an unknown
type is only logged, otherwise `__set_bit(type, senseact->types)`. -/
def senseact_set_capabilities {σ : Type} (senseact : senseact_device σ) (type : Nat)
    (_count : Nat) : senseact_device σ :=
  if type ≥ SENSEACT_TYPE_MAX then
    senseact
  else
    { senseact with types := senseact.types ||| (1 <<< type) }

/-- Embedding of `senseact_open_device` (senseact.c, lines 54 to 72). `lock` is what
`mutex_lock_interruptible` returned (0 when the mutex was taken). `!senseact->users++`
tests the old value and always increments; a failing `open()` undoes the increment. -/
def senseact_open_device {σ : Type} (cb : senseact_callbacks σ) (lock : Int)
    (senseact : senseact_device σ) : senseact_device σ × Int :=
  if lock ≠ 0 then
    (senseact, lock)
  else if senseact.going_away then
    (senseact, -ENODEV)
  else
    let dev1 := { senseact with users := u32 (senseact.users + 1) }
    if senseact.users = 0 then
      match cb.open_ with
      | some f =>
          let r := f dev1.drvdata
          let dev2 := { dev1 with drvdata := r.1 }
          if r.2 ≠ 0 then
            ({ dev2 with users := u32_dec dev2.users }, r.2)
          else
            (dev2, r.2)
      | none => (dev1, 0)
    else
      (dev1, 0)

/-- Embedding of `senseact_close_device` (senseact.c, lines 74 to 82):
`!--senseact->users && senseact->close`. -/
def senseact_close_device {σ : Type} (cb : senseact_callbacks σ)
    (senseact : senseact_device σ) : senseact_device σ :=
  let dev1 := { senseact with users := u32_dec senseact.users }
  if dev1.users = 0 then
    match cb.close with
    | some g => { dev1 with drvdata := g dev1.drvdata }
    | none => dev1
  else
    dev1

/-! ## Sequences of device opens and closes -/

/-- One call on a device: `senseact_open_device` (with the result of taking the mutex) or
`senseact_close_device`. -/
inductive device_op where
  | open_ (lock : Int)
  | close
  deriving DecidableEq, Repr

/-- Run a sequence of calls; the second component lists what each
`senseact_open_device` returned. -/
def run_device_ops {σ : Type} (cb : senseact_callbacks σ) (dev : senseact_device σ) :
    List device_op → senseact_device σ × List Int
  | [] => (dev, [])
  | device_op.open_ lock :: ops =>
      let r := senseact_open_device cb lock dev
      let rest := run_device_ops cb r.1 ops
      (rest.1, r.2 :: rest.2)
  | device_op.close :: ops => run_device_ops cb (senseact_close_device cb dev) ops

/-- Number of `senseact_open_device` calls of the sequence that returned 0. -/
def successful_opens {σ : Type} (cb : senseact_callbacks σ) (dev : senseact_device σ)
    (ops : List device_op) : Nat :=
  (run_device_ops cb dev ops).2.count 0

/-- Number of `senseact_close_device` calls of the sequence. -/
def close_calls (ops : List device_op) : Nat :=
  ops.count device_op.close

/-- Every close releases an earlier successful open: at no point have there been more
closes than successful opens. -/
def closes_matched {σ : Type} (cb : senseact_callbacks σ) (dev : senseact_device σ)
    (ops : List device_op) : Prop :=
  ∀ k, k ≤ ops.length → close_calls (ops.take k) ≤ successful_opens cb dev (ops.take k)

instance {σ : Type} (cb : senseact_callbacks σ) (dev : senseact_device σ)
    (ops : List device_op) : Decidable (closes_matched cb dev ops) := by
  unfold closes_matched; infer_instance

/-! ## Fan-out -/

/-- The action built in iteration `i` of the loop of `senseact_handle_actions`. The
arguments are `unsigned int`; the fields narrow them. `unit` is never assigned by the
loop, so it is whatever the local variable holds (`stack_unit`). `msecs i` is
`jiffies_to_msecs(jiffies)` as read in iteration `i`. -/
def handled_action (msecs : Nat → Nat) (stack_unit : Nat) (type pfx index : Nat)
    (values : Nat → Int) (i : Nat) : senseact_action :=
  { type := u8 type,
    pfx := s8 pfx,
    unit := stack_unit,
    index := u8 (u32 (index + i)),
    value := if u8 type = SENSEACT_TYPE_SYNC then s32 (msecs i) else values i }

/-- Embedding of `senseact_handle_actions` (senseact.c, lines 123 to 148): for `i` from 0
below `count`, build the action and insert it into every queue of the device's list.
`values i` is `values[i]`. -/
def senseact_handle_actions {σ : Type} (senseact : senseact_device σ) (msecs : Nat → Nat)
    (stack_unit : Nat) (type pfx index count : Nat) (values : Nat → Int) :
    senseact_device σ :=
  (List.range count).foldl
    (fun dev i =>
      { dev with queue_list := dev.queue_list.map fun queue =>
          (senseact_queue_insert_action queue
            (handled_action msecs stack_unit type pfx index values i)).1 })
    senseact

/-- Embedding of `senseact_pass_actions` (senseact.c, lines 390 to 401). -/
def senseact_pass_actions {σ : Type} (senseact : senseact_device σ) (msecs : Nat → Nat)
    (stack_unit : Nat) (type pfx index count : Nat) (values : Nat → Int) :
    senseact_device σ :=
  if is_type_supported senseact type then
    senseact_handle_actions senseact msecs stack_unit type pfx index count values
  else
    senseact

/-- Insert a list of actions into a queue, one after the other. -/
def queue_insert_all (q : senseact_queue) (actions : List senseact_action) : senseact_queue :=
  actions.foldl (fun q a => (senseact_queue_insert_action q a).1) q

/-- The `count` actions of one `senseact_pass_actions` call, in increasing `i`. -/
def passed_actions (msecs : Nat → Nat) (stack_unit : Nat) (type pfx index count : Nat)
    (values : Nat → Int) : List senseact_action :=
  (List.range count).map (handled_action msecs stack_unit type pfx index values)

/-! ## File operations -/

/-- Outcome of `senseact_read_file`: it returns (with the queue as left behind, the return
value and the actions copied to the user buffer, in order), or the caller sleeps in
`wait_event_interruptible` until another thread inserts an action, unregisters the
device or signals the caller. -/
inductive read_result where
  | returned (queue : senseact_queue) (retval : Int) (copied : List senseact_action)
  | sleeps

/-- The copy loop of `senseact_read_file`:
`while (retval + sizeof(action) <= count && fetch(queue, &action))`. `user_ok off` tells
whether `copy_to_user` to `buffer + off` succeeds. `none` only when the fuel runs out. -/
def senseact_read_loop (user_ok : Nat → Bool) (count : Nat) :
    Nat → senseact_queue → Nat → List senseact_action →
      Option (senseact_queue × Int × List senseact_action)
  | 0, _, _, _ => none
  | fuel + 1, queue, retval, copied =>
    if retval + sizeof_senseact_action ≤ count then
      match senseact_queue_fetch_next_action queue with
      | (queue1, some action) =>
          if user_ok retval then
            senseact_read_loop user_ok count fuel queue1 (retval + sizeof_senseact_action)
              (copied ++ [action])
          else
            some (queue1, -EFAULT, copied)
      | (queue1, none) => some (queue1, (retval : Int), copied)
    else
      some (queue, (retval : Int), copied)

/-- Embedding of `senseact_read_file` (senseact.c, lines 557 to 592). `nonblock` is
`file->f_flags & O_NONBLOCK`. Each pass of the loop adds 8 to `retval`, so
`count / 8 + 1` passes always suffice. -/
def senseact_read_file {σ : Type} (senseact : senseact_device σ) (nonblock : Bool)
    (user_ok : Nat → Bool) (count : Nat) (queue : senseact_queue) : Option read_result :=
  if count < sizeof_senseact_action then
    some (read_result.returned queue (-EINVAL) [])
  else if senseact.going_away then
    some (read_result.returned queue (-ENODEV) [])
  else if queue.head = queue.tail ∧ nonblock = true then
    some (read_result.returned queue (-EAGAIN) [])
  else if ¬ (queue.head ≠ queue.tail ∨ senseact.going_away = true) then
    -- wait_event_interruptible: the condition is false, the caller is put to sleep
    some read_result.sleeps
  else if senseact.going_away then
    some (read_result.returned queue (-ENODEV) [])
  else
    (senseact_read_loop user_ok count (count / sizeof_senseact_action + 1) queue 0 []).map
      fun r => read_result.returned r.1 r.2.1 r.2.2

/-- The loop of `senseact_write_file`: `while (offset < count)`, then the SYNC.
`buffer off` is what `copy_from_user` reads at `buffer + off` (`none`: the copy faults).
`none` as result only when the fuel runs out. -/
def senseact_write_loop {σ : Type}
    (pass : senseact_device σ → Nat → Nat → Nat → Int → senseact_device σ × Int)
    (buffer : Nat → Option senseact_action) (count : Nat) :
    Nat → senseact_device σ → Nat → Option (senseact_device σ × Int)
  | 0, _, _ => none
  | fuel + 1, senseact, offset =>
    if offset < count then
      match buffer offset with
      | none => some (senseact, -EFAULT)
      | some action =>
          -- retval = senseact->pass(senseact, action.type, action.index, 1, &action.value);
          let r := pass senseact action.type action.index 1 action.value
          if r.2 ≠ 0 then
            some r
          else
            senseact_write_loop pass buffer count fuel r.1 (offset + sizeof_senseact_action)
    else
      -- senseact->pass(senseact, SENSEACT_TYPE_SYNC, SENSEACT_SYNC_ACTOR, 1, &value);
      let r := pass senseact SENSEACT_TYPE_SYNC SENSEACT_SYNC_ACTOR 1 0
      some (r.1, (offset : Int))

/-- Embedding of `senseact_write_file` (senseact.c, lines 497 to 537). `lock` is what
`mutex_lock_interruptible` returned. Each pass of the loop adds 8 to `offset`, so
`count + 1` passes always suffice. -/
def senseact_write_file {σ : Type} (cb : senseact_callbacks σ) (lock : Int)
    (buffer : Nat → Option senseact_action) (count : Nat) (senseact : senseact_device σ) :
    Option (senseact_device σ × Int) :=
  match cb.pass with
  | none => some (senseact, -EFAULT)
  | some pass =>
    if lock ≠ 0 then
      some (senseact, lock)
    else if senseact.going_away then
      some (senseact, -ENODEV)
    else
      senseact_write_loop pass buffer count (count + 1) senseact 0

/-- What the claim about writing says, in its own words: hand the actions to the pass
handler one at a time in order, each with count 1 and the action's type, index and value,
and stop at the first non-zero return value, which is the result. -/
def pass_in_order {σ : Type}
    (pass : senseact_device σ → Nat → Nat → Nat → Int → senseact_device σ × Int) :
    senseact_device σ → List senseact_action → senseact_device σ × Int
  | senseact, [] => (senseact, 0)
  | senseact, action :: rest =>
      if (pass senseact action.type action.index 1 action.value).2 ≠ 0 then
        pass senseact action.type action.index 1 action.value
      else
        pass_in_order pass (pass senseact action.type action.index 1 action.value).1 rest

/-- A pass handler that records its arguments (type, index, count, value) in the driver
data and reports success, except for type POSITION, which it refuses with -22. -/
def recording_pass (senseact : senseact_device (List (Nat × Nat × Nat × Int)))
    (type index count : Nat) (value : Int) :
    senseact_device (List (Nat × Nat × Nat × Int)) × Int :=
  ({ senseact with drvdata := senseact.drvdata ++ [(type, index, count, value)] },
    if type = 4 then -22 else 0)

/-- The callbacks of a driver with the recording pass handler. -/
def recording_callbacks : senseact_callbacks (List (Nat × Nat × Nat × Int)) :=
  { open_ := none, close := none, pass := some recording_pass }

/-- An opened device of the recording driver. -/
def recording_device : senseact_device (List (Nat × Nat × Nat × Int)) :=
  { types := 2 ^ 3 ||| 2 ^ 0, users := 1, going_away := false,
    queue_list := [senseact_queue_zero], drvdata := [] }

/-- A user buffer holding the given actions back to back; reading past them faults. -/
def user_buffer (actions : List senseact_action) (off : Nat) : Option senseact_action :=
  if off % sizeof_senseact_action = 0 then actions[off / sizeof_senseact_action]? else none

/-- A device supporting SYNC and SPEED with one freshly attached queue. -/
def speed_device : senseact_device Unit :=
  { types := 2 ^ 3 ||| 2 ^ 0, users := 1, going_away := false,
    queue_list := [senseact_queue_zero], drvdata := () }

/-- The device of `speed_device` in the middle of unregistering. -/
def gone_device : senseact_device Unit :=
  { speed_device with going_away := true }

/-- The device of `recording_device` in the middle of unregistering. -/
def gone_recording_device : senseact_device (List (Nat × Nat × Nat × Int)) :=
  { recording_device with going_away := true }

/-- A driver whose private data counts how often `open()` and `close()` ran; `open()`
always succeeds. -/
def counting_callbacks : senseact_callbacks (Nat × Nat) :=
  { open_ := some fun s => ((s.1 + 1, s.2), 0),
    close := some fun s => (s.1, s.2 + 1),
    pass := none }

/-- A driver whose `open()` fails with `-EIO` (-5), counting the attempts. -/
def failing_callbacks : senseact_callbacks (Nat × Nat) :=
  { open_ := some fun s => ((s.1 + 1, s.2), -5),
    close := some fun s => (s.1, s.2 + 1),
    pass := none }

/-- A freshly allocated device (only SYNC supported, no users, no queues). -/
def fresh_device : senseact_device (Nat × Nat) :=
  { types := 1, users := 0, going_away := false, queue_list := [], drvdata := (0, 0) }

/-- Two opens, a close, an open interrupted while taking the mutex, a close, an open. -/
def accounting_example : List device_op :=
  [device_op.open_ 0, device_op.open_ 0, device_op.close, device_op.open_ (-4),
    device_op.close, device_op.open_ 0]

/-- A queue holding three pending SPEED actions with values 10, 20 and 30. -/
def three_pending : senseact_queue :=
  queue_insert_all senseact_queue_zero
    [⟨3, 0, 0, 0, 10⟩, ⟨3, 0, 0, 1, 20⟩, ⟨3, 0, 0, 2, 30⟩]

/-- An interleaving used to exercise the queue: two inserts, three fetches, one more
insert and a fetch. -/
def fifo_example : List queue_op :=
  [queue_op.insert ⟨3, 0, 0, 0, 10⟩, queue_op.insert ⟨3, 0, 0, 1, 20⟩, queue_op.fetch,
    queue_op.fetch, queue_op.fetch, queue_op.insert ⟨4, 0, 0, 0, 30⟩, queue_op.fetch]

/-- A queue with 63 pending actions: `head = 63`, `tail = 0`. -/
def queue_almost_full : senseact_queue :=
  { senseact_queue_zero with head := 63 }

/-! ## The device table, registration and file handles -/

/-- The ioctl number `EVIOCGVERSION`, that is `_IOR('E', 0x01, int)` of `linux/input.h`. -/
abbrev EVIOCGVERSION : Nat := 0x80044501

/-- The global `senseact_table` together with the device structures it points to: a slot
holds the address of a device or NULL (`none`); `mem p` is the structure at address `p`.
Only the slots below `SENSEACT_DEVICES` exist. -/
structure senseact_core (σ : Type) where
  senseact_table : Nat → Option Nat
  mem : Nat → senseact_device σ

/-- The search loop of `senseact_allocate_device` (senseact.c, lines 236 to 240): the value
of `minor` when the loop is left, starting at `minor` with `left` indices still to visit;
`SENSEACT_DEVICES` when no slot is empty. -/
def first_free_minor (table : Nat → Option Nat) : Nat → Nat → Nat
  | 0, minor => minor
  | left + 1, minor =>
    if table minor = none then minor else first_free_minor table left (minor + 1)

/-- Embedding of `senseact_allocate_device` (senseact.c, lines 226 to 269). `kzalloc` is
the address `kzalloc` returned (`none`: NULL), `zero` the all-zero private data. The
result is the new state and the returned pointer. -/
def senseact_allocate_device {σ : Type} (core : senseact_core σ) (kzalloc : Option Nat)
    (zero : σ) : senseact_core σ × Option Nat :=
  match kzalloc with
  | none => (core, none)
  | some p =>
    let minor := first_free_minor core.senseact_table SENSEACT_DEVICES 0
    if minor = SENSEACT_DEVICES then
      -- no more free MINOR numbers: kfree(senseact); return NULL;
      (core, none)
    else
      -- senseact_table[minor] = senseact; senseact->minor = minor; device_initialize(...)
      let dev0 : senseact_device σ :=
        { types := 0, users := 0, going_away := false, queue_list := [], drvdata := zero,
          minor := minor, refcount := 1 }
      -- senseact_set_capabilities(senseact, SENSEACT_TYPE_SYNC, 1);
      let dev := senseact_set_capabilities dev0 SENSEACT_TYPE_SYNC 1
      ({ senseact_table := Function.update core.senseact_table minor (some p),
         mem := Function.update core.mem p dev }, some p)

/-- Embedding of `senseact_unregister_device` (senseact.c, lines 350 to 375) for the device
at address `p`; `flush` is the device's `flush` callback. `device_unregister` drops the
reference the device model holds. -/
def senseact_unregister_device {σ : Type} (flush : Option (σ → σ × Int))
    (core : senseact_core σ) (p : Nat) : senseact_core σ :=
  -- senseact->going_away = 1;
  let d1 := { core.mem p with going_away := true }
  -- senseact_table[senseact->minor] = NULL;
  let table1 := Function.update core.senseact_table d1.minor none
  -- if (senseact->users) { if (senseact->flush) senseact->flush(senseact, NULL); }
  let d2 :=
    if d1.users ≠ 0 then
      match flush with
      | some f => { d1 with drvdata := (f d1.drvdata).1 }
      | none => d1
    else d1
  -- device_unregister(&senseact->dev);
  let d3 := { d2 with refcount := d2.refcount - 1 }
  { senseact_table := table1, mem := Function.update core.mem p d3 }

/-- Embedding of `senseact_open_file` (senseact.c, lines 450 to 495). `i` is the minor of
the inode, `table_lock` and `dev_lock` are what `mutex_lock_interruptible` returned on
the table mutex and on the device mutex, `kzalloc_ok` tells whether the queue could be
allocated. The new queue is zero-initialised and attached at the tail of the list. -/
def senseact_open_file {σ : Type} (cb : senseact_callbacks σ) (core : senseact_core σ)
    (i : Nat) (table_lock : Int) (kzalloc_ok : Bool) (dev_lock : Int) :
    senseact_core σ × Int :=
  if i ≥ SENSEACT_DEVICES then
    (core, -ENODEV)
  else if table_lock ≠ 0 then
    (core, table_lock)
  else
    match core.senseact_table i with
    | none => (core, -ENODEV)
    | some p =>
      -- get_device(&senseact->dev);
      let d1 := { core.mem p with refcount := (core.mem p).refcount + 1 }
      if kzalloc_ok = false then
        -- err_put_dev: put_device(&senseact->dev); return -ENOMEM;
        ({ core with mem := Function.update core.mem p { d1 with refcount := d1.refcount - 1 } },
          -ENOMEM)
      else
        -- senseact_attach_queue(senseact, queue);
        let d2 := { d1 with queue_list := d1.queue_list ++ [senseact_queue_zero] }
        let r := senseact_open_device cb dev_lock d2
        if r.2 ≠ 0 then
          -- err_free_queue: senseact_detach_queue(senseact, queue); kfree(queue);
          let d3 := { r.1 with queue_list := r.1.queue_list.dropLast }
          -- err_put_dev: put_device(&senseact->dev);
          ({ core with mem := Function.update core.mem p { d3 with refcount := d3.refcount - 1 } },
            r.2)
        else
          -- file->private_data = queue; return 0;
          ({ core with mem := Function.update core.mem p r.1 }, 0)

/-- Embedding of `senseact_release_file` (senseact.c, lines 436 to 448) for a handle on
the device at address `p` whose queue is the `k`-th of the device's list. -/
def senseact_release_file {σ : Type} (cb : senseact_callbacks σ) (core : senseact_core σ)
    (p k : Nat) : senseact_core σ :=
  -- senseact_detach_queue(senseact, queue); kfree(queue);
  let d1 := { core.mem p with queue_list := (core.mem p).queue_list.eraseIdx k }
  -- senseact_close_device(senseact);
  let d2 := senseact_close_device cb d1
  -- put_device(&senseact->dev);
  { core with mem := Function.update core.mem p { d2 with refcount := d2.refcount - 1 } }

/-- Embedding of `senseact_flush_file` (senseact.c, lines 414 to 434); `flush` is the
device's `flush` callback, `lock` what `mutex_lock_interruptible` returned. -/
def senseact_flush_file {σ : Type} (flush : Option (σ → σ × Int)) (lock : Int)
    (senseact : senseact_device σ) : senseact_device σ × Int :=
  if lock ≠ 0 then
    (senseact, lock)
  else if senseact.going_away then
    (senseact, -ENODEV)
  else
    match flush with
    | some f => ({ senseact with drvdata := (f senseact.drvdata).1 }, (f senseact.drvdata).2)
    | none => (senseact, 0)

/-- Embedding of `senseact_do_ioctl` (senseact.c, lines 604 to 615); `put_user` is what
`put_user(EV_VERSION, ip)` returns. -/
def senseact_do_ioctl (cmd : Nat) (put_user : Int) : Int :=
  if cmd = EVIOCGVERSION then put_user else -EINVAL

/-- Embedding of `senseact_ioctl_file` (senseact.c, lines 617 to 638). -/
def senseact_ioctl_file {σ : Type} (lock : Int) (senseact : senseact_device σ) (cmd : Nat)
    (put_user : Int) : Int :=
  if lock ≠ 0 then
    lock
  else if senseact.going_away then
    -ENODEV
  else
    senseact_do_ioctl cmd put_user

/-- The table keeps its books: the device in slot `i` carries `i` as its minor. -/
def table_wf {σ : Type} (core : senseact_core σ) : Prop :=
  ∀ i p, i < SENSEACT_DEVICES → core.senseact_table i = some p → (core.mem p).minor = i

/-- Every table entry refers to a live device: the device holds the reference taken by
`device_initialize` besides one reference for each attached queue. -/
def table_live {σ : Type} (core : senseact_core σ) : Prop :=
  ∀ i p, i < SENSEACT_DEVICES → core.senseact_table i = some p →
    (core.mem p).queue_list.length < (core.mem p).refcount

/-- Embedding of `senseact_free_device` (senseact.c, lines 286 to 290):
`if (senseact) put_device(&senseact->dev);`. When the count reaches zero
`senseact_dev_release` frees the structure; `senseact_table` is not touched. -/
def senseact_free_device {σ : Type} (core : senseact_core σ) (senseact : Option Nat) :
    senseact_core σ :=
  match senseact with
  | none => core
  | some p =>
    { core with
      mem := Function.update core.mem p
        { core.mem p with refcount := (core.mem p).refcount - 1 } }

/-- One call of the core: an allocation (with what `kzalloc` returned), the
unregistration of the device at an address, an open of a minor, or the release of the
handle whose queue is the `k`-th of the device at address `p`. -/
inductive core_op where
  | allocate (kzalloc : Option Nat)
  | unregister (p : Nat)
  | open_ (i : Nat) (table_lock : Int) (kzalloc_ok : Bool) (dev_lock : Int)
  | release (p k : Nat)
  deriving DecidableEq, Repr

/-- Run a sequence of calls of the core. -/
def run_core_ops {σ : Type} (cb : senseact_callbacks σ) (zero : σ)
    (flush : Option (σ → σ × Int)) : senseact_core σ → List core_op → senseact_core σ
  | core, [] => core
  | core, core_op.allocate kz :: ops =>
      run_core_ops cb zero flush (senseact_allocate_device core kz zero).1 ops
  | core, core_op.unregister p :: ops =>
      run_core_ops cb zero flush (senseact_unregister_device flush core p) ops
  | core, core_op.open_ i tl kz dl :: ops =>
      run_core_ops cb zero flush (senseact_open_file cb core i tl kz dl).1 ops
  | core, core_op.release p k :: ops =>
      run_core_ops cb zero flush (senseact_release_file cb core p k) ops

/-- The calls of the sequence respect the contracts of their environment: `kzalloc` hands
out memory that is not a live device (its reference count is 0 at that moment), and a
release is the release of an open handle (its queue is in the device's list). -/
def core_ops_valid {σ : Type} (cb : senseact_callbacks σ) (zero : σ)
    (flush : Option (σ → σ × Int)) : senseact_core σ → List core_op → Bool
  | _, [] => true
  | core, core_op.allocate kz :: ops =>
      (match kz with
        | none => true
        | some p => decide ((core.mem p).refcount = 0)) &&
        core_ops_valid cb zero flush (senseact_allocate_device core kz zero).1 ops
  | core, core_op.unregister p :: ops =>
      core_ops_valid cb zero flush (senseact_unregister_device flush core p) ops
  | core, core_op.open_ i tl kz dl :: ops =>
      core_ops_valid cb zero flush (senseact_open_file cb core i tl kz dl).1 ops
  | core, core_op.release p k :: ops =>
      decide (k < (core.mem p).queue_list.length) &&
        core_ops_valid cb zero flush (senseact_release_file cb core p k) ops

/-- The state at module load: every slot of the table is NULL. -/
def core_empty {σ : Type} (mem : Nat → senseact_device σ) : senseact_core σ :=
  { senseact_table := fun _ => none, mem := mem }

/-- One call on the handles of a device: `senseact_open_file` on its minor (with the two
mutex results and whether the queue could be allocated) or `senseact_release_file` of the
handle whose queue is the `k`-th of the list. -/
inductive file_op where
  | open_ (table_lock : Int) (kzalloc_ok : Bool) (dev_lock : Int)
  | release (k : Nat)
  deriving DecidableEq, Repr

/-- Run a sequence of opens on minor `i` and releases on the device at address `p`; the
second component lists what each `senseact_open_file` returned. -/
def run_file_ops {σ : Type} (cb : senseact_callbacks σ) (i p : Nat) :
    senseact_core σ → List file_op → senseact_core σ × List Int
  | core, [] => (core, [])
  | core, file_op.open_ tl kz dl :: ops =>
      let r := senseact_open_file cb core i tl kz dl
      let rest := run_file_ops cb i p r.1 ops
      (rest.1, r.2 :: rest.2)
  | core, file_op.release k :: ops =>
      run_file_ops cb i p (senseact_release_file cb core p k) ops

/-- Number of `senseact_release_file` calls of the sequence. -/
def release_calls : List file_op → Nat
  | [] => 0
  | file_op.open_ _ _ _ :: ops => release_calls ops
  | file_op.release _ :: ops => release_calls ops + 1

/-- Every release of the sequence is the release of an open handle: its queue is in the
device's list when the call is made. -/
def releases_valid {σ : Type} (cb : senseact_callbacks σ) (i p : Nat) :
    senseact_core σ → List file_op → Bool
  | _, [] => true
  | core, file_op.open_ tl kz dl :: ops =>
      releases_valid cb i p (senseact_open_file cb core i tl kz dl).1 ops
  | core, file_op.release k :: ops =>
      decide (k < (core.mem p).queue_list.length) &&
        releases_valid cb i p (senseact_release_file cb core p k) ops

/-- Memory in which every address holds a zeroed device structure. -/
def blank_mem : Nat → senseact_device Unit :=
  fun _ => { types := 0, users := 0, going_away := false, queue_list := [], drvdata := (),
             minor := 0, refcount := 0 }

/-- A driver without `open`, `close` and `pass` handlers. -/
def no_callbacks : senseact_callbacks Unit :=
  { open_ := none, close := none, pass := none }

/-- A device is allocated at address 5 (minor 0) and opened, then unregistered while the
handle is still open; the next device, allocated at address 6, gets minor 0 again. -/
def shared_minor_example : List core_op :=
  [core_op.allocate (some 5), core_op.open_ 0 0 true 0, core_op.unregister 5,
    core_op.allocate (some 6)]

/-- The state after a device was allocated at address 5 and given back with
`senseact_free_device`, as a driver does when its probe fails. -/
def freed_core : senseact_core Unit :=
  senseact_free_device (senseact_allocate_device (core_empty blank_mem) (some 5) ()).1
    (some 5)

/-- The recording driver's device registered at address 7 under minor 0. -/
def registered_core : senseact_core (List (Nat × Nat × Nat × Int)) :=
  { senseact_table := fun i => if i = 0 then some 7 else none,
    mem := fun _ => recording_device }

/-- The counting driver's freshly allocated device registered at address 7 under
minor 0. -/
def fresh_core : senseact_core (Nat × Nat) :=
  { senseact_table := fun i => if i = 0 then some 7 else none,
    mem := fun _ => fresh_device }

/-- An open, an open whose queue cannot be allocated, an open, the release of the first
handle and an open interrupted at the table mutex. -/
def handles_example : List file_op :=
  [file_op.open_ 0 true 0, file_op.open_ 0 false 0, file_op.open_ 0 true 0,
    file_op.release 0, file_op.open_ (-4) true 0]

/-! ## The user-space library `bebot.h` -/

/-- Array size: `#define BEBOT_BRIGHTNESS_COUNT 12`. -/
abbrev BEBOT_BRIGHTNESS_COUNT : Nat := 12
/-- Array size: `#define BEBOT_SPEED_COUNT 4`. -/
abbrev BEBOT_SPEED_COUNT : Nat := 4
/-- Array size: `#define BEBOT_POSITION_COUNT 2`. -/
abbrev BEBOT_POSITION_COUNT : Nat := 2
/-- Array size: `#define BEBOT_ANGLE_COUNT 1`. -/
abbrev BEBOT_ANGLE_COUNT : Nat := 1
/-- Array size: `#define BEBOT_INCREMENT_COUNT 2`. -/
abbrev BEBOT_INCREMENT_COUNT : Nat := 2
/-- Number of device files: `#define BEBOT_FD_COUNT 3`. -/
abbrev BEBOT_FD_COUNT : Nat := 3

/-- Action type: `#define SENSEACT_TYPE_BRIGHTNESS 0x01`. -/
abbrev SENSEACT_TYPE_BRIGHTNESS : Nat := 1
/-- Action type: `#define SENSEACT_TYPE_SPEED 0x03`. -/
abbrev SENSEACT_TYPE_SPEED : Nat := 3
/-- Action type: `#define SENSEACT_TYPE_POSITION 0x04`. -/
abbrev SENSEACT_TYPE_POSITION : Nat := 4
/-- Action type: `#define SENSEACT_TYPE_ANGLE 0x05`. -/
abbrev SENSEACT_TYPE_ANGLE : Nat := 5
/-- Action type: `#define SENSEACT_TYPE_INCREMENT 0x06`. -/
abbrev SENSEACT_TYPE_INCREMENT : Nat := 6
/-- Sync subtype: `#define SENSEACT_SYNC_SENSOR 1`. -/
abbrev SENSEACT_SYNC_SENSOR : Nat := 1

/-- The record `struct bebot` (bebot.h, lines 45 to 52); an array is the function from
index to element. -/
structure bebot where
  fd : Nat → Int
  brightness : Nat → Int
  speed : Nat → Int
  position : Nat → Int
  angle : Nat → Int
  increment : Nat → Int

/-- Embedding of `bebot_get_brightness` (bebot.h, lines 184 to 189). -/
def bebot_get_brightness (b : bebot) (i : Nat) : Int :=
  if i < BEBOT_BRIGHTNESS_COUNT then b.brightness i else 0

/-- Embedding of `bebot_get_speed` (bebot.h, lines 191 to 196). -/
def bebot_get_speed (b : bebot) (i : Nat) : Int :=
  if i < BEBOT_SPEED_COUNT then b.speed i else 0

/-- Embedding of `bebot_get_position` (bebot.h, lines 208 to 213); the source reads
`return bebot->speed[i];`. -/
def bebot_get_position (b : bebot) (i : Nat) : Int :=
  if i < BEBOT_POSITION_COUNT then b.speed i else 0

/-- Embedding of `bebot_get_angle` (bebot.h, lines 225 to 230). -/
def bebot_get_angle (b : bebot) (i : Nat) : Int :=
  if i < BEBOT_ANGLE_COUNT then b.angle i else 0

/-- Embedding of `bebot_get_increment` (bebot.h, lines 237 to 242). -/
def bebot_get_increment (b : bebot) (i : Nat) : Int :=
  if i < BEBOT_INCREMENT_COUNT then b.increment i else 0

/-- A `struct bebot` whose arrays hold distinct values: brightness 100 + i, speed 200 + i,
position 300 + i, angle 400 + i, increment 500 + i. -/
def bebot_example : bebot :=
  { fd := fun _ => 3,
    brightness := fun i => 100 + i,
    speed := fun i => 200 + i,
    position := fun i => 300 + i,
    angle := fun i => 400 + i,
    increment := fun i => 500 + i }

/-- The function-static staging arrays of `bebot_update` (bebot.h, lines 85 to 89); they
outlive the call and are shared by the three device files. -/
structure bebot_staged where
  brightness : Nat → Int
  speed : Nat → Int
  position : Nat → Int
  angle : Nat → Int
  increment : Nat → Int

/-- What `read(bebot->fd[i], actions, ...)` gives back: -1 with `errno`, or `n` bytes that
fill the front of the array `actions`. -/
inductive fd_read where
  | failed (errno : Int)
  | bytes (n : Nat) (actions : Nat → senseact_action)

/-- The variables `bebot_update` works on: the record behind `bebot`, the static arrays
and the local `rc`. -/
structure bebot_update_state where
  bebot : bebot
  staged : bebot_staged
  rc : Nat

/-- Embedding of `memcpy(dst + start, src + start, count * sizeof(int))` on `int` arrays. -/
def memcpy_ints (dst src : Nat → Int) (start count : Nat) : Nat → Int :=
  fun k => if start ≤ k ∧ k < start + count then src k else dst k

/-- Embedding of `offset = (i != 2) ? 0 : BEBOT_BRIGHTNESS_COUNT / 2` (bebot.h, line 97). -/
def bebot_update_offset (i : Nat) : Nat :=
  if i ≠ 2 then 0 else BEBOT_BRIGHTNESS_COUNT / 2

/-- Embedding of the body of the inner loop of `bebot_update` (bebot.h, lines 105 to 142):
the `switch` on the type of one action read from device file `i`. -/
def bebot_update_action (i : Nat) (st : bebot_update_state) (a : senseact_action) :
    bebot_update_state :=
  if a.type = SENSEACT_TYPE_SPEED then
    if a.index < BEBOT_SPEED_COUNT then
      { st with staged :=
          { st.staged with speed := Function.update st.staged.speed a.index a.value } }
    else st
  else if a.type = SENSEACT_TYPE_POSITION then
    if a.index < BEBOT_POSITION_COUNT then
      { st with staged :=
          { st.staged with position := Function.update st.staged.position a.index a.value } }
    else st
  else if a.type = SENSEACT_TYPE_ANGLE then
    if a.index < BEBOT_ANGLE_COUNT then
      { st with staged :=
          { st.staged with angle := Function.update st.staged.angle a.index a.value } }
    else st
  else if a.type = SENSEACT_TYPE_INCREMENT then
    if a.index < BEBOT_INCREMENT_COUNT then
      { st with staged :=
          { st.staged with
            increment := Function.update st.staged.increment a.index a.value } }
    else st
  else if a.type = SENSEACT_TYPE_BRIGHTNESS then
    if bebot_update_offset i + a.index < BEBOT_BRIGHTNESS_COUNT then
      { st with staged :=
          { st.staged with
            brightness :=
              Function.update st.staged.brightness (bebot_update_offset i + a.index)
                a.value } }
    else st
  else if a.type = SENSEACT_TYPE_SYNC then
    if a.index = SENSEACT_SYNC_SENSOR then
      if i = 0 then
        { bebot :=
            { st.bebot with
              speed := memcpy_ints st.bebot.speed st.staged.speed 0 BEBOT_SPEED_COUNT,
              position :=
                memcpy_ints st.bebot.position st.staged.position 0 BEBOT_POSITION_COUNT,
              angle := memcpy_ints st.bebot.angle st.staged.angle 0 BEBOT_ANGLE_COUNT,
              increment :=
                memcpy_ints st.bebot.increment st.staged.increment 0 BEBOT_INCREMENT_COUNT },
          staged := st.staged,
          rc := st.rc ||| (1 <<< i) }
      else
        { bebot :=
            { st.bebot with
              brightness :=
                memcpy_ints st.bebot.brightness st.staged.brightness (bebot_update_offset i)
                  (BEBOT_BRIGHTNESS_COUNT / 2) },
          staged := st.staged,
          rc := st.rc ||| (1 <<< i) }
    else st
  else st

/-- Embedding of the outer loop of `bebot_update` (bebot.h, lines 93 to 144) over the
device files still to be read: `reads i` is the outcome of the `read` on `fd[i]`. An
`EAGAIN` skips the device, another error returns -1 at once, `n` bytes are handled as
`n / sizeof(struct senseact_action)` actions; after the last device `rc` is returned. -/
def bebot_update_from (reads : Nat → fd_read) :
    List Nat → bebot_update_state → bebot_update_state × Int
  | [], st => (st, (st.rc : Int))
  | i :: rest, st =>
    match reads i with
    | fd_read.failed errno =>
      if errno = EAGAIN then bebot_update_from reads rest st else (st, -1)
    | fd_read.bytes n actions =>
      bebot_update_from reads rest
        ((List.range (n / sizeof_senseact_action)).foldl
          (fun s j => bebot_update_action i s (actions j)) st)

/-- Embedding of `bebot_update` (bebot.h, lines 83 to 148): the loop over the
`BEBOT_FD_COUNT` device files, started with `rc = 0`. The result is the record behind
`bebot`, the static arrays after the call and the return value. -/
def bebot_update (reads : Nat → fd_read) (staged : bebot_staged) (b : bebot) :
    bebot × bebot_staged × Int :=
  let r := bebot_update_from reads (List.range BEBOT_FD_COUNT) ⟨b, staged, 0⟩
  (r.1.bebot, r.1.staged, r.2)

/-- Whether an action is the sensor sync: type `SENSEACT_TYPE_SYNC` with index
`SENSEACT_SYNC_SENSOR`. -/
def is_sensor_sync (a : senseact_action) : Bool :=
  decide (a.type = SENSEACT_TYPE_SYNC) && decide (a.index = SENSEACT_SYNC_SENSOR)

/-- Whether a read delivered a sensor sync among its whole actions. -/
def delivered_sync (r : fd_read) : Bool :=
  match r with
  | fd_read.failed _ => false
  | fd_read.bytes n actions =>
    (List.range (n / sizeof_senseact_action)).any fun j => is_sensor_sync (actions j)

/-- Action type: `#define SENSEACT_TYPE_ENABLE 0x02`. -/
abbrev SENSEACT_TYPE_ENABLE : Nat := 2

/-- A zeroed `struct bebot` (as `bebot_init` leaves the arrays). -/
def bebot_zero : bebot :=
  { fd := fun _ => 3,
    brightness := fun _ => 0,
    speed := fun _ => 0,
    position := fun _ => 0,
    angle := fun _ => 0,
    increment := fun _ => 0 }

/-- The static arrays before the first call: all zero. -/
def staged_zero : bebot_staged :=
  { brightness := fun _ => 0,
    speed := fun _ => 0,
    position := fun _ => 0,
    angle := fun _ => 0,
    increment := fun _ => 0 }

/-- Reads in which the base device (0) delivers one BRIGHTNESS action (index 3, value 42)
and no sync, IR device 1 delivers only a sensor sync and IR device 2 has nothing
(`EAGAIN`). -/
def cross_reads (i : Nat) : fd_read :=
  if i = 0 then fd_read.bytes 8 fun _ => ⟨SENSEACT_TYPE_BRIGHTNESS, 0, 0, 3, 42⟩
  else if i = 1 then fd_read.bytes 8 fun _ => ⟨SENSEACT_TYPE_SYNC, 0, 0, SENSEACT_SYNC_SENSOR, 77⟩
  else fd_read.failed EAGAIN

/-- Reads in which IR device 1 delivers BRIGHTNESS index 7 (value 55) followed by its
sensor sync, IR device 2 delivers only a sensor sync and the base device has nothing. -/
def wide_reads (i : Nat) : fd_read :=
  if i = 1 then
    fd_read.bytes 16 fun j =>
      if j = 0 then ⟨SENSEACT_TYPE_BRIGHTNESS, 0, 0, 7, 55⟩
      else ⟨SENSEACT_TYPE_SYNC, 0, 0, SENSEACT_SYNC_SENSOR, 77⟩
  else if i = 2 then
    fd_read.bytes 8 fun _ => ⟨SENSEACT_TYPE_SYNC, 0, 0, SENSEACT_SYNC_SENSOR, 78⟩
  else fd_read.failed EAGAIN

/-! ## The BeBot base driver `bebot-base.c` -/

/-- Embedding of the macro `SPEED_FROM_REG(x)`, `((x * 10) / 3)`, on `int`; C division
truncates toward zero. -/
def SPEED_FROM_REG (x : Int) : Int := Int.tdiv (x * 10) 3

/-- Embedding of the macro `SPEED_TO_REG(x)`,
`((x > 400) ? 120 : (x < -400) ? -120 : ((x * 3) / 10))`, on `int`. -/
def SPEED_TO_REG (x : Int) : Int :=
  if x > 400 then 120 else if x < -400 then -120 else Int.tdiv (x * 3) 10

/-- The `unsigned int` that `SENSEACT_PREFIX_MILLI` (-1) becomes as an argument of
`senseact_pass_actions`. -/
abbrev SENSEACT_PREFIX_MILLI : Nat := 4294967295

/-- The prefix `SENSEACT_PREFIX_NONE` (0). -/
abbrev SENSEACT_PREFIX_NONE : Nat := 0

/-- The result of one `i2c_smbus_read_i2c_block_data` call: the return value (number of
bytes read, or a negative error) and the bytes written to the front of the buffer. -/
structure i2c_block where
  n : Int
  data : Nat → Nat

/-- The local `u8 buffer[12]` after a block read: the bytes read in front, the former
contents behind. -/
def i2c_fill (r : i2c_block) (buffer : Nat → Nat) : Nat → Nat :=
  fun k => if (k : Int) < r.n then u8 (r.data k) else buffer k

/-- The conversion `le32_to_cpu` on the little-endian CPU of the BeBot: the identity. -/
def le32_to_cpu (x : Int) : Int := x

/-- The position word as `bebot_base_poll` assembles it (bebot-base.c, lines 88 and 89):
`buffer[(i * 4) + 3] << 8 | buffer[(i * 4) + 2] | buffer[(i * 4) + 1] << 8 | buffer[i * 4]`. -/
def bebot_base_position_temp (buffer : Nat → Nat) (i : Nat) : Nat :=
  (buffer (i * 4 + 3) <<< 8) ||| buffer (i * 4 + 2) ||| (buffer (i * 4 + 1) <<< 8) |||
    buffer (i * 4)

/-- The angle word (bebot-base.c, line 93):
`buffer[(POSITION_COUNT * 4) + 1] << 8 | buffer[POSITION_COUNT * 4]`. -/
def bebot_base_angle_temp (buffer : Nat → Nat) : Nat :=
  (buffer (2 * 4 + 1) <<< 8) ||| buffer (2 * 4)

/-- The increment word (bebot-base.c, line 106): `buffer[(i * 2) + 1] << 8 | buffer[i * 2]`. -/
def bebot_base_increment_temp (buffer : Nat → Nat) (i : Nat) : Nat :=
  (buffer (i * 2 + 1) <<< 8) ||| buffer (i * 2)

/-- The array `values` after the position block was decoded: two positions and the
angle. -/
def bebot_base_position_values (buffer : Nat → Nat) (old : Nat → Int) : Nat → Int :=
  fun k =>
    if k = 0 then le32_to_cpu (bebot_base_position_temp buffer 0)
    else if k = 1 then le32_to_cpu (bebot_base_position_temp buffer 1)
    else if k = 2 then le32_to_cpu (bebot_base_angle_temp buffer)
    else old k

/-- The array `values` after the increment block was decoded. -/
def bebot_base_increment_values (buffer : Nat → Nat) (old : Nat → Int) : Nat → Int :=
  fun k =>
    if k = 0 then le32_to_cpu (bebot_base_increment_temp buffer 0)
    else if k = 1 then le32_to_cpu (bebot_base_increment_temp buffer 1)
    else old k

/-- The array `values` after the speed block was decoded:
`values[i] = SPEED_FROM_REG(le32_to_cpu(buffer[i]))`. -/
def bebot_base_speed_values (buffer : Nat → Nat) (old : Nat → Int) : Nat → Int :=
  fun k =>
    if k = 0 then SPEED_FROM_REG (le32_to_cpu (buffer 0))
    else if k = 1 then SPEED_FROM_REG (le32_to_cpu (buffer 1))
    else old k

/-- Embedding of `bebot_base_poll` (bebot-base.c, lines 71 to 127). `rd_position`,
`rd_increment` and `rd_speed` are the three block reads, `buffer0` and `values0` the
initial contents of the local arrays, `msecs` the clock read by the SYNC, and
`stack_unit c` the unassigned `unit` byte of the action built by the `c`-th
`senseact_pass_actions` call. The result is the device and the return value. -/
def bebot_base_poll {σ : Type} (senseact : senseact_device σ) (msecs : Nat → Nat)
    (stack_unit : Nat → Nat) (buffer0 : Nat → Nat) (values0 : Nat → Int)
    (rd_position rd_increment rd_speed : i2c_block) : senseact_device σ × Int :=
  -- read position
  let buffer1 := i2c_fill rd_position buffer0
  if rd_position.n ≤ 0 then
    (senseact, rd_position.n)
  else
    let values1 := bebot_base_position_values buffer1 values0
    let dev1 := senseact_pass_actions senseact msecs (stack_unit 0) SENSEACT_TYPE_POSITION
      SENSEACT_PREFIX_MILLI 0 2 values1
    -- senseact_pass_action(senseact, SENSEACT_TYPE_ANGLE, SENSEACT_PREFIX_MILLI, 0, values[2])
    let dev2 := senseact_pass_actions dev1 msecs (stack_unit 1) SENSEACT_TYPE_ANGLE
      SENSEACT_PREFIX_MILLI 0 1 (fun _ => values1 2)
    -- read increment
    let buffer2 := i2c_fill rd_increment buffer1
    if rd_increment.n ≤ 0 then
      (dev2, rd_increment.n)
    else
      let values2 := bebot_base_increment_values buffer2 values1
      let dev3 := senseact_pass_actions dev2 msecs (stack_unit 2) SENSEACT_TYPE_INCREMENT
        SENSEACT_PREFIX_NONE 0 2 values2
      -- read speed
      let buffer3 := i2c_fill rd_speed buffer2
      if rd_speed.n ≤ 0 then
        (dev3, rd_speed.n)
      else
        let values3 := bebot_base_speed_values buffer3 values2
        let dev4 := senseact_pass_actions dev3 msecs (stack_unit 3) SENSEACT_TYPE_SPEED
          SENSEACT_PREFIX_MILLI 2 2 values3
        -- senseact_sync(senseact, SENSEACT_SYNC_SENSOR)
        let dev5 := senseact_pass_actions dev4 msecs (stack_unit 4) SENSEACT_TYPE_SYNC 0
          SENSEACT_SYNC_SENSOR 1 (fun _ => 0)
        (dev5, 0)

/-- The 32-bit little-endian double word formed by bytes `off .. off + 3`, as an unsigned
number. -/
def le32_word (buffer : Nat → Nat) (off : Nat) : Nat :=
  buffer off + 2 ^ 8 * buffer (off + 1) + 2 ^ 16 * buffer (off + 2) + 2 ^ 24 * buffer (off + 3)

/-- The 16-bit little-endian word formed by bytes `off` and `off + 1`. -/
def le16_word (buffer : Nat → Nat) (off : Nat) : Nat :=
  buffer off + 2 ^ 8 * buffer (off + 1)

/-- The capabilities `bebot_base_probe` sets (bebot-base.c, lines 212 to 215) on a device. -/
def bebot_base_capabilities {σ : Type} (senseact : senseact_device σ) : senseact_device σ :=
  senseact_set_capabilities
    (senseact_set_capabilities
      (senseact_set_capabilities
        (senseact_set_capabilities senseact SENSEACT_TYPE_SPEED 4)
        SENSEACT_TYPE_INCREMENT 2)
      SENSEACT_TYPE_POSITION 2)
    SENSEACT_TYPE_ANGLE 1

/-- The base device as probed, with one freshly attached queue. -/
def base_device : senseact_device Unit :=
  bebot_base_capabilities
    { types := 1, users := 1, going_away := false, queue_list := [senseact_queue_zero],
      drvdata := () }

/-- A position block whose first double word is 65536 (byte 2 is 1), whose second is 258
(bytes 4 and 5 are 2 and 1) and whose angle word is 513 (bytes 8 and 9 are 1 and 2). -/
def position_block : i2c_block :=
  { n := 10,
    data := fun k => if k = 2 then 1 else if k = 4 then 2 else if k = 5 then 1
      else if k = 8 then 1 else if k = 9 then 2 else 0 }

/-- An increment block with the words 3 and 4. -/
def increment_block : i2c_block :=
  { n := 4, data := fun k => if k = 0 then 3 else if k = 2 then 4 else 0 }

/-- A speed block with the register values 30 and 60. -/
def speed_block : i2c_block :=
  { n := 2, data := fun k => if k = 0 then 30 else if k = 1 then 60 else 0 }

/-- A block read that failed with -5. -/
def failed_block : i2c_block :=
  { n := -5, data := fun _ => 0 }

/-- Array size: `#define SETSPEED_COUNT 2`. -/
abbrev SETSPEED_COUNT : Nat := 2

/-- The private data `struct bebot_base_device` (bebot-base.c, lines 61 to 66) as far as
the driver computes with it: the register image `u8 speed[SETSPEED_COUNT]`. -/
structure bebot_base_data where
  speed : Nat → Nat

/-- Conversion of an `int` to `u8`, as in the assignment to an element of `u8 speed[]`. -/
def u8_of_int (x : Int) : Nat := (x % 256).toNat

/-- Embedding of the loop of `bebot_base_pass` (bebot-base.c, lines 136 to 159) over the
iterations `i` still to run. A SPEED value is stored as
`base->speed[index + i] = SPEED_TO_REG(values[i])`; a SYNC writes the register image
(`i2c_write i` is what `i2c_smbus_write_i2c_block_data` returns), reads it back with
`values[n] = SPEED_FROM_REG(base->speed[n])`, passes `SETSPEED_COUNT` SPEED actions taken
from the local array `buffer` and a SYNC with index `SENSEACT_SYNC_ACTOR`. The result is
the device, the array `values` and the return value. -/
def bebot_base_pass_loop (msecs : Nat → Nat) (stack_unit : Nat) (buffer : Nat → Int)
    (i2c_write : Nat → Int) (type index : Nat) :
    List Nat → senseact_device bebot_base_data → (Nat → Int) →
      senseact_device bebot_base_data × (Nat → Int) × Int
  | [], senseact, values => (senseact, values, 0)
  | i :: rest, senseact, values =>
    if type = SENSEACT_TYPE_SPEED then
      if u32 (index + i) < SETSPEED_COUNT then
        bebot_base_pass_loop msecs stack_unit buffer i2c_write type index rest
          { senseact with drvdata :=
              { speed := Function.update senseact.drvdata.speed (u32 (index + i))
                  (u8_of_int (SPEED_TO_REG (values i))) } }
          values
      else
        bebot_base_pass_loop msecs stack_unit buffer i2c_write type index rest senseact values
    else if type = SENSEACT_TYPE_SYNC then
      if i2c_write i < 0 then
        (senseact, values, i2c_write i)
      else
        let values1 : Nat → Int := fun n =>
          if n < SETSPEED_COUNT then SPEED_FROM_REG (senseact.drvdata.speed n) else values n
        let dev1 := senseact_pass_actions senseact msecs stack_unit SENSEACT_TYPE_SPEED
          SENSEACT_PREFIX_MILLI 0 SETSPEED_COUNT buffer
        -- senseact_sync(senseact, SENSEACT_SYNC_ACTOR)
        let dev2 := senseact_pass_actions dev1 msecs stack_unit SENSEACT_TYPE_SYNC 0
          SENSEACT_SYNC_ACTOR 1 (fun _ => 0)
        bebot_base_pass_loop msecs stack_unit buffer i2c_write type index rest dev2 values1
    else
      bebot_base_pass_loop msecs stack_unit buffer i2c_write type index rest senseact values

/-- Embedding of `bebot_base_pass` (bebot-base.c, lines 129 to 162): the loop
`for (i = 0; i < count; i++)`. -/
def bebot_base_pass (msecs : Nat → Nat) (stack_unit : Nat) (buffer : Nat → Int)
    (i2c_write : Nat → Int) (senseact : senseact_device bebot_base_data)
    (type index count : Nat) (values : Nat → Int) :
    senseact_device bebot_base_data × (Nat → Int) × Int :=
  bebot_base_pass_loop msecs stack_unit buffer i2c_write type index (List.range count)
    senseact values

/-- What the driver hands back for a speed `x` written to wheel 0: `bebot_base_pass` with
the SPEED action, then `bebot_base_pass` with the SYNC that follows a write, whose
`values[0]` is read. -/
def bebot_base_speed_round_trip (senseact : senseact_device bebot_base_data) (x : Int) :
    Int :=
  let r1 := bebot_base_pass (fun _ => 0) 0 (fun _ => 0) (fun _ => 0) senseact
    SENSEACT_TYPE_SPEED 0 1 (fun _ => x)
  let r2 := bebot_base_pass (fun _ => 0) 0 (fun _ => 0) (fun _ => 0) r1.1
    SENSEACT_TYPE_SYNC SENSEACT_SYNC_ACTOR 1 (fun _ => 0)
  r2.2.1 0

/-- Embedding of the macro `MOTOR_SPEED_FROM_REG(x)`, `(((s8)x * 10) / 3)`, of the older
driver bebot_motor.c (line 55), applied to a register byte. -/
def MOTOR_SPEED_FROM_REG (x : Nat) : Int := Int.tdiv (s8 x * 10) 3

/-- The base device as probed, with the register image zeroed and one attached queue. -/
def base_speed_device : senseact_device bebot_base_data :=
  bebot_base_capabilities
    { types := 1, users := 1, going_away := false, queue_list := [senseact_queue_zero],
      drvdata := { speed := fun _ => 0 } }

/-! ## The Player drivers `bebot_base.cc` and `bebot_motor.cc` -/

/-- Constant of bebot_base.cc: `#define WIDTH 90` (an `int`, millimetres). -/
def BeBotBase.WIDTH : Int := 90

/-- Constant of bebot_base.cc: `#define LENGTH 90` (an `int`, millimetres). -/
def BeBotBase.LENGTH : Int := 90

/-- Constant of bebot_motor.cc: `#define WIDTH 0.09` (metres). -/
def BeBotMotor.WIDTH : ℚ := 0.09

/-- Constant of bebot_motor.cc: `#define LENGTH 0.09` (metres). -/
def BeBotMotor.LENGTH : ℚ := 0.09

/-- The size `(sl, sw)` that `BeBotBase::ProcessMessage` puts into the answer to
`PLAYER_POSITION2D_REQ_GET_GEOM` (bebot_base.cc, lines 227 and 228):
`geom.size.sl = LENGTH / 1000; geom.size.sw = WIDTH / 1000;`, an `int` division whose
result is then converted to the floating-point field. -/
def BeBotBase.geom_size : ℚ × ℚ :=
  (((Int.tdiv BeBotBase.LENGTH 1000 : Int) : ℚ), ((Int.tdiv BeBotBase.WIDTH 1000 : Int) : ℚ))

/-- The size `(sl, sw)` that `BeBotMotor::ProcessMessage` reports (bebot_motor.cc, lines
187 and 188): `geom.size.sl = LENGTH; geom.size.sw = WIDTH;`. -/
def BeBotMotor.geom_size : ℚ × ℚ :=
  (BeBotMotor.LENGTH, BeBotMotor.WIDTH)

/-- The values of the two SPEED actions (index 0: left, index 1: right) that
`BeBotBase::ProcessMessage` writes for a velocity command (bebot_base.cc, lines 177 to
190), from `translation` and `rotation` as converted to `int`:
`translation - rotation * WIDTH / 2` and `translation + rotation * WIDTH / 2`. The
arithmetic here is exact; it is that of the source's 32-bit `int` as long as
`rotation * WIDTH` and the two results stay inside the `int` range. -/
def BeBotBase.cmd_vel_values (translation rotation : Int) : Int × Int :=
  (translation - Int.tdiv (rotation * BeBotBase.WIDTH) 2,
    translation + Int.tdiv (rotation * BeBotBase.WIDTH) 2)

/-- The wheel speeds in mm/s that `BeBotMotor::setSpeeds` computes (bebot_motor.cc, lines
202 to 207) before the conversion to `short`, in exact arithmetic:
`(v_translate - v_rotate * WIDTH / 2.0) * 1000` for the left wheel, with `+` for the
right wheel. -/
def BeBotMotor.setSpeeds_mm (v_translate v_rotate : ℚ) : ℚ × ℚ :=
  ((v_translate - v_rotate * BeBotMotor.WIDTH / 2) * 1000,
    (v_translate + v_rotate * BeBotMotor.WIDTH / 2) * 1000)

/-! ## The poll helper `senseact-poll.c` -/

/-- The increment `x++` of an `int` in two's complement: `INT_MAX` wraps to `INT_MIN`. -/
def s32_inc (x : Int) : Int := if x = 2147483647 then -2147483648 else x + 1

/-- The decrement `--x` of an `int` in two's complement: `INT_MIN` wraps to `INT_MAX`. -/
def s32_dec (x : Int) : Int := if x = -2147483648 then 2147483647 else x - 1

/-- The file-scope variables of senseact-poll.c (lines 19 and 20) and the kernel objects
they refer to: the counter `senseact_poll_users`, the pointer `senseact_poll_wq` (`none`
is NULL), the workqueues that were created and not yet destroyed, and for every poll
device whether its delayed work is queued. -/
structure senseact_poll_state where
  senseact_poll_users : Int
  senseact_poll_wq : Option Nat
  workqueues : List Nat
  delayed_work : Nat → Bool

/-- Effect of `destroy_workqueue(wq)` on the workqueues that exist. -/
def destroy_workqueue (wq : Option Nat) (workqueues : List Nat) : List Nat :=
  match wq with
  | none => workqueues
  | some w => workqueues.erase w

/-- Embedding of `senseact_poll_start_workqueue` (senseact-poll.c, lines 22 to 45). `lock`
is what `mutex_lock_interruptible` returned, `created` what
`create_singlethread_workqueue` returns when it is called (`none` is NULL). -/
def senseact_poll_start_workqueue (lock : Int) (created : Option Nat)
    (s : senseact_poll_state) : senseact_poll_state × Int :=
  if lock ≠ 0 then
    (s, lock)
  else if s.senseact_poll_users = 0 then
    match created with
    | none => ({ s with senseact_poll_wq := none }, -ENOMEM)
    | some wq =>
        ({ s with senseact_poll_wq := some wq,
                  workqueues := wq :: s.workqueues,
                  senseact_poll_users := s32_inc s.senseact_poll_users }, 0)
  else
    ({ s with senseact_poll_users := s32_inc s.senseact_poll_users }, 0)

/-- Embedding of `senseact_poll_stop_workqueue` (senseact-poll.c, lines 47 to 55):
`if (!--senseact_poll_users) destroy_workqueue(senseact_poll_wq);`. -/
def senseact_poll_stop_workqueue (s : senseact_poll_state) : senseact_poll_state :=
  let s1 := { s with senseact_poll_users := s32_dec s.senseact_poll_users }
  if s1.senseact_poll_users = 0 then
    { s1 with workqueues := destroy_workqueue s1.senseact_poll_wq s1.workqueues }
  else
    s1

/-- Embedding of `senseact_poll_open` (senseact-poll.c, lines 72 to 85) for the poll
device `senseact_poll`: after a successful `senseact_poll_start_workqueue` the device's
delayed work is queued. -/
def senseact_poll_open (lock : Int) (created : Option Nat) (senseact_poll : Nat)
    (s : senseact_poll_state) : senseact_poll_state × Int :=
  let r := senseact_poll_start_workqueue lock created s
  if r.2 ≠ 0 then
    (r.1, r.2)
  else
    ({ r.1 with delayed_work := Function.update r.1.delayed_work senseact_poll true }, 0)

/-- Embedding of `senseact_poll_close` (senseact-poll.c, lines 87 to 93):
`cancel_delayed_work_sync` on the device's work, then `senseact_poll_stop_workqueue`. -/
def senseact_poll_close (senseact_poll : Nat) (s : senseact_poll_state) :
    senseact_poll_state :=
  senseact_poll_stop_workqueue
    { s with delayed_work := Function.update s.delayed_work senseact_poll false }

/-- One call of the poll helper: `senseact_poll_open` (with the result of taking the
mutex and of creating the workqueue) or `senseact_poll_close`, on a poll device. -/
inductive poll_op where
  | open_ (lock : Int) (created : Option Nat) (senseact_poll : Nat)
  | close (senseact_poll : Nat)
  deriving DecidableEq, Repr

/-- Run a sequence of calls; the second component lists what each `senseact_poll_open`
returned. -/
def run_poll_ops (s : senseact_poll_state) : List poll_op → senseact_poll_state × List Int
  | [] => (s, [])
  | poll_op.open_ lock created d :: ops =>
      let r := senseact_poll_open lock created d s
      let rest := run_poll_ops r.1 ops
      (rest.1, r.2 :: rest.2)
  | poll_op.close d :: ops => run_poll_ops (senseact_poll_close d s) ops

/-- Number of `senseact_poll_open` calls of the sequence that returned 0. -/
def successful_poll_opens (s : senseact_poll_state) (ops : List poll_op) : Nat :=
  (run_poll_ops s ops).2.count 0

/-- Number of `senseact_poll_close` calls of the sequence. -/
def poll_close_calls : List poll_op → Nat
  | [] => 0
  | poll_op.open_ _ _ _ :: ops => poll_close_calls ops
  | poll_op.close _ :: ops => poll_close_calls ops + 1

/-- The variables when the module is loaded: no user, NULL pointer, no workqueue, no work
queued. -/
def senseact_poll_init : senseact_poll_state :=
  { senseact_poll_users := 0,
    senseact_poll_wq := none,
    workqueues := [],
    delayed_work := fun _ => false }

/-- Two devices are opened (the workqueue 5 is created for the first), a third open is
interrupted at the mutex, both devices are closed, an open fails to create the workqueue
and a last open creates the workqueue 6. -/
def poll_example : List poll_op :=
  [poll_op.open_ 0 (some 5) 1, poll_op.open_ 0 none 2, poll_op.open_ (-4) (some 9) 3,
    poll_op.close 1, poll_op.close 2, poll_op.open_ 0 none 1, poll_op.open_ 0 (some 6) 1]

/-! # Theorems -/

/-! ## Queue lemmas -/

theorem and_mask_eq_mod (x : Nat) : x &&& (SENSEACT_BUFFER_SIZE - 1) = x % 64 := by
  have h := Nat.and_pow_two_sub_one_eq_mod x 6
  simpa using h

theorem queue_contents_length (q : senseact_queue) :
    (queue_contents q).length = queue_pending q := by
  simp [queue_contents]

theorem queue_pending_lt (q : senseact_queue) : queue_pending q < 64 := by
  unfold queue_pending
  simp only [SENSEACT_BUFFER_SIZE]
  omega

theorem queue_pending_zero_iff (q : senseact_queue) (h : queue_wf q) :
    queue_pending q = 0 ↔ q.head = q.tail := by
  unfold queue_wf at h
  unfold queue_pending
  simp only [SENSEACT_BUFFER_SIZE] at *
  omega

theorem insert_wf (q : senseact_queue) (a : senseact_action) (h : queue_wf q) :
    queue_wf (senseact_queue_insert_action q a).1 := by
  unfold queue_wf at *
  simp only [senseact_queue_insert_action, SENSEACT_BUFFER_SIZE] at *
  omega

theorem insert_pending (q : senseact_queue) (a : senseact_action) (h : queue_wf q)
    (hp : queue_pending q < 63) :
    queue_pending (senseact_queue_insert_action q a).1 = queue_pending q + 1 := by
  unfold queue_wf at h
  unfold queue_pending at *
  simp only [senseact_queue_insert_action, SENSEACT_BUFFER_SIZE] at *
  omega

theorem insert_contents (q : senseact_queue) (a : senseact_action) (h : queue_wf q)
    (hp : queue_pending q < 63) :
    queue_contents (senseact_queue_insert_action q a).1 = queue_contents q ++ [a] := by
  have hpend := insert_pending q a h hp
  unfold queue_contents
  rw [hpend, List.range_succ, List.map_append]
  have hw := h
  unfold queue_wf at hw
  simp only [SENSEACT_BUFFER_SIZE] at hw
  congr 1
  · apply List.map_congr_left
    intro k hk
    have hk' : k < queue_pending q := List.mem_range.mp hk
    simp only [senseact_queue_insert_action]
    have hne : (q.tail + k) % 64 ≠ q.head := by
      unfold queue_pending at hk' hp
      simp only [SENSEACT_BUFFER_SIZE] at hk' hp
      omega
    simp [Function.update, hne]
  · simp only [senseact_queue_insert_action, List.map_cons, List.map_nil]
    have heq : (q.tail + queue_pending q) % 64 = q.head := by
      unfold queue_pending
      simp only [SENSEACT_BUFFER_SIZE]
      omega
    simp [Function.update, heq]

theorem fetch_empty (q : senseact_queue) (h : q.head = q.tail) :
    senseact_queue_fetch_next_action q = (q, none) := by
  simp [senseact_queue_fetch_next_action, h]

theorem fetch_nonempty (q : senseact_queue) (h : queue_wf q) (hne : q.head ≠ q.tail) :
    (senseact_queue_fetch_next_action q).2 = some (q.buffer q.tail) ∧
    queue_wf (senseact_queue_fetch_next_action q).1 ∧
    queue_pending (senseact_queue_fetch_next_action q).1 + 1 = queue_pending q ∧
    queue_contents q = q.buffer q.tail :: queue_contents (senseact_queue_fetch_next_action q).1 := by
  have hw := h
  unfold queue_wf at hw
  simp only [SENSEACT_BUFFER_SIZE] at hw
  have hp : queue_pending { q with tail := (q.tail + 1) % 64 } + 1 = queue_pending q := by
    unfold queue_pending
    simp only [SENSEACT_BUFFER_SIZE]
    omega
  have hf : senseact_queue_fetch_next_action q =
      ({ q with tail := (q.tail + 1) % 64 }, some (q.buffer q.tail)) := by
    simp only [senseact_queue_fetch_next_action, if_neg hne, and_mask_eq_mod]
  rw [hf]
  refine ⟨rfl, ?_, hp, ?_⟩
  · unfold queue_wf
    simp only [SENSEACT_BUFFER_SIZE]
    omega
  · unfold queue_contents
    rw [← hp, List.range_succ_eq_map, List.map_cons, List.map_map]
    congr 1
    · simp [Nat.mod_eq_of_lt hw.2]
    · apply List.map_congr_left
      intro k _
      simp only [Function.comp, SENSEACT_BUFFER_SIZE]
      congr 1
      omega

theorem run_queue_ops_append (q : senseact_queue) (xs ys : List queue_op) :
    run_queue_ops q (xs ++ ys) =
      ((run_queue_ops (run_queue_ops q xs).1 ys).1,
        (run_queue_ops q xs).2 ++ (run_queue_ops (run_queue_ops q xs).1 ys).2) := by
  induction xs generalizing q with
  | nil => simp [run_queue_ops]
  | cons op xs ih =>
    cases op with
    | insert a => simp [run_queue_ops, ih]
    | fetch => simp [run_queue_ops, ih]

theorem inserted_actions_append (xs ys : List queue_op) :
    inserted_actions (xs ++ ys) = inserted_actions xs ++ inserted_actions ys := by
  induction xs with
  | nil => simp [inserted_actions]
  | cons op xs ih => cases op <;> simp [inserted_actions, ih]

theorem never_full_left (xs ys : List queue_op) (h : never_full (xs ++ ys)) :
    never_full xs := by
  intro n hn
  have h1 := h n (by simp; omega)
  rwa [List.take_append_of_le_length hn] at h1

theorem never_full_pending (ops : List queue_op) (h : never_full ops) :
    pending_count ops < 64 := by
  have h1 := h ops.length (le_refl _)
  simpa using h1

/-- Along a sequence that never fills the ring, the cursors stay inside the buffer and the
pending cells are exactly the inserted actions that no fetch has returned yet. -/
theorem queue_invariant (ops : List queue_op) (h : never_full ops) :
    queue_wf (queue_after ops) ∧
      fetched_actions ops ++ queue_contents (queue_after ops) = inserted_actions ops := by
  induction ops using List.reverseRecOn with
  | nil =>
    refine ⟨by decide, ?_⟩
    simp [fetched_actions, queue_after, run_queue_ops, inserted_actions, queue_contents,
      queue_pending, senseact_queue_zero]
  | append_singleton pre op ih =>
    obtain ⟨hwf, hc⟩ := ih (never_full_left pre [op] h)
    have hfull := never_full_pending _ h
    have hlen : (fetched_actions pre).length + queue_pending (queue_after pre) =
        (inserted_actions pre).length := by
      rw [← hc, List.length_append, queue_contents_length]
    cases op with
    | insert a =>
      have hq : queue_after (pre ++ [queue_op.insert a]) =
          (senseact_queue_insert_action (queue_after pre) a).1 := by
        simp [queue_after, run_queue_ops_append, run_queue_ops]
      have hf : fetched_actions (pre ++ [queue_op.insert a]) = fetched_actions pre := by
        simp [fetched_actions, run_queue_ops_append, run_queue_ops]
      have hp : queue_pending (queue_after pre) < 63 := by
        unfold pending_count at hfull
        rw [hf, inserted_actions_append] at hfull
        simp [inserted_actions] at hfull
        omega
      rw [hq, hf, inserted_actions_append]
      refine ⟨insert_wf _ _ hwf, ?_⟩
      rw [insert_contents _ _ hwf hp, ← List.append_assoc, hc]
      simp [inserted_actions]
    | fetch =>
      have hq : queue_after (pre ++ [queue_op.fetch]) =
          (senseact_queue_fetch_next_action (queue_after pre)).1 := by
        simp [queue_after, run_queue_ops_append, run_queue_ops]
      have hf : fetched_actions (pre ++ [queue_op.fetch]) =
          fetched_actions pre ++ (senseact_queue_fetch_next_action (queue_after pre)).2.toList := by
        simp only [fetched_actions, run_queue_ops_append, run_queue_ops, List.filterMap_append,
          queue_after]
        cases (senseact_queue_fetch_next_action (run_queue_ops senseact_queue_zero pre).1).2 <;>
          simp
      have hi : inserted_actions (pre ++ [queue_op.fetch]) = inserted_actions pre := by
        simp [inserted_actions_append, inserted_actions]
      rw [hq, hf, hi]
      by_cases he : (queue_after pre).head = (queue_after pre).tail
      · rw [fetch_empty _ he]
        exact ⟨hwf, by simpa using hc⟩
      · obtain ⟨h1, h2, _, h4⟩ := fetch_nonempty _ hwf he
        refine ⟨h2, ?_⟩
        rw [h1, ← hc, h4]
        simp

/-! ## C1: the queue is a FIFO -/

/-- C1. Starting from the zero-initialised queue, along every interleaving of inserts and
fetches in which the number of pending actions never reaches `SENSEACT_BUFFER_SIZE`, the
k-th successful fetch returns the k-th inserted action, and every fetch of the sequence
returns 0 (empty) if and only if no action is pending when it is issued. -/
theorem senseact_queue_fifo (ops : List queue_op) (h : never_full ops) :
    (∀ (k : Nat) (a : senseact_action), (fetched_actions ops)[k]? = some a →
      (inserted_actions ops)[k]? = some a) ∧
    ∀ pre post, ops = pre ++ queue_op.fetch :: post →
      ((senseact_queue_fetch_next_action (queue_after pre)).2 = none ↔
        pending_count pre = 0) := by
  constructor
  · intro k a hk
    obtain ⟨_, hc⟩ := queue_invariant ops h
    rw [← hc]
    have hlt : k < (fetched_actions ops).length := by
      by_contra hge
      rw [List.getElem?_eq_none (by omega)] at hk
      exact Option.noConfusion hk
    rw [List.getElem?_append_left hlt]
    exact hk
  · intro pre post hops
    subst hops
    obtain ⟨hwf, hc⟩ := queue_invariant pre (never_full_left _ _ h)
    have hlen : pending_count pre = queue_pending (queue_after pre) := by
      unfold pending_count
      rw [← hc, List.length_append, queue_contents_length]
      omega
    rw [hlen, queue_pending_zero_iff _ hwf]
    by_cases he : (queue_after pre).head = (queue_after pre).tail
    · simp [fetch_empty _ he, he]
    · simp [(fetch_nonempty _ hwf he).1, he]

/-- C1 at a concrete interleaving. -/
theorem senseact_queue_fifo_witness :
    never_full fifo_example ∧
    (∀ (k : Nat) (a : senseact_action), (fetched_actions fifo_example)[k]? = some a →
      (inserted_actions fifo_example)[k]? = some a) ∧
    ∀ pre post, fifo_example = pre ++ queue_op.fetch :: post →
      ((senseact_queue_fetch_next_action (queue_after pre)).2 = none ↔
        pending_count pre = 0) :=
  ⟨by decide, senseact_queue_fifo fifo_example (by decide)⟩

/-! ## C2: insertion never refuses, and reports the overrun -/

/-- C2. `senseact_queue_insert_action` always completes: in every queue state it stores
the action at `buffer[head]` (touching no other cell and not the tail), advances `head`
modulo 64, and reports an overrun exactly when `head` equals `tail` afterwards; for a
queue whose cursors index the buffer, holding `p < 64` pending actions, that is exactly
when `p = 63`. -/
theorem senseact_queue_insert_overrun (q : senseact_queue) (a : senseact_action) :
    (senseact_queue_insert_action q a).1.buffer q.head = a ∧
    (∀ i, i ≠ q.head → (senseact_queue_insert_action q a).1.buffer i = q.buffer i) ∧
    (senseact_queue_insert_action q a).1.head = (q.head + 1) % SENSEACT_BUFFER_SIZE ∧
    (senseact_queue_insert_action q a).1.tail = q.tail ∧
    ((senseact_queue_insert_action q a).2 = true ↔
      (senseact_queue_insert_action q a).1.head = (senseact_queue_insert_action q a).1.tail) ∧
    (queue_wf q → queue_pending q < SENSEACT_BUFFER_SIZE ∧
      ((senseact_queue_insert_action q a).2 = true ↔ queue_pending q = 63)) := by
  refine ⟨?_, ?_, rfl, rfl, ?_, ?_⟩
  · simp [senseact_queue_insert_action]
  · intro i hi
    simp [senseact_queue_insert_action, Function.update, hi]
  · simp [senseact_queue_insert_action]
  · intro hwf
    refine ⟨queue_pending_lt q, ?_⟩
    unfold queue_wf at hwf
    unfold queue_pending
    simp only [senseact_queue_insert_action, beq_iff_eq, SENSEACT_BUFFER_SIZE] at *
    omega

/-- C2 at a queue with 63 pending actions: the insertion is carried out and reports the
overrun. -/
theorem senseact_queue_insert_overrun_witness :
    queue_wf queue_almost_full ∧ queue_pending queue_almost_full = 63 ∧
    (senseact_queue_insert_action queue_almost_full ⟨3, 0, 0, 0, 5⟩).2 = true :=
  ⟨by decide, by decide,
    ((senseact_queue_insert_overrun queue_almost_full ⟨3, 0, 0, 0, 5⟩).2.2.2.2.2
      (by decide)).2.mpr (by decide)⟩

/-! ## Fan-out lemmas -/

theorem u8_u32 (n : Nat) : u8 (u32 n) = n % 256 := by
  unfold u8 u32
  omega

theorem s8_of_int (p : Int) (hlo : -128 ≤ p) (hhi : p ≤ 127) :
    s8 (p % 2 ^ 32).toNat = p := by
  unfold s8
  have h1 : ((p % 2 ^ 32).toNat : Int) = p % 2 ^ 32 := Int.toNat_of_nonneg (by omega)
  split <;> omega

theorem type_le_max_of_mask (types t : Nat) (hmask : types < 2 ^ SENSEACT_TYPE_CNT)
    (ht : types.testBit t = true) : t ≤ SENSEACT_TYPE_MAX := by
  by_contra hgt
  simp only [SENSEACT_TYPE_MAX, SENSEACT_TYPE_CNT] at hgt hmask
  have hpow : (2 : Nat) ^ 8 ≤ 2 ^ t := Nat.pow_le_pow_right (by decide) (by omega)
  have hfalse := Nat.testBit_lt_two_pow (lt_of_lt_of_le hmask hpow)
  rw [hfalse] at ht
  exact Bool.noConfusion ht

theorem foldl_map_queues {σ : Type} (mk : Nat → senseact_action) (is : List Nat)
    (dev : senseact_device σ) :
    is.foldl (fun d i => { d with queue_list := d.queue_list.map fun queue =>
        (senseact_queue_insert_action queue (mk i)).1 }) dev =
      { dev with queue_list := dev.queue_list.map fun q => queue_insert_all q (is.map mk) } := by
  induction is generalizing dev with
  | nil => simp [queue_insert_all]
  | cons i is ih =>
    rw [List.foldl_cons, ih]
    simp [queue_insert_all, List.map_map, Function.comp]

theorem handle_actions_eq {σ : Type} (dev : senseact_device σ) (msecs : Nat → Nat)
    (stack_unit type pfx index count : Nat) (values : Nat → Int) :
    senseact_handle_actions dev msecs stack_unit type pfx index count values =
      { dev with queue_list := dev.queue_list.map fun q =>
          queue_insert_all q (passed_actions msecs stack_unit type pfx index count values) } := by
  unfold senseact_handle_actions passed_actions
  exact foldl_map_queues _ _ dev

theorem queue_insert_all_contents (actions : List senseact_action) (q : senseact_queue)
    (hwf : queue_wf q) (hp : queue_pending q + actions.length < SENSEACT_BUFFER_SIZE) :
    queue_wf (queue_insert_all q actions) ∧
      queue_contents (queue_insert_all q actions) = queue_contents q ++ actions := by
  induction actions generalizing q with
  | nil => simpa [queue_insert_all] using hwf
  | cons a as ih =>
    simp only [List.length_cons, SENSEACT_BUFFER_SIZE] at hp
    have hlt : queue_pending q < 63 := by omega
    have h1 := insert_wf q a hwf
    have h2 := insert_pending q a hwf hlt
    have h3 := insert_contents q a hwf hlt
    have hrec := ih (senseact_queue_insert_action q a).1 h1
      (by simp only [SENSEACT_BUFFER_SIZE]; omega)
    have hstep : queue_insert_all q (a :: as) =
        queue_insert_all (senseact_queue_insert_action q a).1 as := by
      simp [queue_insert_all]
    rw [hstep]
    refine ⟨hrec.1, ?_⟩
    rw [hrec.2, h3]
    simp

/-! ## C3: broadcast fan-out -/

/-- C3, as stated, fails: the `prefix` argument is an `unsigned int` stored into the
`__s8` field. On a device supporting SPEED with one empty queue,
`senseact_pass_actions(dev, SPEED, 200, 0, 1, {5})` appends one action whose prefix is
-56, not the given 200. -/
theorem senseact_pass_actions_prefix_counterexample :
    (senseact_pass_actions speed_device (fun _ => 0) 0 3 200 0 1 (fun _ => 5)).queue_list.map
        queue_contents = [[{ type := 3, pfx := -56, unit := 0, index := 0, value := 5 }]] ∧
    ¬ (∀ q ∈ (senseact_pass_actions speed_device (fun _ => 0) 0 3 200 0 1
          (fun _ => 5)).queue_list,
        ∀ a ∈ queue_contents q, a.pfx = 200) := by
  decide

/-- C3, amended. For a device whose capability bitmap (of `SENSEACT_TYPE_CNT` bits)
contains type `t`, `senseact_pass_actions(dev, t, prefix, index, count, values)` inserts
into every attached queue the same `count` actions in increasing `i` and changes nothing
else; a queue with room for them (pending + count below 64) then holds its former pending
actions followed by these `count` actions. The i-th action has type `t`, the prefix
converted to the signed 8-bit field (a prefix between -128 and 127 is kept), index
`(index + i)` truncated to 8 bits, and value `values[i]`, or for `SENSEACT_TYPE_SYNC` the
time in milliseconds read in that iteration, converted to the signed 32-bit field. -/
theorem senseact_pass_actions_fanout {σ : Type} (dev : senseact_device σ)
    (msecs : Nat → Nat) (stack_unit t pfx index count : Nat) (values : Nat → Int)
    (hmask : dev.types < 2 ^ SENSEACT_TYPE_CNT) (ht : dev.types.testBit t = true) :
    senseact_pass_actions dev msecs stack_unit t pfx index count values =
      { dev with queue_list := dev.queue_list.map fun q =>
          queue_insert_all q (passed_actions msecs stack_unit t pfx index count values) } ∧
    (∀ q ∈ dev.queue_list, queue_wf q → queue_pending q + count < SENSEACT_BUFFER_SIZE →
      queue_contents
          (queue_insert_all q (passed_actions msecs stack_unit t pfx index count values)) =
        queue_contents q ++ passed_actions msecs stack_unit t pfx index count values) ∧
    (passed_actions msecs stack_unit t pfx index count values).length = count ∧
    ∀ i, i < count →
      ∃ a, (passed_actions msecs stack_unit t pfx index count values)[i]? = some a ∧
        a.type = t ∧ a.pfx = s8 pfx ∧
        (∀ p : Int, -128 ≤ p → p ≤ 127 → pfx = (p % 2 ^ 32).toNat → a.pfx = p) ∧
        a.index = (index + i) % 2 ^ 8 ∧
        a.value = if t = SENSEACT_TYPE_SYNC then s32 (msecs i) else values i := by
  have hle := type_le_max_of_mask dev.types t hmask ht
  have hsup : is_type_supported dev t = true := by
    simp [is_type_supported, hle, ht]
  have hu8 : u8 t = t := by
    unfold u8
    simp only [SENSEACT_TYPE_MAX] at hle
    omega
  have hlen : (passed_actions msecs stack_unit t pfx index count values).length = count := by
    simp [passed_actions]
  refine ⟨?_, ?_, hlen, ?_⟩
  · simp only [senseact_pass_actions, hsup, if_true]
    exact handle_actions_eq dev msecs stack_unit t pfx index count values
  · intro q _ hwf hp
    exact (queue_insert_all_contents _ q hwf (by rw [hlen]; exact hp)).2
  · intro i hi
    refine ⟨handled_action msecs stack_unit t pfx index values i, ?_, ?_, rfl, ?_, ?_, ?_⟩
    · simp [passed_actions, List.getElem?_range hi]
    · simp [handled_action, hu8]
    · intro p hlo hhi hp
      simp only [handled_action, hp]
      exact s8_of_int p hlo hhi
    · simp [handled_action, u8_u32]
    · simp [handled_action, hu8]

/-- C3, amended, at a call passing two SPEED values with prefix MILLI (-1, that is
`0xFFFFFFFF` as `unsigned int`) to a device with one empty queue. -/
theorem senseact_pass_actions_fanout_witness :
    speed_device.types < 2 ^ SENSEACT_TYPE_CNT ∧ speed_device.types.testBit 3 = true ∧
    (senseact_pass_actions speed_device (fun _ => 0) 0 3 4294967295 0 2
        (fun i => if i = 0 then 7 else 9)).queue_list.map queue_contents =
      [[{ type := 3, pfx := -1, unit := 0, index := 0, value := 7 },
        { type := 3, pfx := -1, unit := 0, index := 1, value := 9 }]] :=
  ⟨by decide, by decide, by
    rw [(senseact_pass_actions_fanout speed_device (fun _ => 0) 0 3 4294967295 0 2
      (fun i => if i = 0 then 7 else 9) (by decide) (by decide)).1]
    decide⟩

/-! ## C7: unsupported types are dropped -/

/-- C7. For every type that is greater than `SENSEACT_TYPE_MAX` or whose bit is not set in
the device's `types` bitmap, `senseact_pass_actions` returns the device as it was: every
attached queue keeps its buffer, head and tail. -/
theorem senseact_pass_actions_unsupported {σ : Type} (dev : senseact_device σ)
    (msecs : Nat → Nat) (stack_unit t pfx index count : Nat) (values : Nat → Int)
    (h : t > SENSEACT_TYPE_MAX ∨ dev.types.testBit t = false) :
    senseact_pass_actions dev msecs stack_unit t pfx index count values = dev ∧
    (senseact_pass_actions dev msecs stack_unit t pfx index count values).queue_list =
      dev.queue_list := by
  have hsup : is_type_supported dev t = false := by
    unfold is_type_supported
    rcases h with h | h
    · have : ¬ t ≤ SENSEACT_TYPE_MAX := by omega
      simp [this]
    · simp [h]
  simp [senseact_pass_actions, hsup]

/-- C7 on a device supporting SYNC and SPEED only: POSITION (bit clear) and type 9 (above
`SENSEACT_TYPE_MAX`) are dropped. -/
theorem senseact_pass_actions_unsupported_witness :
    speed_device.types.testBit 4 = false ∧ 9 > SENSEACT_TYPE_MAX ∧
    senseact_pass_actions speed_device (fun _ => 0) 0 4 0 0 2 (fun _ => 1) = speed_device ∧
    senseact_pass_actions speed_device (fun _ => 0) 0 9 0 0 2 (fun _ => 1) = speed_device :=
  ⟨by decide, by decide,
    (senseact_pass_actions_unsupported speed_device (fun _ => 0) 0 4 0 0 2 (fun _ => 1)
      (Or.inr (by decide))).1,
    (senseact_pass_actions_unsupported speed_device (fun _ => 0) 0 9 0 0 2 (fun _ => 1)
      (Or.inl (by decide))).1⟩

/-! ## C8: marking a type as supported -/

/-- C8. For every type `t < SENSEACT_TYPE_MAX` and every count, after
`senseact_set_capabilities(dev, t, count)` the type `t` is supported, the support status of
every other type is unchanged, `count` has no influence on the result, and repeating the
call changes nothing. -/
theorem senseact_set_capabilities_supported {σ : Type} (dev : senseact_device σ)
    (t count : Nat) (h : t < SENSEACT_TYPE_MAX) :
    is_type_supported (senseact_set_capabilities dev t count) t = true ∧
    (∀ u, u ≠ t →
      is_type_supported (senseact_set_capabilities dev t count) u = is_type_supported dev u) ∧
    (∀ count2, senseact_set_capabilities dev t count2 = senseact_set_capabilities dev t count) ∧
    (∀ count2, senseact_set_capabilities (senseact_set_capabilities dev t count) t count2 =
      senseact_set_capabilities dev t count) := by
  have hnot : ¬ t ≥ SENSEACT_TYPE_MAX := by omega
  have hset : ∀ (d : senseact_device σ) (c : Nat),
      senseact_set_capabilities d t c = { d with types := d.types ||| (1 <<< t) } := by
    intro d c
    simp [senseact_set_capabilities, hnot]
  refine ⟨?_, ?_, ?_, ?_⟩
  · rw [hset]
    have hle : t ≤ SENSEACT_TYPE_MAX := by omega
    simp [is_type_supported, hle, Nat.testBit_or, Nat.one_shiftLeft, Nat.testBit_two_pow_self]
  · intro u hu
    rw [hset]
    have hne : t ≠ u := fun e => hu e.symm
    simp [is_type_supported, Nat.testBit_or, Nat.one_shiftLeft,
      Nat.testBit_two_pow_of_ne hne]
  · intro count2
    rw [hset, hset]
  · intro count2
    rw [hset, hset]
    simp [Nat.or_assoc]

/-- C8 at SPEED on a device that so far supports SYNC only. -/
theorem senseact_set_capabilities_supported_witness :
    (3 : Nat) < SENSEACT_TYPE_MAX ∧
    is_type_supported
      (senseact_set_capabilities { speed_device with types := 1 } 3 2) 3 = true :=
  ⟨by decide,
    (senseact_set_capabilities_supported { speed_device with types := 1 } 3 2 (by decide)).1⟩

/-! ## Device accounting lemmas -/

theorem run_device_ops_append {σ : Type} (cb : senseact_callbacks σ)
    (dev : senseact_device σ) (xs ys : List device_op) :
    run_device_ops cb dev (xs ++ ys) =
      ((run_device_ops cb (run_device_ops cb dev xs).1 ys).1,
        (run_device_ops cb dev xs).2 ++ (run_device_ops cb (run_device_ops cb dev xs).1 ys).2) := by
  induction xs generalizing dev with
  | nil => simp [run_device_ops]
  | cons op xs ih => cases op <;> simp [run_device_ops, ih]

theorem closes_matched_left {σ : Type} (cb : senseact_callbacks σ) (dev : senseact_device σ)
    (xs ys : List device_op) (h : closes_matched cb dev (xs ++ ys)) :
    closes_matched cb dev xs := by
  intro k hk
  have h1 := h k (by simp; omega)
  rwa [List.take_append_of_le_length hk] at h1

theorem open_device_ok {σ : Type} (f : σ → σ × Int) (g : σ → σ)
    (p : Option (senseact_device σ → Nat → Nat → Nat → Int → senseact_device σ × Int))
    (hf : ∀ s, (f s).2 = 0) (d : senseact_device σ) (hg : d.going_away = false)
    (hu : d.users + 1 < 2 ^ 32) :
    senseact_open_device ⟨some f, some g, p⟩ 0 d =
      ({ d with users := d.users + 1,
                drvdata := if d.users = 0 then (f d.drvdata).1 else d.drvdata }, 0) := by
  unfold senseact_open_device
  simp only [ne_eq, not_true_eq_false, if_false, hg, Bool.false_eq_true, u32]
  rw [Nat.mod_eq_of_lt hu]
  by_cases h0 : d.users = 0
  · simp [h0, hf]
  · simp [h0]

theorem close_device_ok {σ : Type} (f : σ → σ × Int) (g : σ → σ)
    (p : Option (senseact_device σ → Nat → Nat → Nat → Int → senseact_device σ × Int))
    (d : senseact_device σ) (hu : 1 ≤ d.users) (hlt : d.users < 2 ^ 32) :
    senseact_close_device ⟨some f, some g, p⟩ d =
      { d with users := d.users - 1,
               drvdata := if d.users = 1 then g d.drvdata else d.drvdata } := by
  unfold senseact_close_device
  have hw : u32_dec d.users = d.users - 1 := by
    unfold u32_dec
    split <;> omega
  simp only [hw]
  by_cases h1 : d.users = 1
  · simp [h1]
  · have : ¬ d.users - 1 = 0 := by omega
    simp [h1, this]

theorem open_device_lock_failed {σ : Type} (cb : senseact_callbacks σ) (lock : Int)
    (d : senseact_device σ) (h : lock ≠ 0) : senseact_open_device cb lock d = (d, lock) := by
  simp [senseact_open_device, h]

theorem run_device_ops_snoc_open {σ : Type} (cb : senseact_callbacks σ)
    (dev : senseact_device σ) (pre : List device_op) (lock : Int) :
    run_device_ops cb dev (pre ++ [device_op.open_ lock]) =
      ((senseact_open_device cb lock (run_device_ops cb dev pre).1).1,
        (run_device_ops cb dev pre).2 ++
          [(senseact_open_device cb lock (run_device_ops cb dev pre).1).2]) := by
  rw [run_device_ops_append]
  rfl

theorem run_device_ops_snoc_close {σ : Type} (cb : senseact_callbacks σ)
    (dev : senseact_device σ) (pre : List device_op) :
    run_device_ops cb dev (pre ++ [device_op.close]) =
      (senseact_close_device cb (run_device_ops cb dev pre).1, (run_device_ops cb dev pre).2) := by
  rw [run_device_ops_append]
  simp [run_device_ops]

/-- Along a sequence in which every close releases an earlier successful open, `users`
counts the successful opens not yet closed, and the device stays registered. -/
theorem device_invariant {σ : Type} (f : σ → σ × Int) (g : σ → σ)
    (p : Option (senseact_device σ → Nat → Nat → Nat → Int → senseact_device σ × Int))
    (dev : senseact_device σ) (ops : List device_op)
    (hf : ∀ s, (f s).2 = 0) (hu : dev.users = 0) (hg : dev.going_away = false)
    (hm : closes_matched ⟨some f, some g, p⟩ dev ops) (hlen : ops.length < 2 ^ 32) :
    (run_device_ops ⟨some f, some g, p⟩ dev ops).1.users + close_calls ops =
        successful_opens ⟨some f, some g, p⟩ dev ops ∧
      successful_opens ⟨some f, some g, p⟩ dev ops ≤ ops.length ∧
      (run_device_ops ⟨some f, some g, p⟩ dev ops).1.going_away = false := by
  induction ops using List.reverseRecOn with
  | nil => simp [run_device_ops, close_calls, successful_opens, hu, hg]
  | append_singleton pre op ih =>
    have hlen1 : pre.length + 1 < 2 ^ 32 := by simpa using hlen
    obtain ⟨h1, h2, h3⟩ := ih (closes_matched_left _ _ pre [op] hm) (by omega)
    cases op with
    | open_ lock =>
      have hc : close_calls (pre ++ [device_op.open_ lock]) = close_calls pre := by
        simp [close_calls, List.count_append]
      by_cases hl : lock = 0
      · subst hl
        have hbound : (run_device_ops ⟨some f, some g, p⟩ dev pre).1.users + 1 < 2 ^ 32 := by
          omega
        have hs : successful_opens ⟨some f, some g, p⟩ dev (pre ++ [device_op.open_ 0]) =
            successful_opens ⟨some f, some g, p⟩ dev pre + 1 := by
          simp [successful_opens, run_device_ops_snoc_open,
            open_device_ok f g p hf _ h3 hbound, List.count_append]
        rw [run_device_ops_snoc_open, open_device_ok f g p hf _ h3 hbound, hc, hs]
        refine ⟨?_, ?_, h3⟩
        · simp only
          omega
        · simp only [List.length_append, List.length_singleton]
          omega
      · have hs : successful_opens ⟨some f, some g, p⟩ dev (pre ++ [device_op.open_ lock]) =
            successful_opens ⟨some f, some g, p⟩ dev pre := by
          have hcount : List.count (0 : Int) [lock] = 0 :=
            List.count_eq_zero.mpr (by simpa using fun e => hl e.symm)
          simp [successful_opens, run_device_ops_snoc_open,
            open_device_lock_failed _ lock _ hl, List.count_append, hcount]
        rw [run_device_ops_snoc_open, open_device_lock_failed _ lock _ hl, hc, hs]
        refine ⟨h1, ?_, h3⟩
        simp only [List.length_append, List.length_singleton]
        omega
    | close =>
      have hc : close_calls (pre ++ [device_op.close]) = close_calls pre + 1 := by
        simp [close_calls, List.count_append]
      have hs : successful_opens ⟨some f, some g, p⟩ dev (pre ++ [device_op.close]) =
          successful_opens ⟨some f, some g, p⟩ dev pre := by
        simp [successful_opens, run_device_ops_snoc_close]
      have hk := hm (pre ++ [device_op.close]).length (le_refl _)
      rw [List.take_length, hc, hs] at hk
      have hge : 1 ≤ (run_device_ops ⟨some f, some g, p⟩ dev pre).1.users := by omega
      have hlt : (run_device_ops ⟨some f, some g, p⟩ dev pre).1.users < 2 ^ 32 := by omega
      rw [run_device_ops_snoc_close, close_device_ok f g p _ hge hlt, hc, hs]
      refine ⟨?_, ?_, h3⟩
      · simp only
        omega
      · simp only [List.length_append, List.length_singleton]
        omega

theorem open_device_eq {σ : Type} (f : σ → σ × Int) (g : σ → σ)
    (p : Option (senseact_device σ → Nat → Nat → Nat → Int → senseact_device σ × Int))
    (hf : ∀ s, (f s).2 = 0) (d : senseact_device σ) (hg : d.going_away = false) :
    senseact_open_device ⟨some f, some g, p⟩ 0 d =
      ({ d with users := u32 (d.users + 1),
                drvdata := if d.users = 0 then (f d.drvdata).1 else d.drvdata }, 0) := by
  unfold senseact_open_device
  simp only [ne_eq, not_true_eq_false, if_false, hg, Bool.false_eq_true]
  by_cases h0 : d.users = 0
  · simp [h0, hf]
  · simp [h0]

theorem close_device_eq {σ : Type} (f : σ → σ × Int) (g : σ → σ)
    (p : Option (senseact_device σ → Nat → Nat → Nat → Int → senseact_device σ × Int))
    (d : senseact_device σ) :
    senseact_close_device ⟨some f, some g, p⟩ d =
      { d with users := u32_dec d.users,
               drvdata := if u32_dec d.users = 0 then g d.drvdata else d.drvdata } := by
  unfold senseact_close_device
  by_cases h0 : u32_dec d.users = 0
  · simp [h0]
  · simp [h0]

/-- Along every sequence of calls, `users` is the number of successful opens minus the
number of closes in `unsigned int` arithmetic, and the device stays registered. -/
theorem device_invariant_mod {σ : Type} (f : σ → σ × Int) (g : σ → σ)
    (p : Option (senseact_device σ → Nat → Nat → Nat → Int → senseact_device σ × Int))
    (dev : senseact_device σ) (ops : List device_op)
    (hf : ∀ s, (f s).2 = 0) (hu : dev.users = 0) (hg : dev.going_away = false) :
    ((run_device_ops ⟨some f, some g, p⟩ dev ops).1.users + close_calls ops) % 2 ^ 32 =
        successful_opens ⟨some f, some g, p⟩ dev ops % 2 ^ 32 ∧
      (run_device_ops ⟨some f, some g, p⟩ dev ops).1.users < 2 ^ 32 ∧
      (run_device_ops ⟨some f, some g, p⟩ dev ops).1.going_away = false := by
  induction ops using List.reverseRecOn with
  | nil => simp [run_device_ops, close_calls, successful_opens, hu, hg]
  | append_singleton pre op ih =>
    obtain ⟨h1, h2, h3⟩ := ih
    cases op with
    | open_ lock =>
      have hc : close_calls (pre ++ [device_op.open_ lock]) = close_calls pre := by
        simp [close_calls, List.count_append]
      by_cases hl : lock = 0
      · subst hl
        have hs : successful_opens ⟨some f, some g, p⟩ dev (pre ++ [device_op.open_ 0]) =
            successful_opens ⟨some f, some g, p⟩ dev pre + 1 := by
          simp [successful_opens, run_device_ops_snoc_open,
            open_device_eq f g p hf _ h3, List.count_append]
        rw [run_device_ops_snoc_open, open_device_eq f g p hf _ h3, hc, hs]
        simp only [u32]
        refine ⟨?_, ?_, h3⟩ <;> omega
      · have hs : successful_opens ⟨some f, some g, p⟩ dev (pre ++ [device_op.open_ lock]) =
            successful_opens ⟨some f, some g, p⟩ dev pre := by
          have hcount : List.count (0 : Int) [lock] = 0 :=
            List.count_eq_zero.mpr (by simpa using fun e => hl e.symm)
          simp [successful_opens, run_device_ops_snoc_open,
            open_device_lock_failed _ lock _ hl, List.count_append, hcount]
        rw [run_device_ops_snoc_open, open_device_lock_failed _ lock _ hl, hc, hs]
        exact ⟨h1, h2, h3⟩
    | close =>
      have hc : close_calls (pre ++ [device_op.close]) = close_calls pre + 1 := by
        simp [close_calls, List.count_append]
      have hs : successful_opens ⟨some f, some g, p⟩ dev (pre ++ [device_op.close]) =
          successful_opens ⟨some f, some g, p⟩ dev pre := by
        simp [successful_opens, run_device_ops_snoc_close]
      rw [run_device_ops_snoc_close, close_device_eq f g p, hc, hs]
      simp only [u32_dec]
      refine ⟨?_, ?_, h3⟩ <;> split <;> omega

/-! ## C9: first/last-user accounting -/

/-- C9. Take a device with both callbacks, not going away, with `users = 0` and an
`open()` that always succeeds, and any sequence of `senseact_open_device` and
`senseact_close_device` calls. An open call of the sequence runs the driver's `open()`
exactly when it takes the mutex and finds `users == 0`; a close call runs the driver's
`close()` exactly when it brings `users` to 0; and `users` always equals the number of
successful opens minus the number of closes, as the `unsigned int` it is (modulo 2^32),
which is that number itself whenever every close releases an earlier successful open
and the sequence has fewer than 2^32 calls. -/
theorem senseact_open_close_accounting {σ : Type} (f : σ → σ × Int) (g : σ → σ)
    (p : Option (senseact_device σ → Nat → Nat → Nat → Int → senseact_device σ × Int))
    (dev : senseact_device σ) (ops : List device_op)
    (hf : ∀ s, (f s).2 = 0) (hu : dev.users = 0) (hg : dev.going_away = false) :
    (∀ pre lock post, ops = pre ++ device_op.open_ lock :: post →
      (senseact_open_device ⟨some f, some g, p⟩ lock
          (run_device_ops ⟨some f, some g, p⟩ dev pre).1).1.drvdata =
        if lock = 0 ∧ (run_device_ops ⟨some f, some g, p⟩ dev pre).1.users = 0 then
          (f (run_device_ops ⟨some f, some g, p⟩ dev pre).1.drvdata).1
        else (run_device_ops ⟨some f, some g, p⟩ dev pre).1.drvdata) ∧
    (∀ pre post, ops = pre ++ device_op.close :: post →
      (senseact_close_device ⟨some f, some g, p⟩
          (run_device_ops ⟨some f, some g, p⟩ dev pre).1).drvdata =
        if (senseact_close_device ⟨some f, some g, p⟩
            (run_device_ops ⟨some f, some g, p⟩ dev pre).1).users = 0 then
          g (run_device_ops ⟨some f, some g, p⟩ dev pre).1.drvdata
        else (run_device_ops ⟨some f, some g, p⟩ dev pre).1.drvdata) ∧
    ((run_device_ops ⟨some f, some g, p⟩ dev ops).1.users : Int) =
      ((successful_opens ⟨some f, some g, p⟩ dev ops : Int) - (close_calls ops : Int)) %
        2 ^ 32 ∧
    (closes_matched ⟨some f, some g, p⟩ dev ops → ops.length < 2 ^ 32 →
      (run_device_ops ⟨some f, some g, p⟩ dev ops).1.users =
        successful_opens ⟨some f, some g, p⟩ dev ops - close_calls ops) := by
  obtain ⟨hmod, hlt, _⟩ := device_invariant_mod f g p dev ops hf hu hg
  refine ⟨?_, ?_, by omega, ?_⟩
  · intro pre lock post _
    obtain ⟨_, _, h3⟩ := device_invariant_mod f g p dev pre hf hu hg
    by_cases h0 : lock = 0
    · subst h0
      rw [open_device_eq f g p hf _ h3]
      simp
    · rw [open_device_lock_failed _ lock _ h0]
      simp [h0]
  · intro pre post _
    rw [close_device_eq f g p]
  · intro hm hlen
    have h := (device_invariant f g p dev ops hf hu hg hm hlen).1
    omega

/-- C9 on a driver that counts its `open()` and `close()` invocations: after two
opens, a close, an interrupted open, a close and an open, one user is left, `open()` ran
twice and `close()` once. -/
theorem senseact_open_close_accounting_witness :
    closes_matched counting_callbacks fresh_device accounting_example ∧
    (run_device_ops counting_callbacks fresh_device accounting_example).1.users =
      successful_opens counting_callbacks fresh_device accounting_example -
        close_calls accounting_example ∧
    (run_device_ops counting_callbacks fresh_device accounting_example).1.users = 1 ∧
    (run_device_ops counting_callbacks fresh_device accounting_example).1.drvdata = (2, 1) :=
  ⟨by decide,
    (senseact_open_close_accounting (fun s => ((s.1 + 1, s.2), 0)) (fun s => (s.1, s.2 + 1))
      none fresh_device accounting_example (fun _ => rfl) rfl rfl).2.2.2
      (by decide) (by decide),
    by decide, by decide⟩

/-! ## C10: a failed open is atomic -/

/-- C10. Whenever `senseact_open_device` returns non-zero, `users` is the same as before
the call, and the return value is the failed mutex acquisition, `-ENODEV` for a device
that is going away, or the error of the driver's `open()` on the first open. With
`going_away` set the call fails, with `-ENODEV` once the mutex is taken, and returns the
device untouched whatever the `open()` callback is: the callback is not invoked. -/
theorem senseact_open_device_failure_atomic {σ : Type} (cb : senseact_callbacks σ)
    (lock : Int) (dev : senseact_device σ) :
    ((senseact_open_device cb lock dev).2 ≠ 0 →
      (senseact_open_device cb lock dev).1.users = dev.users ∧
      ((lock ≠ 0 ∧ (senseact_open_device cb lock dev).2 = lock) ∨
        (dev.going_away = true ∧ (senseact_open_device cb lock dev).2 = -ENODEV) ∨
        (dev.users = 0 ∧ ∃ f, cb.open_ = some f ∧
          (senseact_open_device cb lock dev).2 = (f dev.drvdata).2))) ∧
    (dev.going_away = true →
      (senseact_open_device cb lock dev).1 = dev ∧
      (senseact_open_device cb lock dev).2 ≠ 0 ∧
      (lock = 0 → (senseact_open_device cb lock dev).2 = -ENODEV)) := by
  constructor
  · intro h
    unfold senseact_open_device at h ⊢
    by_cases hl : lock = 0
    · subst hl
      by_cases hg : dev.going_away = true
      · simp [hg]
      · by_cases hu : dev.users = 0
        · cases hcb : cb.open_ with
          | none => simp [hg, hu, hcb] at h
          | some f =>
            by_cases hr : (f dev.drvdata).2 = 0
            · simp [hg, hu, hcb, hr] at h
            · simp [hg, hu, hcb, hr, u32, u32_dec]
        · simp [hg, hu] at h
    · simp [hl]
  · intro hg
    unfold senseact_open_device
    by_cases hl : lock = 0
    · simp [hl, hg]
    · simp [hl]

/-- C10 on a driver whose `open()` fails with -5: the first open returns -5 and leaves
`users` at 0. -/
theorem senseact_open_device_failure_atomic_witness :
    (senseact_open_device failing_callbacks 0 fresh_device).2 = -5 ∧
    (senseact_open_device failing_callbacks 0 fresh_device).1.users = fresh_device.users :=
  ⟨by decide,
    ((senseact_open_device_failure_atomic failing_callbacks 0 fresh_device).1 (by decide)).1⟩

/-! ## C4: reading works in whole actions -/

theorem read_loop_spec (user_ok : Nat → Bool) (count : Nat) (hok : ∀ off, user_ok off = true)
    (fuel : Nat) (q : senseact_queue) (retval : Nat) (copied : List senseact_action)
    (hwf : queue_wf q) (hfuel : (count - retval) / 8 < fuel) :
    ∃ q1, senseact_read_loop user_ok count fuel q retval copied =
        some (q1, ((retval + 8 * min ((count - retval) / 8) (queue_pending q) : Nat) : Int),
          copied ++ (queue_contents q).take (min ((count - retval) / 8) (queue_pending q))) ∧
      queue_contents q1 =
        (queue_contents q).drop (min ((count - retval) / 8) (queue_pending q)) ∧
      queue_wf q1 ∧ q1.buffer = q.buffer ∧ q1.head = q.head := by
  induction fuel generalizing q retval copied with
  | zero => omega
  | succ fuel ih =>
    unfold senseact_read_loop
    by_cases hroom : retval + sizeof_senseact_action ≤ count
    · simp only [hroom, if_true]
      by_cases he : q.head = q.tail
      · have hp : queue_pending q = 0 := (queue_pending_zero_iff q hwf).mpr he
        refine ⟨q, ?_, ?_, hwf, rfl, rfl⟩
        · rw [fetch_empty q he]
          simp [hp]
        · simp [hp]
      · obtain ⟨h1, h2, h3, h4⟩ := fetch_nonempty q hwf he
        have hq1 : (senseact_queue_fetch_next_action q).1.buffer = q.buffer ∧
            (senseact_queue_fetch_next_action q).1.head = q.head := by
          simp [senseact_queue_fetch_next_action, he]
        have hpair : senseact_queue_fetch_next_action q =
            ((senseact_queue_fetch_next_action q).1, some (q.buffer q.tail)) := by
          rw [← h1]
        simp only [sizeof_senseact_action] at hroom
        obtain ⟨q2, hrun, hc, hwf2, hb, hh⟩ := ih (senseact_queue_fetch_next_action q).1
          (retval + 8) (copied ++ [q.buffer q.tail]) h2 (by omega)
        have hmin : min ((count - retval) / 8) (queue_pending q) =
            min ((count - (retval + 8)) / 8)
              (queue_pending (senseact_queue_fetch_next_action q).1) + 1 := by
          have : (count - retval) / 8 = (count - (retval + 8)) / 8 + 1 := by omega
          rw [this, ← h3]
          omega
        refine ⟨q2, ?_, ?_, hwf2, hb.trans hq1.1, hh.trans hq1.2⟩
        · rw [hpair]
          simp only [hok, if_true, sizeof_senseact_action]
          rw [hrun, hmin, h4]
          simp only [List.take_succ_cons, List.append_assoc, List.singleton_append]
          congr 3
          omega
        · rw [hc, hmin, h4]
          simp
    · simp only [hroom, if_false]
      simp only [sizeof_senseact_action] at hroom
      have hz : (count - retval) / 8 = 0 := by omega
      refine ⟨q, ?_, ?_, hwf, rfl, rfl⟩
      · simp [hz]
      · simp [hz]

/-- C4, as stated, fails in two places. (c) An empty queue read with `O_NONBLOCK` on a
device that is going away (`count = 8`) returns `-ENODEV`, not `-EAGAIN`. (b) With
`count = 8`, the device not going away and three actions pending, a user buffer that
cannot be written makes the call return `-EFAULT` with nothing copied out, although the
oldest action has been removed from the queue. -/
theorem senseact_read_file_counterexample :
    senseact_read_file gone_device true (fun _ => true) 8 senseact_queue_zero =
      some (read_result.returned senseact_queue_zero (-ENODEV) []) ∧
    senseact_read_file gone_device true (fun _ => true) 8 senseact_queue_zero ≠
      some (read_result.returned senseact_queue_zero (-EAGAIN) []) ∧
    senseact_read_file speed_device false (fun _ => false) 8 three_pending =
      some (read_result.returned (senseact_queue_fetch_next_action three_pending).1
        (-EFAULT) []) ∧
    queue_contents (senseact_queue_fetch_next_action three_pending).1 =
      [⟨3, 0, 0, 1, 20⟩, ⟨3, 0, 0, 2, 30⟩] := by
  refine ⟨rfl, ?_, rfl, by decide⟩
  intro h
  have h1 : senseact_read_file gone_device true (fun _ => true) 8 senseact_queue_zero =
      some (read_result.returned senseact_queue_zero (-ENODEV) []) := rfl
  rw [h1] at h
  simp at h

/-- C4, amended. `senseact_read_file` works in whole actions. (a) With `count < 8` it
returns `-EINVAL`. (b) With `count >= 8`, the device not going away, `p >= 1` actions
pending and a user buffer that can be written, it returns `8 * min(count / 8, p)`, copies
out the oldest `min(count / 8, p)` actions in order and removes exactly those from the
queue (buffer and head are untouched). (c) With `count >= 8`, the device not going away,
the queue empty and `O_NONBLOCK` set it returns `-EAGAIN` and leaves the queue
unchanged. -/
theorem senseact_read_file_whole_actions {σ : Type} (dev : senseact_device σ)
    (nonblock : Bool) (user_ok : Nat → Bool) (count : Nat) (q : senseact_queue) :
    (count < sizeof_senseact_action →
      senseact_read_file dev nonblock user_ok count q =
        some (read_result.returned q (-EINVAL) [])) ∧
    (sizeof_senseact_action ≤ count → dev.going_away = false → queue_wf q →
      1 ≤ queue_pending q → (∀ off, user_ok off = true) →
      ∃ q1, senseact_read_file dev nonblock user_ok count q =
          some (read_result.returned q1
            ((8 * min (count / 8) (queue_pending q) : Nat) : Int)
            ((queue_contents q).take (min (count / 8) (queue_pending q)))) ∧
        queue_contents q1 = (queue_contents q).drop (min (count / 8) (queue_pending q)) ∧
        q1.buffer = q.buffer ∧ q1.head = q.head) ∧
    (sizeof_senseact_action ≤ count → dev.going_away = false → q.head = q.tail →
      nonblock = true →
      senseact_read_file dev nonblock user_ok count q =
        some (read_result.returned q (-EAGAIN) [])) := by
  refine ⟨?_, ?_, ?_⟩
  · intro h
    simp [senseact_read_file, h]
  · intro hc hg hwf hp hok
    have hne : q.head ≠ q.tail := by
      intro he
      have := (queue_pending_zero_iff q hwf).mpr he
      omega
    have hnot : ¬ count < sizeof_senseact_action := by omega
    obtain ⟨q1, hrun, hcont, _, hb, hh⟩ :=
      read_loop_spec user_ok count hok (count / 8 + 1) q 0 [] hwf (by omega)
    refine ⟨q1, ?_, hcont, hb, hh⟩
    simp only [senseact_read_file, hnot, if_false, hg, Bool.false_eq_true, hne, false_and,
      ne_eq, not_false_eq_true, or_false, not_true_eq_false, sizeof_senseact_action]
    rw [hrun]
    simp
  · intro hc hg he hn
    have hnot : ¬ count < sizeof_senseact_action := by omega
    simp [senseact_read_file, hnot, hg, he, hn]

/-- C4, amended, clause (b) on a queue with three pending actions and room for two in the user buffer
(`count = 20`): the call returns 16, copies the two oldest and leaves the third. -/
theorem senseact_read_file_whole_actions_witness :
    queue_wf three_pending ∧ queue_pending three_pending = 3 ∧
    ∃ q1, senseact_read_file speed_device false (fun _ => true) 20 three_pending =
        some (read_result.returned q1 16 [⟨3, 0, 0, 0, 10⟩, ⟨3, 0, 0, 1, 20⟩]) ∧
      queue_contents q1 = [⟨3, 0, 0, 2, 30⟩] := by
  refine ⟨by decide, by decide, ?_⟩
  obtain ⟨q1, h1, h2, _⟩ :=
    (senseact_read_file_whole_actions speed_device false (fun _ => true) 20 three_pending).2.1
      (by decide) rfl (by decide) (by decide) (fun _ => rfl)
  refine ⟨q1, ?_, ?_⟩
  · rw [h1]
    have hn : min (20 / 8) (queue_pending three_pending) = 2 := by decide
    have hl : queue_contents three_pending =
        [⟨3, 0, 0, 0, 10⟩, ⟨3, 0, 0, 1, 20⟩, ⟨3, 0, 0, 2, 30⟩] := by decide
    rw [hn, hl]
    rfl
  · rw [h2]
    decide

/-! ## C5 and C6: writing -/

/-- C5 fails at `count = 5`: with one action in the user buffer, `senseact_write_file`
hands that action (bytes 0 to 7) to the pass handler, passes the SYNC and returns 8,
which exceeds `count`. -/
theorem senseact_write_file_overshoot :
    (senseact_write_file recording_callbacks 0 (user_buffer [⟨3, 0, 0, 0, 100⟩]) 5
        recording_device).map (fun r => (r.1.drvdata, r.2)) =
      some ([(3, 0, 1, 100), (0, 2, 1, 0)], 8) ∧
    ¬ ((8 : Int) ≤ 5) := by
  decide

theorem write_loop_spec {σ : Type}
    (pass : senseact_device σ → Nat → Nat → Nat → Int → senseact_device σ × Int)
    (buffer : Nat → Option senseact_action) (count : Nat) (actions : List senseact_action) :
    ∀ (fuel : Nat) (dev : senseact_device σ) (offset : Nat), actions.length < fuel →
      (∀ (k : Nat) (a : senseact_action), actions[k]? = some a →
        buffer (offset + 8 * k) = some a) →
      offset + 8 * actions.length < count + 8 → count ≤ offset + 8 * actions.length →
      senseact_write_loop pass buffer count fuel dev offset =
        some (if (pass_in_order pass dev actions).2 ≠ 0 then pass_in_order pass dev actions
          else ((pass (pass_in_order pass dev actions).1 SENSEACT_TYPE_SYNC
            SENSEACT_SYNC_ACTOR 1 0).1, ((offset + 8 * actions.length : Nat) : Int))) := by
  induction actions with
  | nil =>
    intro fuel dev offset hfuel _ _ hge
    cases fuel with
    | zero => simp at hfuel
    | succ fuel =>
      have hnot : ¬ offset < count := by simpa using hge
      simp [senseact_write_loop, hnot, pass_in_order]
  | cons a rest ih =>
    intro fuel dev offset hfuel hbuf hlt hge
    cases fuel with
    | zero => simp at hfuel
    | succ fuel =>
      simp only [List.length_cons] at hfuel hlt hge
      have hoff : offset < count := by omega
      have hread : buffer offset = some a := by
        have := hbuf 0 a (by simp)
        simpa using this
      unfold senseact_write_loop
      simp only [hoff, if_true, hread, pass_in_order]
      by_cases hr : (pass dev a.type a.index 1 a.value).2 = 0
      · simp only [hr, ne_eq, not_true_eq_false, if_false, sizeof_senseact_action]
        rw [ih fuel _ (offset + 8) (by omega)
          (fun k b hk => by
            have := hbuf (k + 1) b (by simpa using hk)
            rw [← this]
            congr 1
            omega)
          (by omega) (by omega)]
        simp only [List.length_cons]
        congr 4
        omega
      · simp [hr]

/-- C6, as stated, fails when the call does not get as far as the loop or a copy faults:
on a device that is going away a write of one action returns `-ENODEV` and the handler is
never called; when taking the mutex is interrupted (-4) the call returns that value; when
the user buffer cannot be read it returns `-EFAULT`. In all three nothing is passed, not
even the SYNC. -/
theorem senseact_write_file_counterexample :
    (senseact_write_file recording_callbacks 0 (user_buffer [⟨3, 0, 0, 0, 100⟩]) 8
        gone_recording_device).map (fun r => (r.1.drvdata, r.2)) =
      some (([] : List (Nat × Nat × Nat × Int)), (-19 : Int)) ∧
    (senseact_write_file recording_callbacks (-4) (user_buffer [⟨3, 0, 0, 0, 100⟩]) 8
        recording_device).map (fun r => (r.1.drvdata, r.2)) =
      some (([] : List (Nat × Nat × Nat × Int)), (-4 : Int)) ∧
    (senseact_write_file recording_callbacks 0 (user_buffer []) 8
        recording_device).map (fun r => (r.1.drvdata, r.2)) =
      some (([] : List (Nat × Nat × Nat × Int)), (-14 : Int)) :=
  ⟨by decide, by decide, by decide⟩

/-- C6, amended. Without a pass handler `senseact_write_file` returns `-EFAULT` and the
device is as before. With a handler, the mutex taken, the device not going away and a
readable user buffer of `count = 8 * n` bytes holding the `n` actions `actions`, the
handler receives the actions one at a time in buffer order, each with count 1 and the
action's type, index and value; if it returns non-zero for one of them, that value is
the result at once and neither the remaining actions nor the SYNC are passed; otherwise
it then receives exactly one `SENSEACT_TYPE_SYNC` with index `SENSEACT_SYNC_ACTOR`,
count 1 and value 0, and the result is `count`. -/
theorem senseact_write_file_pass_order {σ : Type} (cb : senseact_callbacks σ) (lock : Int)
    (buffer : Nat → Option senseact_action) (count : Nat) (dev : senseact_device σ) :
    (cb.pass = none →
      senseact_write_file cb lock buffer count dev = some (dev, -EFAULT)) ∧
    (∀ pass actions, cb.pass = some pass → lock = 0 → dev.going_away = false →
      (∀ (k : Nat) (a : senseact_action), actions[k]? = some a → buffer (8 * k) = some a) →
      count = 8 * actions.length →
      senseact_write_file cb lock buffer count dev =
        some (if (pass_in_order pass dev actions).2 ≠ 0 then pass_in_order pass dev actions
          else ((pass (pass_in_order pass dev actions).1 SENSEACT_TYPE_SYNC
            SENSEACT_SYNC_ACTOR 1 0).1, (count : Int)))) := by
  constructor
  · intro h
    simp [senseact_write_file, h]
  · intro pass actions hp hl hg hbuf hcount
    simp only [senseact_write_file, hp, hl, hg, ne_eq, not_true_eq_false, if_false,
      Bool.false_eq_true]
    have h := write_loop_spec pass buffer count actions (count + 1) dev 0 (by omega)
      (fun k a hk => by simpa using hbuf k a hk) (by omega) (by omega)
    rw [hcount] at h ⊢
    simpa using h

theorem user_buffer_spec (actions : List senseact_action) (k : Nat) (a : senseact_action)
    (h : actions[k]? = some a) : user_buffer actions (8 * k) = some a := by
  unfold user_buffer
  simp only [sizeof_senseact_action]
  rw [if_pos (by omega)]
  have hk : 8 * k / 8 = k := by omega
  rw [hk]
  exact h

/-- C6, amended, on the recording driver. Writing two SPEED actions (16 bytes) passes both and then
the SYNC and returns 16; writing SPEED, POSITION, SPEED (24 bytes), where the driver
refuses POSITION with -22, returns -22 after the second call, with no SYNC. -/
theorem senseact_write_file_pass_order_witness :
    (senseact_write_file recording_callbacks 0
        (user_buffer [⟨3, 0, 0, 0, 100⟩, ⟨3, 0, 0, 1, 200⟩]) 16 recording_device).map
        (fun r => (r.1.drvdata, r.2)) =
      some ([(3, 0, 1, 100), (3, 1, 1, 200), (0, 2, 1, 0)], 16) ∧
    (senseact_write_file recording_callbacks 0
        (user_buffer [⟨3, 0, 0, 0, 100⟩, ⟨4, 0, 0, 0, 7⟩, ⟨3, 0, 0, 1, 200⟩]) 24
        recording_device).map (fun r => (r.1.drvdata, r.2)) =
      some ([(3, 0, 1, 100), (4, 0, 1, 7)], -22) := by
  constructor
  · rw [(senseact_write_file_pass_order recording_callbacks 0
      (user_buffer [⟨3, 0, 0, 0, 100⟩, ⟨3, 0, 0, 1, 200⟩]) 16 recording_device).2
      recording_pass [⟨3, 0, 0, 0, 100⟩, ⟨3, 0, 0, 1, 200⟩] rfl rfl rfl
      (user_buffer_spec _) (by decide)]
    decide
  · rw [(senseact_write_file_pass_order recording_callbacks 0
      (user_buffer [⟨3, 0, 0, 0, 100⟩, ⟨4, 0, 0, 0, 7⟩, ⟨3, 0, 0, 1, 200⟩]) 24
      recording_device).2
      recording_pass [⟨3, 0, 0, 0, 100⟩, ⟨4, 0, 0, 0, 7⟩, ⟨3, 0, 0, 1, 200⟩] rfl rfl rfl
      (user_buffer_spec _) (by decide)]
    decide

/-! ## The fuel of the two loops always suffices -/

theorem read_loop_total (user_ok : Nat → Bool) (count : Nat) :
    ∀ (fuel : Nat) (q : senseact_queue) (retval : Nat) (copied : List senseact_action),
      (count - retval) / 8 < fuel →
      (senseact_read_loop user_ok count fuel q retval copied).isSome = true := by
  intro fuel
  induction fuel with
  | zero => intro q retval copied h; omega
  | succ fuel ih =>
    intro q retval copied h
    unfold senseact_read_loop
    by_cases hroom : retval + sizeof_senseact_action ≤ count
    · simp only [hroom, if_true]
      by_cases he : q.head = q.tail
      · simp [fetch_empty q he]
      · have hf : senseact_queue_fetch_next_action q =
            ({ q with tail := (q.tail + 1) &&& (SENSEACT_BUFFER_SIZE - 1) },
              some (q.buffer q.tail)) := by
          simp [senseact_queue_fetch_next_action, he]
        rw [hf]
        simp only [sizeof_senseact_action] at hroom
        by_cases hu : user_ok retval = true
        · simp only [hu, if_true]
          exact ih _ _ _ (by simp only [sizeof_senseact_action]; omega)
        · simp [hu]
    · simp [hroom]

/-- The read always comes back with one of its outcomes: the model never runs out of
fuel. -/
theorem senseact_read_file_total {σ : Type} (dev : senseact_device σ) (nonblock : Bool)
    (user_ok : Nat → Bool) (count : Nat) (q : senseact_queue) :
    (senseact_read_file dev nonblock user_ok count q).isSome = true := by
  unfold senseact_read_file
  split
  · rfl
  · split
    · rfl
    · split
      · rfl
      · split
        · rfl
        · have h := read_loop_total user_ok count (count / sizeof_senseact_action + 1) q 0 []
            (by simp only [sizeof_senseact_action]; omega)
          simpa using h

theorem write_loop_total {σ : Type}
    (pass : senseact_device σ → Nat → Nat → Nat → Int → senseact_device σ × Int)
    (buffer : Nat → Option senseact_action) (count : Nat) :
    ∀ (fuel : Nat) (dev : senseact_device σ) (offset : Nat),
      (count - offset + 7) / 8 < fuel →
      (senseact_write_loop pass buffer count fuel dev offset).isSome = true := by
  intro fuel
  induction fuel with
  | zero => intro dev offset h; omega
  | succ fuel ih =>
    intro dev offset h
    unfold senseact_write_loop
    by_cases hoff : offset < count
    · simp only [hoff, if_true]
      cases hb : buffer offset with
      | none => rfl
      | some a =>
        simp only
        by_cases hr : (pass dev a.type a.index 1 a.value).2 = 0
        · simp only [hr, ne_eq, not_true_eq_false, if_false]
          exact ih _ _ (by simp only [sizeof_senseact_action]; omega)
        · simp [hr]
    · simp [hoff]

/-- The write always comes back with a return value: the model never runs out of fuel. -/
theorem senseact_write_file_total {σ : Type} (cb : senseact_callbacks σ) (lock : Int)
    (buffer : Nat → Option senseact_action) (count : Nat) (dev : senseact_device σ) :
    (senseact_write_file cb lock buffer count dev).isSome = true := by
  unfold senseact_write_file
  cases cb.pass with
  | none => rfl
  | some pass =>
    simp only
    split
    · rfl
    · split
      · rfl
      · exact write_loop_total pass buffer count (count + 1) dev 0 (by omega)

/-! ## C11: allocation of minors -/

theorem first_free_minor_spec (table : Nat → Option Nat) :
    ∀ (left minor : Nat),
      minor ≤ first_free_minor table left minor ∧
      first_free_minor table left minor ≤ minor + left ∧
      (first_free_minor table left minor < minor + left →
        table (first_free_minor table left minor) = none) ∧
      (∀ j, minor ≤ j → j < first_free_minor table left minor → table j ≠ none) := by
  intro left
  induction left with
  | zero =>
    intro minor
    simp only [first_free_minor]
    refine ⟨le_refl _, le_refl _, fun h => by omega, fun j h1 h2 => by omega⟩
  | succ left ih =>
    intro minor
    unfold first_free_minor
    by_cases h : table minor = none
    · rw [if_pos h]
      refine ⟨le_refl _, by omega, fun _ => h, fun j h1 h2 => by omega⟩
    · rw [if_neg h]
      obtain ⟨h1, h2, h3, h4⟩ := ih (minor + 1)
      refine ⟨by omega, by omega, fun hlt => h3 (by omega), ?_⟩
      intro j hj1 hj2
      by_cases hj : j = minor
      · subst hj
        exact h
      · exact h4 j (by omega) hj2

theorem first_free_minor_eq (table : Nat → Option Nat) (m : Nat) (hm : m < SENSEACT_DEVICES)
    (hfree : table m = none) (hbelow : ∀ j, j < m → table j ≠ none) :
    first_free_minor table SENSEACT_DEVICES 0 = m := by
  obtain ⟨_, h2, h3, h4⟩ := first_free_minor_spec table SENSEACT_DEVICES 0
  by_contra hne
  rcases Nat.lt_or_gt_of_ne hne with hlt | hgt
  · have hfr := h3 (by omega)
    exact hbelow _ hlt hfr
  · exact h4 m (Nat.zero_le _) hgt hfree

theorem first_free_minor_full (table : Nat → Option Nat)
    (hfull : ∀ i, i < SENSEACT_DEVICES → table i ≠ none) :
    first_free_minor table SENSEACT_DEVICES 0 = SENSEACT_DEVICES := by
  obtain ⟨_, h2, h3, _⟩ := first_free_minor_spec table SENSEACT_DEVICES 0
  by_contra hne
  have hlt : first_free_minor table SENSEACT_DEVICES 0 < SENSEACT_DEVICES := by omega
  exact hfull _ hlt (h3 (by omega))

theorem allocate_table_wf {σ : Type} (core : senseact_core σ) (kz : Option Nat) (zero : σ)
    (hwf : table_wf core)
    (hfresh : ∀ p, kz = some p → ∀ i, i < SENSEACT_DEVICES → core.senseact_table i ≠ some p) :
    table_wf (senseact_allocate_device core kz zero).1 := by
  cases kz with
  | none => simpa [senseact_allocate_device] using hwf
  | some p =>
    unfold senseact_allocate_device
    simp only
    by_cases hm : first_free_minor core.senseact_table SENSEACT_DEVICES 0 = SENSEACT_DEVICES
    · simpa [hm] using hwf
    · simp only [hm, if_false]
      intro i q hi hq
      by_cases him : i = first_free_minor core.senseact_table SENSEACT_DEVICES 0
      · subst him
        simp only [Function.update_same, Option.some.injEq] at hq
        subst hq
        simp [senseact_set_capabilities]
      · simp only [Function.update_noteq him] at hq
        have hqp : q ≠ p := by
          intro e
          subst e
          exact hfresh q rfl i hi hq
        simp only [Function.update_noteq hqp]
        exact hwf i q hi hq

theorem unregister_table_wf {σ : Type} (flush : Option (σ → σ × Int))
    (core : senseact_core σ) (p : Nat) (hwf : table_wf core) :
    table_wf (senseact_unregister_device flush core p) := by
  intro i q hi hq
  simp only [senseact_unregister_device] at hq ⊢
  by_cases him : i = (core.mem p).minor
  · subst him
    simp at hq
  · simp only [Function.update_noteq him] at hq
    have hmin := hwf i q hi hq
    by_cases hqp : q = p
    · subst hqp
      exact absurd hmin.symm him
    · simp only [Function.update_noteq hqp]
      exact hmin

theorem allocate_table_live {σ : Type} (core : senseact_core σ) (kz : Option Nat) (zero : σ)
    (hlive : table_live core)
    (hfresh : ∀ p, kz = some p → ∀ i, i < SENSEACT_DEVICES → core.senseact_table i ≠ some p) :
    table_live (senseact_allocate_device core kz zero).1 := by
  cases kz with
  | none => simpa [senseact_allocate_device] using hlive
  | some p =>
    unfold senseact_allocate_device
    simp only
    by_cases hm : first_free_minor core.senseact_table SENSEACT_DEVICES 0 = SENSEACT_DEVICES
    · simpa [hm] using hlive
    · simp only [hm, if_false]
      intro i q hi hq
      by_cases him : i = first_free_minor core.senseact_table SENSEACT_DEVICES 0
      · subst him
        simp only [Function.update_same, Option.some.injEq] at hq
        subst hq
        simp [senseact_set_capabilities]
      · simp only [Function.update_noteq him] at hq
        have hqp : q ≠ p := by
          intro e
          subst e
          exact hfresh q rfl i hi hq
        simp only [Function.update_noteq hqp]
        exact hlive i q hi hq

theorem unregister_table_live {σ : Type} (flush : Option (σ → σ × Int))
    (core : senseact_core σ) (p : Nat) (hwf : table_wf core) (hlive : table_live core) :
    table_live (senseact_unregister_device flush core p) := by
  intro i q hi hq
  simp only [senseact_unregister_device] at hq ⊢
  by_cases him : i = (core.mem p).minor
  · subst him
    simp at hq
  · simp only [Function.update_noteq him] at hq
    have hmin := hwf i q hi hq
    by_cases hqp : q = p
    · subst hqp
      exact absurd hmin.symm him
    · simp only [Function.update_noteq hqp]
      exact hlive i q hi hq

theorem open_device_minor {σ : Type} (cb : senseact_callbacks σ) (lock : Int)
    (d : senseact_device σ) : (senseact_open_device cb lock d).1.minor = d.minor := by
  unfold senseact_open_device
  by_cases hl : lock = 0
  · subst hl
    by_cases hg : d.going_away = true
    · simp [hg]
    · by_cases hu : d.users = 0
      · cases hcb : cb.open_ with
        | none => simp [hg, hu]
        | some f =>
          by_cases hr : (f d.drvdata).2 = 0
          · simp [hg, hu, hr]
          · simp [hg, hu, hr]
      · simp [hg, hu]
  · simp [hl]

theorem close_device_minor {σ : Type} (cb : senseact_callbacks σ) (d : senseact_device σ) :
    (senseact_close_device cb d).minor = d.minor := by
  unfold senseact_close_device
  by_cases h0 : u32_dec d.users = 0
  · cases hcb : cb.close with
    | none => simp [h0]
    | some g => simp [h0]
  · simp [h0]

theorem open_file_minor {σ : Type} (cb : senseact_callbacks σ) (core : senseact_core σ)
    (i : Nat) (tl : Int) (kz : Bool) (dl : Int) (q : Nat) :
    ((senseact_open_file cb core i tl kz dl).1.mem q).minor = (core.mem q).minor := by
  unfold senseact_open_file
  by_cases hi : i ≥ SENSEACT_DEVICES
  · simp [hi]
  · by_cases hl : tl = 0
    · cases ht : core.senseact_table i with
      | none => simp [hi, hl, ht]
      | some a =>
        by_cases hk : kz = false
        · simp only [hi, hl, ht, hk, if_true, if_false, ne_eq, not_true_eq_false]
          by_cases hq : q = a
          · subst hq
            simp
          · simp [Function.update_noteq hq]
        · simp only [hi, hl, ht, hk, if_false, ne_eq, not_true_eq_false]
          have f1 := open_device_minor cb dl
            { core.mem a with refcount := (core.mem a).refcount + 1,
                              queue_list := (core.mem a).queue_list ++ [senseact_queue_zero] }
          by_cases hq : q = a
          · subst hq
            split_ifs <;> simp [f1]
          · split_ifs <;> simp [Function.update_noteq hq]
    · simp [hi, hl]

theorem release_file_minor {σ : Type} (cb : senseact_callbacks σ) (core : senseact_core σ)
    (p k q : Nat) :
    ((senseact_release_file cb core p k).mem q).minor = (core.mem q).minor := by
  have f1 := close_device_minor cb
    { core.mem p with queue_list := (core.mem p).queue_list.eraseIdx k }
  unfold senseact_release_file
  by_cases hq : q = p
  · subst hq
    simp [f1]
  · simp [Function.update_noteq hq]


/-! ## C12: nothing flows through an unregistered device -/

/-- C12, as stated, fails when taking a mutex is interrupted: after
`senseact_unregister_device`, a write, an ioctl and a flush on a handle that is still open
and an open on the minor return the error of `mutex_lock_interruptible` (-4 here), not
`-ENODEV`. -/
theorem senseact_unregistered_counterexample :
    (senseact_write_file recording_callbacks (-4) (user_buffer [⟨3, 0, 0, 0, 100⟩]) 8
        ((senseact_unregister_device none registered_core 7).mem 7)).map
        (fun r => (r.1.drvdata, r.2)) =
      some (([] : List (Nat × Nat × Nat × Int)), (-4 : Int)) ∧
    senseact_ioctl_file (-4) ((senseact_unregister_device none registered_core 7).mem 7)
      EVIOCGVERSION 0 = -4 ∧
    (senseact_flush_file none (-4)
      ((senseact_unregister_device none registered_core 7).mem 7)).2 = -4 ∧
    (senseact_open_file recording_callbacks (senseact_unregister_device none registered_core 7)
      0 (-4) true 0).2 = -4 ∧
    (-4 : Int) ≠ -ENODEV :=
  ⟨by decide, by decide, by decide, by decide, by decide⟩

/-- C12, amended. After `senseact_unregister_device` has run on the device at address `p`
(`going_away` set, the slot of its minor cleared), `senseact_open_file` on that minor
leaves the state as it is, and on handles that are still open read (`count >= 8`), write
(device with a pass handler), ioctl and flush leave the device as it is: write passes no
action to the driver and read removes no action from the queue. Each of these calls
returns `-ENODEV`, except that a call interrupted while taking its mutex returns the
error of `mutex_lock_interruptible` instead. -/
theorem senseact_unregistered_nothing_flows {σ : Type} (flush : Option (σ → σ × Int))
    (core : senseact_core σ) (p : Nat) :
    ((senseact_unregister_device flush core p).mem p).going_away = true ∧
    ((senseact_unregister_device flush core p).mem p).minor = (core.mem p).minor ∧
    (senseact_unregister_device flush core p).senseact_table (core.mem p).minor = none ∧
    (∀ (cb : senseact_callbacks σ) (table_lock dev_lock : Int) (kzalloc_ok : Bool),
      senseact_open_file cb (senseact_unregister_device flush core p) (core.mem p).minor
          table_lock kzalloc_ok dev_lock =
        (senseact_unregister_device flush core p,
          if (core.mem p).minor < SENSEACT_DEVICES ∧ table_lock ≠ 0 then table_lock
          else -ENODEV)) ∧
    (∀ (nonblock : Bool) (user_ok : Nat → Bool) (count : Nat) (q : senseact_queue),
      sizeof_senseact_action ≤ count →
      senseact_read_file ((senseact_unregister_device flush core p).mem p) nonblock user_ok
          count q = some (read_result.returned q (-ENODEV) [])) ∧
    (∀ (cb : senseact_callbacks σ) (lock : Int) (buffer : Nat → Option senseact_action)
        (count : Nat), cb.pass ≠ none →
      senseact_write_file cb lock buffer count
          ((senseact_unregister_device flush core p).mem p) =
        some ((senseact_unregister_device flush core p).mem p,
          if lock ≠ 0 then lock else -ENODEV)) ∧
    (∀ (lock : Int) (cmd : Nat) (put_user : Int),
      senseact_ioctl_file lock ((senseact_unregister_device flush core p).mem p) cmd
          put_user = if lock ≠ 0 then lock else -ENODEV) ∧
    (∀ (fl : Option (σ → σ × Int)) (lock : Int),
      senseact_flush_file fl lock ((senseact_unregister_device flush core p).mem p) =
        ((senseact_unregister_device flush core p).mem p,
          if lock ≠ 0 then lock else -ENODEV)) := by
  have hg : ((senseact_unregister_device flush core p).mem p).going_away = true := by
    simp only [senseact_unregister_device, Function.update_same]
    split
    · split <;> rfl
    · rfl
  have hslot : (senseact_unregister_device flush core p).senseact_table (core.mem p).minor =
      none := by
    simp [senseact_unregister_device]
  refine ⟨hg, ?_, hslot, ?_, ?_, ?_, ?_, ?_⟩
  · simp only [senseact_unregister_device, Function.update_same]
    split
    · split <;> rfl
    · rfl
  · intro cb table_lock dev_lock kzalloc_ok
    unfold senseact_open_file
    by_cases hi : (core.mem p).minor ≥ SENSEACT_DEVICES
    · have hnot : ¬ (core.mem p).minor < SENSEACT_DEVICES := by omega
      simp [hi, hnot]
    · have hlt : (core.mem p).minor < SENSEACT_DEVICES := by omega
      by_cases hl : table_lock = 0
      · simp [hi, hl, hslot]
      · simp [hi, hl, hlt]
  · intro nonblock user_ok count q hc
    have hnot : ¬ count < sizeof_senseact_action := by omega
    simp [senseact_read_file, hnot, hg]
  · intro cb lock buffer count hpass
    unfold senseact_write_file
    cases hcb : cb.pass with
    | none => exact absurd hcb hpass
    | some pass =>
      by_cases hl : lock = 0
      · simp [hl, hg]
      · simp [hl]
  · intro lock cmd put_user
    by_cases hl : lock = 0
    · simp [senseact_ioctl_file, hl, hg]
    · simp [senseact_ioctl_file, hl]
  · intro fl lock
    by_cases hl : lock = 0
    · simp [senseact_flush_file, hl, hg]
    · simp [senseact_flush_file, hl]

/-! ## C20: handles, queues and references stay in step -/

theorem open_device_frame {σ : Type} (cb : senseact_callbacks σ) (lock : Int)
    (d : senseact_device σ) :
    (senseact_open_device cb lock d).1.queue_list = d.queue_list ∧
    (senseact_open_device cb lock d).1.refcount = d.refcount ∧
    ((senseact_open_device cb lock d).2 ≠ 0 → (senseact_open_device cb lock d).1.users = d.users) ∧
    ((senseact_open_device cb lock d).2 = 0 →
      (senseact_open_device cb lock d).1.users = u32 (d.users + 1)) := by
  unfold senseact_open_device
  by_cases hl : lock = 0
  · subst hl
    by_cases hg : d.going_away = true
    · simp [hg, ENODEV]
    · by_cases hu : d.users = 0
      · cases hcb : cb.open_ with
        | none => simp [hg, hu]
        | some f =>
          by_cases hr : (f d.drvdata).2 = 0
          · simp [hg, hu, hr]
          · simp [hg, hu, hr, u32, u32_dec]
      · simp [hg, hu]
  · simp [hl]

theorem close_device_frame {σ : Type} (cb : senseact_callbacks σ) (d : senseact_device σ) :
    (senseact_close_device cb d).queue_list = d.queue_list ∧
    (senseact_close_device cb d).refcount = d.refcount ∧
    (senseact_close_device cb d).users = u32_dec d.users := by
  unfold senseact_close_device
  by_cases h0 : u32_dec d.users = 0
  · cases hcb : cb.close with
    | none => simp [h0]
    | some g => simp [h0]
  · simp [h0]

theorem open_file_failure {σ : Type} (cb : senseact_callbacks σ) (core : senseact_core σ)
    (i : Nat) (tl : Int) (kz : Bool) (dl : Int)
    (h : (senseact_open_file cb core i tl kz dl).2 ≠ 0) :
    (senseact_open_file cb core i tl kz dl).1.senseact_table = core.senseact_table ∧
    ∀ q, ((senseact_open_file cb core i tl kz dl).1.mem q).refcount = (core.mem q).refcount ∧
      ((senseact_open_file cb core i tl kz dl).1.mem q).queue_list = (core.mem q).queue_list ∧
      ((senseact_open_file cb core i tl kz dl).1.mem q).users = (core.mem q).users := by
  unfold senseact_open_file at h ⊢
  by_cases hi : i ≥ SENSEACT_DEVICES
  · simp [hi]
  · by_cases hl : tl = 0
    · cases ht : core.senseact_table i with
      | none => simp [hi, hl, ht]
      | some a =>
        by_cases hk : kz = false
        · simp only [hi, hl, ht, hk, if_true, if_false, ne_eq, not_true_eq_false]
          refine ⟨trivial, fun q => ?_⟩
          by_cases hq : q = a
          · subst hq
            simp
          · simp [Function.update_noteq hq]
        · simp only [hi, hl, ht, hk, if_false, ne_eq, not_true_eq_false] at h ⊢
          obtain ⟨f1, f2, f3, _⟩ := open_device_frame cb dl
            { core.mem a with refcount := (core.mem a).refcount + 1,
                              queue_list := (core.mem a).queue_list ++ [senseact_queue_zero] }
          by_cases hr : (senseact_open_device cb dl
              { core.mem a with refcount := (core.mem a).refcount + 1,
                                queue_list := (core.mem a).queue_list ++ [senseact_queue_zero] }).2 = 0
          · simp [hr] at h
          · simp only [hr, not_false_eq_true, if_true]
            refine ⟨rfl, fun q => ?_⟩
            by_cases hq : q = a
            · subst hq
              refine ⟨?_, ?_, ?_⟩
              · simp [f2]
              · simp [f1]
              · simp [f3 hr]
            · simp [Function.update_noteq hq]
    · simp [hi, hl]

theorem open_file_success {σ : Type} (cb : senseact_callbacks σ) (core : senseact_core σ)
    (i : Nat) (tl : Int) (kz : Bool) (dl : Int)
    (h : (senseact_open_file cb core i tl kz dl).2 = 0) :
    ∃ a, i < SENSEACT_DEVICES ∧ core.senseact_table i = some a ∧
      (senseact_open_file cb core i tl kz dl).1.senseact_table = core.senseact_table ∧
      ((senseact_open_file cb core i tl kz dl).1.mem a).refcount = (core.mem a).refcount + 1 ∧
      ((senseact_open_file cb core i tl kz dl).1.mem a).queue_list =
        (core.mem a).queue_list ++ [senseact_queue_zero] ∧
      ((senseact_open_file cb core i tl kz dl).1.mem a).users = u32 ((core.mem a).users + 1) ∧
      ∀ q, q ≠ a → (senseact_open_file cb core i tl kz dl).1.mem q = core.mem q := by
  unfold senseact_open_file at h ⊢
  by_cases hi : i ≥ SENSEACT_DEVICES
  · simp [hi, ENODEV] at h
  · by_cases hl : tl = 0
    · cases ht : core.senseact_table i with
      | none => simp [hi, hl, ht, ENODEV] at h
      | some a =>
        by_cases hk : kz = false
        · simp [hi, hl, ht, hk, ENOMEM] at h
        · simp only [hi, hl, ht, hk, if_false, ne_eq, not_true_eq_false] at h ⊢
          obtain ⟨f1, f2, _, f4⟩ := open_device_frame cb dl
            { core.mem a with refcount := (core.mem a).refcount + 1,
                              queue_list := (core.mem a).queue_list ++ [senseact_queue_zero] }
          by_cases hr : (senseact_open_device cb dl
              { core.mem a with refcount := (core.mem a).refcount + 1,
                                queue_list := (core.mem a).queue_list ++ [senseact_queue_zero] }).2 = 0
          · simp only [hr, not_true_eq_false, if_false]
            refine ⟨a, by omega, rfl, rfl, ?_, ?_, ?_, ?_⟩
            · simp [f2]
            · simp [f1]
            · simp [f4 hr]
            · intro q hq
              simp [Function.update_noteq hq]
          · simp [hr] at h
    · simp [hi, hl] at h

theorem release_file_effect {σ : Type} (cb : senseact_callbacks σ) (core : senseact_core σ)
    (p k : Nat) :
    (senseact_release_file cb core p k).senseact_table = core.senseact_table ∧
    ((senseact_release_file cb core p k).mem p).queue_list =
      (core.mem p).queue_list.eraseIdx k ∧
    ((senseact_release_file cb core p k).mem p).refcount = (core.mem p).refcount - 1 ∧
    ((senseact_release_file cb core p k).mem p).users = u32_dec (core.mem p).users ∧
    ∀ q, q ≠ p → (senseact_release_file cb core p k).mem q = core.mem q := by
  obtain ⟨f1, f2, f3⟩ := close_device_frame cb
    { core.mem p with queue_list := (core.mem p).queue_list.eraseIdx k }
  unfold senseact_release_file
  refine ⟨rfl, ?_, ?_, ?_, ?_⟩
  · simp [f1]
  · simp [f2]
  · simp [f3]
  · intro q hq
    simp [Function.update_noteq hq]

/-- Along a sequence of opens and releases of open handles, the number of attached queues
and `users` move together, and the reference count moves with them. -/
theorem file_ops_invariant {σ : Type} (cb : senseact_callbacks σ) (i p : Nat)
    (ops : List file_op) :
    ∀ (core : senseact_core σ), core.senseact_table i = some p →
      (core.mem p).queue_list.length = (core.mem p).users →
      (core.mem p).users ≤ (core.mem p).refcount →
      (core.mem p).users + ops.length < 2 ^ 32 →
      releases_valid cb i p core ops = true →
      ((run_file_ops cb i p core ops).1.mem p).queue_list.length =
        ((run_file_ops cb i p core ops).1.mem p).users ∧
      ((run_file_ops cb i p core ops).1.mem p).users + release_calls ops =
        (core.mem p).users + (run_file_ops cb i p core ops).2.count 0 ∧
      ((run_file_ops cb i p core ops).1.mem p).refcount + release_calls ops =
        (core.mem p).refcount + (run_file_ops cb i p core ops).2.count 0 := by
  induction ops with
  | nil =>
    intro core _ hq _ _ _
    simp [run_file_ops, release_calls, hq]
  | cons op ops ih =>
    intro core ht hq hr hlen hv
    simp only [List.length_cons] at hlen
    cases op with
    | open_ tl kz dl =>
      simp only [releases_valid] at hv
      simp only [run_file_ops, release_calls]
      by_cases hret : (senseact_open_file cb core i tl kz dl).2 = 0
      · obtain ⟨a, _, hta, htab, h1, h2, h3, _⟩ := open_file_success cb core i tl kz dl hret
        have hap : a = p := by
          rw [ht] at hta
          exact (Option.some.inj hta).symm
        subst hap
        have hu : u32 ((core.mem a).users + 1) = (core.mem a).users + 1 := by
          unfold u32
          exact Nat.mod_eq_of_lt (by omega)
        rw [hu] at h3
        obtain ⟨g1, g2, g3⟩ := ih (senseact_open_file cb core i tl kz dl).1
          (by rw [htab]; exact ht)
          (by rw [h2, h3]; simp [hq])
          (by rw [h1, h3]; omega)
          (by rw [h3]; omega) hv
        refine ⟨g1, ?_, ?_⟩
        · rw [hret, List.count_cons_self]
          omega
        · rw [hret, List.count_cons_self]
          omega
      · obtain ⟨htab, hframe⟩ := open_file_failure cb core i tl kz dl hret
        obtain ⟨h1, h2, h3⟩ := hframe p
        obtain ⟨g1, g2, g3⟩ := ih (senseact_open_file cb core i tl kz dl).1
          (by rw [htab]; exact ht)
          (by rw [h2, h3]; exact hq)
          (by rw [h1, h3]; exact hr)
          (by rw [h3]; omega) hv
        have hc : List.count (0 : Int)
            ((senseact_open_file cb core i tl kz dl).2 ::
              (run_file_ops cb i p (senseact_open_file cb core i tl kz dl).1 ops).2) =
            List.count 0 (run_file_ops cb i p (senseact_open_file cb core i tl kz dl).1 ops).2 :=
          List.count_cons_of_ne (fun e => hret e.symm) _
        refine ⟨g1, ?_, ?_⟩
        · rw [hc]
          omega
        · rw [hc]
          omega
    | release k =>
      simp only [releases_valid, Bool.and_eq_true, decide_eq_true_eq] at hv
      simp only [run_file_ops, release_calls]
      obtain ⟨htab, h2, h1, h3, _⟩ := release_file_effect cb core p k
      have hk : k < (core.mem p).queue_list.length := hv.1
      have hu : u32_dec (core.mem p).users = (core.mem p).users - 1 := by
        unfold u32_dec
        split <;> omega
      rw [hu] at h3
      obtain ⟨g1, g2, g3⟩ := ih (senseact_release_file cb core p k)
        (by rw [htab]; exact ht)
        (by rw [h2, h3, List.length_eraseIdx, if_pos hk]; omega)
        (by rw [h1, h3]; omega)
        (by rw [h3]; omega) hv.2
      refine ⟨g1, ?_, ?_⟩ <;> omega

/-- C20. `senseact_open_file` leaves the table and every device's reference count, queue
list and `users` unchanged whenever it fails (`-ENODEV` for a minor of 32 or more or an
empty slot, `-ENOMEM` when the queue cannot be allocated, the error of
`senseact_open_device`, or an interrupted table mutex), and on success it has added one
reference, one queue (at the tail) and one user to the device of that minor.
`senseact_release_file` of an open handle takes one of each away. Hence, from a device
without queues and users, after any sequence of opens and releases of open handles
(fewer than 2^32 calls) the number of attached queues equals `users` equals the number
of successful opens minus releases, and the reference count has moved by the same
number. -/
theorem senseact_open_release_in_step {σ : Type} (cb : senseact_callbacks σ)
    (core : senseact_core σ) (i p : Nat) :
    (∀ tl kz dl, (senseact_open_file cb core i tl kz dl).2 ≠ 0 →
      (senseact_open_file cb core i tl kz dl).1.senseact_table = core.senseact_table ∧
      ∀ q, ((senseact_open_file cb core i tl kz dl).1.mem q).refcount = (core.mem q).refcount ∧
        ((senseact_open_file cb core i tl kz dl).1.mem q).queue_list =
          (core.mem q).queue_list ∧
        ((senseact_open_file cb core i tl kz dl).1.mem q).users = (core.mem q).users) ∧
    (∀ tl kz dl,
      (i ≥ SENSEACT_DEVICES → (senseact_open_file cb core i tl kz dl).2 = -ENODEV) ∧
      (i < SENSEACT_DEVICES → tl = 0 → core.senseact_table i = none →
        (senseact_open_file cb core i tl kz dl).2 = -ENODEV) ∧
      (i < SENSEACT_DEVICES → tl = 0 → core.senseact_table i ≠ none → kz = false →
        (senseact_open_file cb core i tl kz dl).2 = -ENOMEM) ∧
      (i < SENSEACT_DEVICES → tl = 0 → core.senseact_table i = some p → kz = true →
        (senseact_open_file cb core i tl kz dl).2 =
          (senseact_open_device cb dl
            { core.mem p with refcount := (core.mem p).refcount + 1,
                              queue_list := (core.mem p).queue_list ++ [senseact_queue_zero] }).2)) ∧
    (∀ tl kz dl, (senseact_open_file cb core i tl kz dl).2 = 0 →
      ∃ a, core.senseact_table i = some a ∧
        ((senseact_open_file cb core i tl kz dl).1.mem a).refcount = (core.mem a).refcount + 1 ∧
        ((senseact_open_file cb core i tl kz dl).1.mem a).queue_list =
          (core.mem a).queue_list ++ [senseact_queue_zero] ∧
        ((senseact_open_file cb core i tl kz dl).1.mem a).users = u32 ((core.mem a).users + 1) ∧
        ((core.mem a).users + 1 < 2 ^ 32 →
          ((senseact_open_file cb core i tl kz dl).1.mem a).users = (core.mem a).users + 1)) ∧
    (∀ k, k < (core.mem p).queue_list.length → 1 ≤ (core.mem p).users →
      (core.mem p).users < 2 ^ 32 → 1 ≤ (core.mem p).refcount →
      ((senseact_release_file cb core p k).mem p).queue_list.length + 1 =
        (core.mem p).queue_list.length ∧
      ((senseact_release_file cb core p k).mem p).users + 1 = (core.mem p).users ∧
      ((senseact_release_file cb core p k).mem p).refcount + 1 = (core.mem p).refcount) ∧
    (core.senseact_table i = some p → (core.mem p).queue_list = [] →
      (core.mem p).users = 0 → ∀ ops, releases_valid cb i p core ops = true →
      ops.length < 2 ^ 32 →
      ((run_file_ops cb i p core ops).1.mem p).queue_list.length =
        ((run_file_ops cb i p core ops).1.mem p).users ∧
      ((run_file_ops cb i p core ops).1.mem p).users =
        (run_file_ops cb i p core ops).2.count 0 - release_calls ops ∧
      ((run_file_ops cb i p core ops).1.mem p).refcount + release_calls ops =
        (core.mem p).refcount + (run_file_ops cb i p core ops).2.count 0) := by
  refine ⟨fun tl kz dl h => open_file_failure cb core i tl kz dl h, ?_, ?_, ?_, ?_⟩
  · intro tl kz dl
    refine ⟨?_, ?_, ?_, ?_⟩
    · intro hi
      simp [senseact_open_file, hi]
    · intro hi hl ht
      have hn : ¬ i ≥ SENSEACT_DEVICES := by omega
      simp [senseact_open_file, hn, hl, ht]
    · intro hi hl ht hk
      have hn : ¬ i ≥ SENSEACT_DEVICES := by omega
      cases hta : core.senseact_table i with
      | none => exact absurd hta ht
      | some a => simp [senseact_open_file, hn, hl, hta, hk]
    · intro hi hl ht hk
      have hn : ¬ i ≥ SENSEACT_DEVICES := by omega
      simp only [senseact_open_file, hn, hl, ht, hk, if_false, ne_eq, not_true_eq_false,
        Bool.true_eq_false]
      split <;> simp_all
  · intro tl kz dl h
    obtain ⟨a, _, hta, _, h1, h2, h3, _⟩ := open_file_success cb core i tl kz dl h
    refine ⟨a, hta, h1, h2, h3, ?_⟩
    intro hlt
    rw [h3]
    unfold u32
    exact Nat.mod_eq_of_lt hlt
  · intro k hk hu hlt hr
    obtain ⟨_, h2, h1, h3, _⟩ := release_file_effect cb core p k
    rw [h2, h1, h3, List.length_eraseIdx, if_pos hk]
    unfold u32_dec
    refine ⟨by omega, ?_, by omega⟩
    split <;> omega
  · intro ht hq hu ops hv hlen
    obtain ⟨g1, g2, g3⟩ := file_ops_invariant cb i p ops core ht (by simp [hq, hu])
      (by omega) (by omega) hv
    exact ⟨g1, by omega, g3⟩

/-- C20 on the counting driver: after an open, a failed open (no memory for the queue),
an open, a release and an open interrupted at the table mutex, one handle is open, one
queue is attached and `users` is 1. -/
theorem senseact_open_release_in_step_witness :
    fresh_core.senseact_table 0 = some 7 ∧
    releases_valid counting_callbacks 0 7 fresh_core handles_example = true ∧
    ((run_file_ops counting_callbacks 0 7 fresh_core handles_example).1.mem 7).queue_list.length =
      ((run_file_ops counting_callbacks 0 7 fresh_core handles_example).1.mem 7).users ∧
    ((run_file_ops counting_callbacks 0 7 fresh_core handles_example).1.mem 7).users = 1 ∧
    (run_file_ops counting_callbacks 0 7 fresh_core handles_example).2 = [0, -12, 0, -4] :=
  ⟨by decide, by decide,
    ((senseact_open_release_in_step counting_callbacks fresh_core 0 7).2.2.2.2
      (by decide) rfl (by decide) handles_example (by decide) (by decide)).1,
    by decide, by decide⟩


/-! ## C11: the table along sequences of calls -/

theorem open_file_table_inv {σ : Type} (cb : senseact_callbacks σ) (core : senseact_core σ)
    (i : Nat) (tl : Int) (kz : Bool) (dl : Int) (hwf : table_wf core)
    (hlive : table_live core) :
    table_wf (senseact_open_file cb core i tl kz dl).1 ∧
      table_live (senseact_open_file cb core i tl kz dl).1 := by
  by_cases h : (senseact_open_file cb core i tl kz dl).2 = 0
  · obtain ⟨a, _, _, ht, h1, h2, _, h4⟩ := open_file_success cb core i tl kz dl h
    constructor
    · intro j q hj hq
      rw [ht] at hq
      rw [open_file_minor]
      exact hwf j q hj hq
    · intro j q hj hq
      rw [ht] at hq
      have := hlive j q hj hq
      by_cases hqa : q = a
      · subst hqa
        rw [h1, h2, List.length_append, List.length_singleton]
        omega
      · rw [h4 q hqa]
        exact this
  · obtain ⟨ht, hq⟩ := open_file_failure cb core i tl kz dl h
    constructor
    · intro j q hj hjq
      rw [ht] at hjq
      rw [open_file_minor]
      exact hwf j q hj hjq
    · intro j q hj hjq
      rw [ht] at hjq
      rw [(hq q).1, (hq q).2.1]
      exact hlive j q hj hjq

theorem release_file_table_inv {σ : Type} (cb : senseact_callbacks σ)
    (core : senseact_core σ) (p k : Nat) (hk : k < (core.mem p).queue_list.length)
    (hwf : table_wf core) (hlive : table_live core) :
    table_wf (senseact_release_file cb core p k) ∧
      table_live (senseact_release_file cb core p k) := by
  obtain ⟨ht, h1, h2, _, h4⟩ := release_file_effect cb core p k
  constructor
  · intro j q hj hq
    rw [ht] at hq
    rw [release_file_minor]
    exact hwf j q hj hq
  · intro j q hj hq
    rw [ht] at hq
    have := hlive j q hj hq
    by_cases hqp : q = p
    · subst hqp
      rw [h1, h2, List.length_eraseIdx]
      rw [if_pos hk]
      omega
    · rw [h4 q hqp]
      exact this

theorem run_core_ops_inv {σ : Type} (cb : senseact_callbacks σ) (zero : σ)
    (flush : Option (σ → σ × Int)) (ops : List core_op) :
    ∀ (core : senseact_core σ), table_wf core → table_live core →
      core_ops_valid cb zero flush core ops = true →
      table_wf (run_core_ops cb zero flush core ops) ∧
        table_live (run_core_ops cb zero flush core ops) := by
  induction ops with
  | nil =>
    intro core hwf hlive _
    exact ⟨hwf, hlive⟩
  | cons op ops ih =>
    intro core hwf hlive hvalid
    cases op with
    | allocate kz =>
      simp only [core_ops_valid, Bool.and_eq_true] at hvalid
      simp only [run_core_ops]
      have hfresh : ∀ p, kz = some p → ∀ i, i < SENSEACT_DEVICES →
          core.senseact_table i ≠ some p := by
        intro p hp i hi hslot
        subst hp
        have h0 : (core.mem p).refcount = 0 := by simpa using hvalid.1
        have := hlive i p hi hslot
        omega
      exact ih _ (allocate_table_wf core kz zero hwf hfresh)
        (allocate_table_live core kz zero hlive hfresh) hvalid.2
    | unregister p =>
      simp only [core_ops_valid] at hvalid
      simp only [run_core_ops]
      exact ih _ (unregister_table_wf flush core p hwf)
        (unregister_table_live flush core p hwf hlive) hvalid
    | open_ i tl kz dl =>
      simp only [core_ops_valid] at hvalid
      simp only [run_core_ops]
      obtain ⟨h1, h2⟩ := open_file_table_inv cb core i tl kz dl hwf hlive
      exact ih _ h1 h2 hvalid
    | release p k =>
      simp only [core_ops_valid, Bool.and_eq_true, decide_eq_true_eq] at hvalid
      simp only [run_core_ops]
      obtain ⟨h1, h2⟩ := release_file_table_inv cb core p k hvalid.1 hwf hlive
      exact ih _ h1 h2 hvalid.2

/-- C11, as stated, fails in its last part. A device that is unregistered while a handle
is open stays allocated and keeps its minor, which the next allocation assigns again:
after `shared_minor_example` the devices at addresses 5 and 6 are both live and both carry
minor 0 (only the second is in the table). And `senseact_free_device` gives a device back
without clearing its slot: when `kzalloc` hands out the address again, slots 0 and 1 refer
to the same device. -/
theorem senseact_allocate_device_minor_counterexample :
    core_ops_valid no_callbacks () none (core_empty blank_mem) shared_minor_example = true ∧
    ((run_core_ops no_callbacks () none (core_empty blank_mem) shared_minor_example).mem
      5).minor = 0 ∧
    ((run_core_ops no_callbacks () none (core_empty blank_mem) shared_minor_example).mem
      6).minor = 0 ∧
    ((run_core_ops no_callbacks () none (core_empty blank_mem) shared_minor_example).mem
      5).refcount = 1 ∧
    ((run_core_ops no_callbacks () none (core_empty blank_mem) shared_minor_example).mem
      5).queue_list.length = 1 ∧
    ((run_core_ops no_callbacks () none (core_empty blank_mem) shared_minor_example).mem
      6).refcount = 1 ∧
    (run_core_ops no_callbacks () none (core_empty blank_mem)
      shared_minor_example).senseact_table 0 = some 6 ∧
    (freed_core.mem 5).refcount = 0 ∧
    freed_core.senseact_table 0 = some 5 ∧
    (senseact_allocate_device freed_core (some 5) ()).1.senseact_table 0 = some 5 ∧
    (senseact_allocate_device freed_core (some 5) ()).1.senseact_table 1 = some 5 :=
  ⟨by decide, by decide, by decide, by decide, by decide, by decide, by decide, by decide,
    by decide, by decide, by decide⟩

/-- C11, amended. `senseact_allocate_device` returns NULL and leaves table and devices
unchanged when `kzalloc` fails or when all 32 slots are occupied; otherwise it stores the
new device in the smallest empty slot `m` of 0..31, records `m` as the device's minor,
marks `SENSEACT_TYPE_SYNC` as supported and touches no other device.
`senseact_unregister_device` clears the slot of the device's minor and leaves the minor
field. Consequently, along every sequence of allocations, unregistrations, opens and
releases of open handles from the empty table in which `kzalloc` hands out memory that is
not a live device, every table entry refers to a live device that carries the slot index
as its minor, so two different slots never hold the same device nor devices with the same
minor. -/
theorem senseact_allocate_device_minor {σ : Type} (core : senseact_core σ) (p : Nat)
    (zero : σ) :
    senseact_allocate_device core none zero = (core, none) ∧
    ((∀ i, i < SENSEACT_DEVICES → core.senseact_table i ≠ none) →
      senseact_allocate_device core (some p) zero = (core, none)) ∧
    (∀ m, m < SENSEACT_DEVICES → core.senseact_table m = none →
      (∀ j, j < m → core.senseact_table j ≠ none) →
      (senseact_allocate_device core (some p) zero).2 = some p ∧
      (senseact_allocate_device core (some p) zero).1.senseact_table =
        Function.update core.senseact_table m (some p) ∧
      ((senseact_allocate_device core (some p) zero).1.mem p).minor = m ∧
      is_type_supported ((senseact_allocate_device core (some p) zero).1.mem p)
        SENSEACT_TYPE_SYNC = true ∧
      ∀ q, q ≠ p → (senseact_allocate_device core (some p) zero).1.mem q = core.mem q) ∧
    (∀ (flush : Option (σ → σ × Int)),
      ((senseact_unregister_device flush core p).mem p).minor = (core.mem p).minor ∧
      (senseact_unregister_device flush core p).senseact_table (core.mem p).minor = none) ∧
    (∀ (cb : senseact_callbacks σ) (flush : Option (σ → σ × Int))
        (mem : Nat → senseact_device σ) (ops : List core_op),
      core_ops_valid cb zero flush (core_empty mem) ops = true →
      table_wf (run_core_ops cb zero flush (core_empty mem) ops) ∧
      table_live (run_core_ops cb zero flush (core_empty mem) ops) ∧
      ∀ i j a b, i < SENSEACT_DEVICES → j < SENSEACT_DEVICES → i ≠ j →
        (run_core_ops cb zero flush (core_empty mem) ops).senseact_table i = some a →
        (run_core_ops cb zero flush (core_empty mem) ops).senseact_table j = some b →
        a ≠ b ∧
        ((run_core_ops cb zero flush (core_empty mem) ops).mem a).minor ≠
          ((run_core_ops cb zero flush (core_empty mem) ops).mem b).minor) := by
  refine ⟨rfl, ?_, ?_, ?_, ?_⟩
  · intro hfull
    simp [senseact_allocate_device, first_free_minor_full _ hfull]
  · intro m hm hfree hbelow
    have hmin := first_free_minor_eq _ m hm hfree hbelow
    have hne : ¬ m = SENSEACT_DEVICES := by omega
    simp only [senseact_allocate_device, hmin, hne, if_false]
    refine ⟨trivial, trivial, ?_, ?_, ?_⟩
    · simp [senseact_set_capabilities]
    · simp [Function.update_same, senseact_set_capabilities, is_type_supported]
    · intro q hq
      simp [Function.update_noteq hq]
  · intro flush
    constructor
    · simp only [senseact_unregister_device, Function.update_same]
      split
      · split <;> rfl
      · rfl
    · simp [senseact_unregister_device]
  · intro cb flush mem ops hvalid
    have hwf0 : table_wf (core_empty mem) := by
      intro i q _ hq
      simp [core_empty] at hq
    have hlive0 : table_live (core_empty mem) := by
      intro i q _ hq
      simp [core_empty] at hq
    obtain ⟨hwf, hlive⟩ := run_core_ops_inv cb zero flush ops _ hwf0 hlive0 hvalid
    refine ⟨hwf, hlive, ?_⟩
    intro i j a b hi hj hij ha hb
    have hma := hwf i a hi ha
    have hmb := hwf j b hj hb
    constructor
    · intro hab
      subst hab
      omega
    · omega

/-- C11 on the sequence `shared_minor_example`: the table entry of slot 0 refers to the
device at address 6, which carries minor 0 and is live. -/
theorem senseact_allocate_device_minor_witness :
    core_ops_valid no_callbacks () none (core_empty blank_mem) shared_minor_example = true ∧
    table_wf (run_core_ops no_callbacks () none (core_empty blank_mem)
      shared_minor_example) ∧
    table_live (run_core_ops no_callbacks () none (core_empty blank_mem)
      shared_minor_example) ∧
    (run_core_ops no_callbacks () none (core_empty blank_mem)
      shared_minor_example).senseact_table 0 = some 6 ∧
    (senseact_allocate_device (core_empty blank_mem) (some 5) ()).1.senseact_table 0 =
      some 5 ∧
    (senseact_allocate_device (senseact_allocate_device (core_empty blank_mem) (some 5)
      ()).1 (some 6) ()).1.senseact_table 1 = some 6 :=
  ⟨by decide,
    ((senseact_allocate_device_minor (core_empty blank_mem) 0 ()).2.2.2.2 no_callbacks none
      blank_mem shared_minor_example (by decide)).1,
    ((senseact_allocate_device_minor (core_empty blank_mem) 0 ()).2.2.2.2 no_callbacks none
      blank_mem shared_minor_example (by decide)).2.1,
    by decide, by decide, by decide⟩

/-! ## C14: the indexed getters -/

/-- C14 fails for `bebot_get_position`: it returns `speed[i]`, not `position[i]`. On a
structure whose `speed[0]` is 200 and `position[0]` is 300 the call with `i = 0` returns
200. The other four getters return the element they name, or 0 from the array's count
on. -/
theorem bebot_get_position_returns_speed :
    bebot_get_position bebot_example 0 = 200 ∧ bebot_example.position 0 = 300 ∧
    bebot_get_position bebot_example 1 = 201 ∧ bebot_example.position 1 = 301 ∧
    (∀ (b : bebot) (i : Nat),
      bebot_get_position b i = if i < BEBOT_POSITION_COUNT then b.speed i else 0) ∧
    (∀ (b : bebot) (i : Nat),
      bebot_get_brightness b i = (if i < BEBOT_BRIGHTNESS_COUNT then b.brightness i else 0) ∧
      bebot_get_speed b i = (if i < BEBOT_SPEED_COUNT then b.speed i else 0) ∧
      bebot_get_angle b i = (if i < BEBOT_ANGLE_COUNT then b.angle i else 0) ∧
      bebot_get_increment b i = (if i < BEBOT_INCREMENT_COUNT then b.increment i else 0)) :=
  ⟨by decide, by decide, by decide, by decide, fun _ _ => rfl,
    fun _ _ => ⟨rfl, rfl, rfl, rfl⟩⟩

/-! ## C15: speed conversion -/

theorem tdiv_pos_cases (a b : Int) (hb : 0 < b) :
    Int.tdiv a b = if 0 ≤ a then a / b else -((-a) / b) := by
  by_cases ha : 0 ≤ a
  · rw [if_pos ha, Int.tdiv_eq_ediv ha (le_of_lt hb)]
  · rw [if_neg ha]
    have h1 : Int.tdiv a b = -Int.tdiv (-a) b := by
      rw [Int.neg_tdiv, neg_neg]
    rw [h1, Int.tdiv_eq_ediv (by omega) (le_of_lt hb)]

theorem speed_to_reg_eq (x : Int) :
    SPEED_TO_REG x =
      if x > 400 then 120 else if x < -400 then -120
      else if 0 ≤ x then x * 3 / 10 else -((-(x * 3)) / 10) := by
  unfold SPEED_TO_REG
  rw [tdiv_pos_cases (x * 3) 10 (by decide)]
  by_cases h1 : x > 400
  · simp [h1]
  · by_cases h2 : x < -400
    · simp [h1, h2]
    · simp only [h1, h2, if_false]
      by_cases h3 : 0 ≤ x
      · have : 0 ≤ x * 3 := by omega
        simp [h3, this]
      · have : ¬ 0 ≤ x * 3 := by omega
        simp [h3, this]

theorem speed_from_reg_eq (r : Int) :
    SPEED_FROM_REG r = if 0 ≤ r then r * 10 / 3 else -((-(r * 10)) / 3) := by
  unfold SPEED_FROM_REG
  rw [tdiv_pos_cases (r * 10) 3 (by decide)]
  by_cases h : 0 ≤ r
  · have : 0 ≤ r * 10 := by omega
    simp [h, this]
  · have : ¬ 0 ≤ r * 10 := by omega
    simp [h, this]

/-- The two macros composed on `int`, without the `u8` register in between: for every
`int` `x`, `SPEED_TO_REG(x)` is 120 when `x > 400`, -120 when `x < -400` and `x * 3 / 10`
truncated toward zero otherwise; the result lies in [-120, 120] and is monotonically
non-decreasing in `x`; and for `-400 <= x <= 400` the value
`SPEED_FROM_REG(SPEED_TO_REG(x))` differs from `x` by at most 3. -/
theorem speed_macros_on_int (x : Int) :
    (x > 400 → SPEED_TO_REG x = 120) ∧
    (x < -400 → SPEED_TO_REG x = -120) ∧
    (-400 ≤ x → x ≤ 400 → SPEED_TO_REG x = Int.tdiv (x * 3) 10) ∧
    -120 ≤ SPEED_TO_REG x ∧ SPEED_TO_REG x ≤ 120 ∧
    (∀ y, x ≤ y → SPEED_TO_REG x ≤ SPEED_TO_REG y) ∧
    (-400 ≤ x → x ≤ 400 → |SPEED_FROM_REG (SPEED_TO_REG x) - x| ≤ 3) := by
  refine ⟨?_, ?_, ?_, ?_, ?_, ?_, ?_⟩
  · intro h
    simp [SPEED_TO_REG, h]
  · intro h
    have h1 : ¬ x > 400 := by omega
    simp [SPEED_TO_REG, h, h1]
  · intro h1 h2
    have h3 : ¬ x > 400 := by omega
    have h4 : ¬ x < -400 := by omega
    simp [SPEED_TO_REG, h3, h4]
  · rw [speed_to_reg_eq]
    split_ifs <;> omega
  · rw [speed_to_reg_eq]
    split_ifs <;> omega
  · intro y hxy
    rw [speed_to_reg_eq, speed_to_reg_eq]
    split_ifs <;> omega
  · intro h1 h2
    rw [abs_le, speed_from_reg_eq, speed_to_reg_eq]
    split_ifs <;> constructor <;> omega

theorem u8_of_int_neg (r : Int) (h1 : -256 ≤ r) (h2 : r < 0) :
    ((u8_of_int r : Nat) : Int) = 256 + r := by
  unfold u8_of_int
  have h3 : r % 256 = 256 + r := by omega
  rw [h3, Int.toNat_of_nonneg (by omega)]

theorem u8_of_int_nonneg (r : Int) (h1 : 0 ≤ r) (h2 : r < 256) :
    ((u8_of_int r : Nat) : Int) = r := by
  unfold u8_of_int
  have h3 : r % 256 = r := by omega
  rw [h3, Int.toNat_of_nonneg h1]

theorem base_speed_round_trip_eq (senseact : senseact_device bebot_base_data) (x : Int) :
    bebot_base_speed_round_trip senseact x =
      SPEED_FROM_REG ((u8_of_int (SPEED_TO_REG x) : Nat) : Int) := by
  have hr : List.range 1 = [0] := by decide
  simp [bebot_base_speed_round_trip, bebot_base_pass, bebot_base_pass_loop, hr, u32]

/-- C15 fails in the driver for negative speeds. `bebot_base_pass` stores
`SPEED_TO_REG(x)` in the register image `u8 speed[]` and applies `SPEED_FROM_REG` to that
unsigned byte: for `x = -100` the macro gives -30, the byte stored is 226 and the value
read back after the SYNC is 753 (the poll cycle decodes a register byte 226 the same
way), while the macros composed on `int` give -100 and `MOTOR_SPEED_FROM_REG` of
bebot_motor.c, which casts to `s8`, gives -100 for the byte 226. For every `x` from -400
to -4 the value read back is more than 850 above `x`; from -3 to 400 it is within 3. -/
theorem bebot_base_speed_round_trip_unsigned :
    SPEED_TO_REG (-100) = -30 ∧
    (bebot_base_pass (fun _ => 0) 0 (fun _ => 0) (fun _ => 0) base_speed_device
      SENSEACT_TYPE_SPEED 0 1 (fun _ => -100)).1.drvdata.speed 0 = 226 ∧
    bebot_base_speed_round_trip base_speed_device (-100) = 753 ∧
    bebot_base_speed_values (fun _ => 226) (fun _ => 0) 0 = 753 ∧
    SPEED_FROM_REG (SPEED_TO_REG (-100)) = -100 ∧
    MOTOR_SPEED_FROM_REG 226 = -100 ∧
    (∀ (senseact : senseact_device bebot_base_data) (x : Int), -400 ≤ x → x ≤ -4 →
      850 < bebot_base_speed_round_trip senseact x - x) ∧
    (∀ (senseact : senseact_device bebot_base_data) (x : Int), -3 ≤ x → x ≤ 400 →
      |bebot_base_speed_round_trip senseact x - x| ≤ 3) := by
  refine ⟨by decide, by decide, by decide, by decide, by decide, by decide, ?_, ?_⟩
  · intro senseact x h1 h2
    have hreg : -120 ≤ SPEED_TO_REG x ∧ SPEED_TO_REG x ≤ -1 ∧
        SPEED_TO_REG x * 10 ≤ 3 * x + 9 ∧ 3 * x ≤ SPEED_TO_REG x * 10 := by
      rw [speed_to_reg_eq]
      split_ifs <;> omega
    rw [base_speed_round_trip_eq, u8_of_int_neg _ (by omega) (by omega), speed_from_reg_eq]
    split_ifs <;> omega
  · intro senseact x h1 h2
    have hreg : 0 ≤ SPEED_TO_REG x ∧ SPEED_TO_REG x ≤ 120 ∧
        SPEED_TO_REG x * 10 ≤ 3 * x + 9 ∧ 3 * x - 9 ≤ SPEED_TO_REG x * 10 := by
      rw [speed_to_reg_eq]
      split_ifs <;> omega
    rw [base_speed_round_trip_eq, u8_of_int_nonneg _ (by omega) (by omega), abs_le,
      speed_from_reg_eq]
    split_ifs <;> constructor <;> omega

/-! ## C18 and C19: the Player driver BeBotBase -/

/-- C18 fails: `LENGTH / 1000` and `WIDTH / 1000` are `int` divisions of 90 by 1000, so
`BeBotBase` reports the size (0, 0), while `BeBotMotor` reports (0.09, 0.09). -/
theorem BeBotBase_geom_size_is_zero :
    BeBotBase.geom_size = (0, 0) ∧ BeBotMotor.geom_size = (9 / 100, 9 / 100) ∧
    BeBotBase.geom_size ≠ BeBotMotor.geom_size := by
  have h1 : BeBotBase.geom_size = (0, 0) := by
    simp [BeBotBase.geom_size, BeBotBase.LENGTH, BeBotBase.WIDTH, Int.tdiv]
  have h2 : BeBotMotor.geom_size = (9 / 100, 9 / 100) := by
    simp only [BeBotMotor.geom_size, BeBotMotor.LENGTH, BeBotMotor.WIDTH]
    norm_num
  refine ⟨h1, h2, ?_⟩
  rw [h1, h2]
  intro h
  have h3 := congrArg Prod.fst h
  norm_num at h3

/-- C19 fails in its second part: for a pure rotation of 1 rad/s (`translation = 0`,
`rotation = 1000` mrad/s) `BeBotBase` writes the speeds -45000 and 45000 mm/s, whose
difference is 90000 and not `1000 * 90 / 1000 = 90`; `BeBotMotor::setSpeeds` computes
-45 and 45 mm/s for the same command. In general the two values sum to `2 * translation`
and differ by `90 * rotation`. -/
theorem BeBotBase_cmd_vel_scale :
    BeBotBase.cmd_vel_values 0 1000 = (-45000, 45000) ∧
    (BeBotBase.cmd_vel_values 0 1000).2 - (BeBotBase.cmd_vel_values 0 1000).1 = 90000 ∧
    BeBotMotor.setSpeeds_mm 0 1 = (-45, 45) ∧
    (∀ t r : Int, (BeBotBase.cmd_vel_values t r).1 + (BeBotBase.cmd_vel_values t r).2 = 2 * t ∧
      (BeBotBase.cmd_vel_values t r).2 - (BeBotBase.cmd_vel_values t r).1 = 90 * r) := by
  refine ⟨by decide, by decide, ?_, ?_⟩
  · simp only [BeBotMotor.setSpeeds_mm, BeBotMotor.WIDTH]
    norm_num
  · intro t r
    have h : Int.tdiv (r * BeBotBase.WIDTH) 2 = 45 * r := by
      rw [tdiv_pos_cases _ 2 (by decide)]
      simp only [BeBotBase.WIDTH]
      split <;> omega
    simp only [BeBotBase.cmd_vel_values, h]
    constructor <;> omega

/-! ## C16 and C17: the poll cycle of the BeBot base driver -/

/-- C16 fails for the positions: the four bytes are combined with the shifts 8, 0, 8, 0
instead of 24, 16, 8, 0. For a position block whose first double word is 65536 (bytes
0, 0, 1, 0) `bebot_base_poll` reports POSITION value 0 as 1. The angle is decoded as the
claim says (513 for the bytes 1, 2). -/
theorem bebot_base_poll_position_decode :
    (bebot_base_poll base_device (fun _ => 77) (fun _ => 0) (fun _ => 0) (fun _ => 0)
        position_block increment_block speed_block).1.queue_list.map queue_contents =
      [[⟨4, -1, 0, 0, 1⟩, ⟨4, -1, 0, 1, 258⟩, ⟨5, -1, 0, 0, 513⟩, ⟨6, 0, 0, 0, 3⟩,
        ⟨6, 0, 0, 1, 4⟩, ⟨3, -1, 0, 2, 100⟩, ⟨3, -1, 0, 3, 200⟩, ⟨0, 0, 0, 1, 77⟩]] ∧
    le32_word (i2c_fill position_block (fun _ => 0)) 0 = 65536 ∧
    bebot_base_position_temp (i2c_fill position_block (fun _ => 0)) 0 = 1 ∧
    le16_word (i2c_fill position_block (fun _ => 0)) 8 = 513 ∧
    bebot_base_angle_temp (i2c_fill position_block (fun _ => 0)) = 513 :=
  ⟨by decide, by decide, by decide, by decide, by decide⟩

theorem pass_actions_of_supported {σ : Type} (dev : senseact_device σ) (msecs : Nat → Nat)
    (stack_unit t pfx index count : Nat) (values : Nat → Int)
    (h : is_type_supported dev t = true) :
    senseact_pass_actions dev msecs stack_unit t pfx index count values =
      { dev with queue_list := dev.queue_list.map fun q =>
          queue_insert_all q (passed_actions msecs stack_unit t pfx index count values) } := by
  simp only [senseact_pass_actions, h, if_true]
  exact handle_actions_eq dev msecs stack_unit t pfx index count values

theorem pass_after_insert {σ : Type} (dev : senseact_device σ) (xs : List senseact_action)
    (msecs : Nat → Nat) (stack_unit t pfx index count : Nat) (values : Nat → Int)
    (h : is_type_supported dev t = true) :
    senseact_pass_actions
        ({ dev with queue_list := dev.queue_list.map fun q => queue_insert_all q xs } :
          senseact_device σ) msecs stack_unit t pfx index count values =
      { dev with queue_list := (dev.queue_list.map fun q => queue_insert_all q
          (xs ++ passed_actions msecs stack_unit t pfx index count values)) } := by
  have h2 : is_type_supported
      ({ dev with queue_list := dev.queue_list.map fun q => queue_insert_all q xs } :
        senseact_device σ) t = true := h
  rw [pass_actions_of_supported _ _ _ _ _ _ _ _ h2]
  simp [queue_insert_all, List.foldl_append, List.map_map, Function.comp]

/-- C17. On a device supporting POSITION, ANGLE, INCREMENT, SPEED and SYNC (as
`bebot_base_probe` sets it up), when all three block reads succeed `bebot_base_poll`
inserts into every queue, in this order, POSITION index 0 and 1, ANGLE index 0, INCREMENT
index 0 and 1, SPEED index 2 and 3 and finally one SYNC with index
`SENSEACT_SYNC_SENSOR`, and returns 0; when a block read returns `n <= 0` it returns `n`
at once, having inserted only the actions of the blocks read before, with no SYNC. -/
theorem bebot_base_poll_ends_with_sync {σ : Type} (dev : senseact_device σ)
    (msecs : Nat → Nat) (stack_unit : Nat → Nat) (buffer0 : Nat → Nat) (values0 : Nat → Int)
    (rp ri rs : i2c_block)
    (hp : is_type_supported dev SENSEACT_TYPE_POSITION = true)
    (ha : is_type_supported dev SENSEACT_TYPE_ANGLE = true)
    (hi : is_type_supported dev SENSEACT_TYPE_INCREMENT = true)
    (hs : is_type_supported dev SENSEACT_TYPE_SPEED = true)
    (hy : is_type_supported dev SENSEACT_TYPE_SYNC = true) :
    (0 < rp.n → 0 < ri.n → 0 < rs.n →
      ∃ acts, bebot_base_poll dev msecs stack_unit buffer0 values0 rp ri rs =
          ({ dev with queue_list := dev.queue_list.map fun q => queue_insert_all q acts }, 0) ∧
        acts.map (fun a => (a.type, a.index)) =
          [(SENSEACT_TYPE_POSITION, 0), (SENSEACT_TYPE_POSITION, 1), (SENSEACT_TYPE_ANGLE, 0),
            (SENSEACT_TYPE_INCREMENT, 0), (SENSEACT_TYPE_INCREMENT, 1),
            (SENSEACT_TYPE_SPEED, 2), (SENSEACT_TYPE_SPEED, 3),
            (SENSEACT_TYPE_SYNC, SENSEACT_SYNC_SENSOR)]) ∧
    (rp.n ≤ 0 → bebot_base_poll dev msecs stack_unit buffer0 values0 rp ri rs = (dev, rp.n)) ∧
    (0 < rp.n → ri.n ≤ 0 →
      ∃ acts, bebot_base_poll dev msecs stack_unit buffer0 values0 rp ri rs =
          ({ dev with queue_list := dev.queue_list.map fun q => queue_insert_all q acts },
            ri.n) ∧
        acts.map (fun a => (a.type, a.index)) =
          [(SENSEACT_TYPE_POSITION, 0), (SENSEACT_TYPE_POSITION, 1),
            (SENSEACT_TYPE_ANGLE, 0)]) ∧
    (0 < rp.n → 0 < ri.n → rs.n ≤ 0 →
      ∃ acts, bebot_base_poll dev msecs stack_unit buffer0 values0 rp ri rs =
          ({ dev with queue_list := dev.queue_list.map fun q => queue_insert_all q acts },
            rs.n) ∧
        acts.map (fun a => (a.type, a.index)) =
          [(SENSEACT_TYPE_POSITION, 0), (SENSEACT_TYPE_POSITION, 1), (SENSEACT_TYPE_ANGLE, 0),
            (SENSEACT_TYPE_INCREMENT, 0), (SENSEACT_TYPE_INCREMENT, 1)]) := by
  refine ⟨?_, ?_, ?_, ?_⟩
  · intro h1 h2 h3
    have n1 : ¬ rp.n ≤ 0 := by omega
    have n2 : ¬ ri.n ≤ 0 := by omega
    have n3 : ¬ rs.n ≤ 0 := by omega
    simp only [bebot_base_poll, n1, n2, n3, if_false]
    rw [pass_actions_of_supported dev _ _ _ _ _ _ _ hp]
    rw [pass_after_insert dev _ _ _ _ _ _ _ _ ha]
    rw [pass_after_insert dev _ _ _ _ _ _ _ _ hi]
    rw [pass_after_insert dev _ _ _ _ _ _ _ _ hs]
    rw [pass_after_insert dev _ _ _ _ _ _ _ _ hy]
    exact ⟨_, rfl, rfl⟩
  · intro h1
    simp [bebot_base_poll, h1]
  · intro h1 h2
    have n1 : ¬ rp.n ≤ 0 := by omega
    simp only [bebot_base_poll, n1, h2, if_false, if_true]
    rw [pass_actions_of_supported dev _ _ _ _ _ _ _ hp]
    rw [pass_after_insert dev _ _ _ _ _ _ _ _ ha]
    exact ⟨_, rfl, rfl⟩
  · intro h1 h2 h3
    have n1 : ¬ rp.n ≤ 0 := by omega
    have n2 : ¬ ri.n ≤ 0 := by omega
    simp only [bebot_base_poll, n1, n2, h3, if_false, if_true]
    rw [pass_actions_of_supported dev _ _ _ _ _ _ _ hp]
    rw [pass_after_insert dev _ _ _ _ _ _ _ _ ha]
    rw [pass_after_insert dev _ _ _ _ _ _ _ _ hi]
    exact ⟨_, rfl, rfl⟩

/-- C17 on the probed base device: a cycle whose increment read fails with -5 returns -5
and leaves only the two positions and the angle in the queue. -/
theorem bebot_base_poll_ends_with_sync_witness :
    is_type_supported base_device SENSEACT_TYPE_POSITION = true ∧
    (bebot_base_poll base_device (fun _ => 77) (fun _ => 0) (fun _ => 0) (fun _ => 0)
        position_block failed_block speed_block).2 = -5 ∧
    ∃ acts, bebot_base_poll base_device (fun _ => 77) (fun _ => 0) (fun _ => 0) (fun _ => 0)
          position_block failed_block speed_block =
        ({ base_device with
            queue_list := base_device.queue_list.map fun q => queue_insert_all q acts },
          failed_block.n) ∧
      acts.map (fun a => (a.type, a.index)) =
        [(SENSEACT_TYPE_POSITION, 0), (SENSEACT_TYPE_POSITION, 1), (SENSEACT_TYPE_ANGLE, 0)] :=
  ⟨by decide, by decide,
    (bebot_base_poll_ends_with_sync base_device (fun _ => 77) (fun _ => 0) (fun _ => 0)
      (fun _ => 0) position_block failed_block speed_block (by decide) (by decide)
      (by decide) (by decide) (by decide)).2.2.1 (by decide) (by decide)⟩

/-! ## C13: publication on a sensor sync in the library call -/

/-- The staging arrays are keyed by the action type, not by the device file: with reads
that no driver delivers (`cross_reads`: a BRIGHTNESS action from the base device;
`wide_reads`: BRIGHTNESS index 7 from IR device 1) a value staged by one device is
published by the sync of another. Such reads are excluded by `reads_from_drivers`. -/
theorem bebot_update_staging_shared :
    (bebot_update cross_reads staged_zero bebot_zero).1.brightness 3 = 42 ∧
    bebot_zero.brightness 3 = 0 ∧
    (bebot_update cross_reads staged_zero bebot_zero).2.2 = 2 ∧
    delivered_sync (cross_reads 0) = false ∧
    (bebot_update_from wide_reads [0, 1] ⟨bebot_zero, staged_zero, 0⟩).1.bebot.brightness 7
      = 0 ∧
    (bebot_update_from wide_reads [0, 1] ⟨bebot_zero, staged_zero, 0⟩).2 = 2 ∧
    (bebot_update wide_reads staged_zero bebot_zero).1.brightness 7 = 55 ∧
    (bebot_update wide_reads staged_zero bebot_zero).2.2 = 6 := by
  refine ⟨by decide, by decide, by decide, by decide, by decide, by decide, by decide,
    by decide⟩

theorem s32_inc_eq (x : Int) (h : x < 2147483647) : s32_inc x = x + 1 := by
  unfold s32_inc
  rw [if_neg (by omega)]

theorem s32_dec_eq (x : Int) (h : -2147483648 < x) : s32_dec x = x - 1 := by
  unfold s32_dec
  rw [if_neg (by omega)]

theorem poll_start_interrupted (lock : Int) (created : Option Nat) (s : senseact_poll_state)
    (h : lock ≠ 0) : senseact_poll_start_workqueue lock created s = (s, lock) := by
  simp [senseact_poll_start_workqueue, h]

theorem poll_start_in_use (created : Option Nat) (s : senseact_poll_state)
    (h : s.senseact_poll_users ≠ 0) :
    senseact_poll_start_workqueue 0 created s =
      ({ s with senseact_poll_users := s32_inc s.senseact_poll_users }, 0) := by
  simp [senseact_poll_start_workqueue, h]

theorem poll_start_created (w : Nat) (s : senseact_poll_state)
    (h : s.senseact_poll_users = 0) :
    senseact_poll_start_workqueue 0 (some w) s =
      ({ s with senseact_poll_wq := some w,
                workqueues := w :: s.workqueues,
                senseact_poll_users := 1 }, 0) := by
  simp [senseact_poll_start_workqueue, h, s32_inc]

theorem poll_start_failed (s : senseact_poll_state) (h : s.senseact_poll_users = 0) :
    senseact_poll_start_workqueue 0 none s = ({ s with senseact_poll_wq := none }, -ENOMEM) := by
  simp [senseact_poll_start_workqueue, h]

theorem poll_start_result (lock : Int) (created : Option Nat) (s : senseact_poll_state) :
    ((senseact_poll_start_workqueue lock created s).2 = 0 →
      (senseact_poll_start_workqueue lock created s).1.senseact_poll_users =
        s32_inc s.senseact_poll_users) ∧
    ((senseact_poll_start_workqueue lock created s).2 ≠ 0 →
      (senseact_poll_start_workqueue lock created s).1.senseact_poll_users =
        s.senseact_poll_users ∧
      (senseact_poll_start_workqueue lock created s).1.workqueues = s.workqueues) := by
  by_cases hl : lock ≠ 0
  · rw [poll_start_interrupted lock created s hl]
    exact ⟨fun h => absurd h hl, fun _ => ⟨rfl, rfl⟩⟩
  · have hl : lock = 0 := by simpa using hl
    subst hl
    by_cases hu : s.senseact_poll_users = 0
    · cases created with
      | none =>
        rw [poll_start_failed s hu]
        have hne : (-ENOMEM : Int) ≠ 0 := by decide
        exact ⟨fun h => absurd h hne, fun _ => ⟨rfl, rfl⟩⟩
      | some w =>
        rw [poll_start_created w s hu]
        refine ⟨fun _ => ?_, fun h => absurd rfl h⟩
        rw [hu]
        rfl
    · rw [poll_start_in_use created s hu]
      exact ⟨fun _ => rfl, fun h => absurd rfl h⟩

theorem poll_open_step (lock : Int) (created : Option Nat) (d : Nat)
    (s : senseact_poll_state)
    (h1 : 0 < s.senseact_poll_users →
      ∃ w, s.senseact_poll_wq = some w ∧ s.workqueues = [w])
    (h2 : s.senseact_poll_users ≤ 0 → s.workqueues = [])
    (hb : s.senseact_poll_users < 2147483647) :
    (0 < (senseact_poll_open lock created d s).1.senseact_poll_users →
      ∃ w, (senseact_poll_open lock created d s).1.senseact_poll_wq = some w ∧
        (senseact_poll_open lock created d s).1.workqueues = [w]) ∧
    ((senseact_poll_open lock created d s).1.senseact_poll_users ≤ 0 →
      (senseact_poll_open lock created d s).1.workqueues = []) ∧
    (senseact_poll_open lock created d s).1.senseact_poll_users =
      s.senseact_poll_users + (if (senseact_poll_open lock created d s).2 = 0 then 1 else 0) := by
  unfold senseact_poll_open
  by_cases hl : lock ≠ 0
  · rw [poll_start_interrupted lock created s hl]
    simp only [hl, ne_eq, not_false_eq_true, if_true, if_false, add_zero]
    exact ⟨h1, h2, trivial⟩
  · have hl : lock = 0 := by simpa using hl
    subst hl
    by_cases hu : s.senseact_poll_users = 0
    · cases created with
      | none =>
        rw [poll_start_failed s hu]
        have hne : (-ENOMEM : Int) ≠ 0 := by decide
        simp only [hne, ne_eq, not_false_eq_true, if_true, if_false, add_zero]
        refine ⟨fun h => ?_, h2, trivial⟩
        rw [hu] at h
        exact absurd h (by decide)
      | some w =>
        rw [poll_start_created w s hu]
        simp only [ne_eq, not_true_eq_false, if_false, if_true, hu, zero_add]
        refine ⟨fun _ => ⟨w, rfl, ?_⟩, fun h => absurd h (by decide), trivial⟩
        rw [h2 (by omega)]
    · rw [poll_start_in_use created s hu]
      simp only [ne_eq, not_true_eq_false, if_false, if_true]
      rw [s32_inc_eq _ hb]
      refine ⟨fun h => ?_, fun h => ?_, rfl⟩
      · exact h1 (by omega)
      · exact h2 (by omega)

theorem poll_close_step (d : Nat) (s : senseact_poll_state)
    (h1 : 0 < s.senseact_poll_users →
      ∃ w, s.senseact_poll_wq = some w ∧ s.workqueues = [w])
    (h2 : s.senseact_poll_users ≤ 0 → s.workqueues = [])
    (hb : -2147483648 < s.senseact_poll_users) :
    (0 < (senseact_poll_close d s).senseact_poll_users →
      ∃ w, (senseact_poll_close d s).senseact_poll_wq = some w ∧
        (senseact_poll_close d s).workqueues = [w]) ∧
    ((senseact_poll_close d s).senseact_poll_users ≤ 0 →
      (senseact_poll_close d s).workqueues = []) ∧
    (senseact_poll_close d s).senseact_poll_users = s.senseact_poll_users - 1 := by
  unfold senseact_poll_close senseact_poll_stop_workqueue
  simp only [s32_dec_eq _ hb]
  by_cases hu : s.senseact_poll_users - 1 = 0
  · simp only [hu, if_true]
    refine ⟨fun h => absurd h (by decide), fun _ => ?_, trivial⟩
    obtain ⟨w, hw, hq⟩ := h1 (by omega)
    simp [destroy_workqueue, hw, hq]
  · simp only [hu, if_false]
    refine ⟨fun h => h1 (by omega), fun h => h2 (by omega), trivial⟩

theorem poll_ops_invariant (ops : List poll_op) :
    ∀ s : senseact_poll_state,
      (0 < s.senseact_poll_users →
        ∃ w, s.senseact_poll_wq = some w ∧ s.workqueues = [w]) →
      (s.senseact_poll_users ≤ 0 → s.workqueues = []) →
      -2147483648 < s.senseact_poll_users - ops.length →
      s.senseact_poll_users + ops.length < 2147483648 →
      (0 < (run_poll_ops s ops).1.senseact_poll_users →
        ∃ w, (run_poll_ops s ops).1.senseact_poll_wq = some w ∧
          (run_poll_ops s ops).1.workqueues = [w]) ∧
      ((run_poll_ops s ops).1.senseact_poll_users ≤ 0 →
        (run_poll_ops s ops).1.workqueues = []) ∧
      (run_poll_ops s ops).1.senseact_poll_users =
        s.senseact_poll_users + (successful_poll_opens s ops : Int) -
          (poll_close_calls ops : Int) := by
  induction ops with
  | nil =>
    intro s h1 h2 _ _
    simp only [run_poll_ops, successful_poll_opens, poll_close_calls, List.count_nil,
      Nat.cast_zero, add_zero, sub_zero]
    exact ⟨h1, h2, trivial⟩
  | cons op ops ih =>
    intro s h1 h2 b1 b2
    simp only [List.length_cons, Nat.cast_add, Nat.cast_one] at b1 b2
    cases op with
    | open_ lock created d =>
      obtain ⟨o1, o2, o3⟩ := poll_open_step lock created d s h1 h2 (by omega)
      have hle : (senseact_poll_open lock created d s).1.senseact_poll_users ≤
          s.senseact_poll_users + 1 := by
        rw [o3]; split_ifs <;> omega
      have hge : s.senseact_poll_users ≤
          (senseact_poll_open lock created d s).1.senseact_poll_users := by
        rw [o3]; split_ifs <;> omega
      obtain ⟨i1, i2, i3⟩ := ih (senseact_poll_open lock created d s).1 o1 o2
        (by omega) (by omega)
      simp only [run_poll_ops, successful_poll_opens, poll_close_calls, List.count_cons]
      simp only [successful_poll_opens] at i3
      refine ⟨i1, i2, ?_⟩
      rw [i3, o3]
      by_cases hr : (senseact_poll_open lock created d s).2 = 0
      · simp [hr]
        omega
      · simp [hr]
    | close d =>
      obtain ⟨c1, c2, c3⟩ := poll_close_step d s h1 h2 (by omega)
      obtain ⟨i1, i2, i3⟩ := ih (senseact_poll_close d s) c1 c2 (by omega) (by omega)
      simp only [run_poll_ops, successful_poll_opens, poll_close_calls]
      simp only [successful_poll_opens] at i3
      refine ⟨i1, i2, ?_⟩
      rw [i3, c3]
      push_cast
      omega

/-- C21. `senseact_poll_start_workqueue` returns the error of an interrupted mutex with
nothing changed; with the mutex taken it calls `create_singlethread_workqueue` only when
`senseact_poll_users` is 0, a failed creation returns `-ENOMEM` with the count and the
workqueues unchanged, and the count is incremented exactly when 0 is returned.
`senseact_poll_stop_workqueue` decrements the count and destroys the workqueue exactly
when the count has reached 0. Hence after every sequence of fewer than 2^31
`senseact_poll_open` and `senseact_poll_close` calls from the initial state a workqueue
exists if and only if `senseact_poll_users > 0` (it is then the single one
`senseact_poll_wq` points to), and `senseact_poll_users` equals the number of successful
opens minus the number of closes. -/
theorem senseact_poll_workqueue_users (ops : List poll_op) (hlen : ops.length < 2 ^ 31) :
    (∀ lock created s, lock ≠ 0 →
      senseact_poll_start_workqueue lock created s = (s, lock)) ∧
    (∀ created s, s.senseact_poll_users ≠ 0 →
      senseact_poll_start_workqueue 0 created s =
        ({ s with senseact_poll_users := s32_inc s.senseact_poll_users }, 0)) ∧
    (∀ w s, s.senseact_poll_users = 0 →
      senseact_poll_start_workqueue 0 (some w) s =
        ({ s with senseact_poll_wq := some w,
                  workqueues := w :: s.workqueues,
                  senseact_poll_users := 1 }, 0)) ∧
    (∀ s, s.senseact_poll_users = 0 →
      (senseact_poll_start_workqueue 0 none s).2 = -ENOMEM ∧
      (senseact_poll_start_workqueue 0 none s).1.senseact_poll_users = 0 ∧
      (senseact_poll_start_workqueue 0 none s).1.workqueues = s.workqueues) ∧
    (∀ lock created s,
      ((senseact_poll_start_workqueue lock created s).2 = 0 →
        (senseact_poll_start_workqueue lock created s).1.senseact_poll_users =
          s32_inc s.senseact_poll_users) ∧
      ((senseact_poll_start_workqueue lock created s).2 ≠ 0 →
        (senseact_poll_start_workqueue lock created s).1.senseact_poll_users =
          s.senseact_poll_users ∧
        (senseact_poll_start_workqueue lock created s).1.workqueues = s.workqueues)) ∧
    (∀ s, (senseact_poll_stop_workqueue s).senseact_poll_users =
        s32_dec s.senseact_poll_users ∧
      (senseact_poll_stop_workqueue s).senseact_poll_wq = s.senseact_poll_wq ∧
      (senseact_poll_stop_workqueue s).workqueues =
        if s32_dec s.senseact_poll_users = 0 then
          destroy_workqueue s.senseact_poll_wq s.workqueues
        else s.workqueues) ∧
    ((run_poll_ops senseact_poll_init ops).1.workqueues ≠ [] ↔
      0 < (run_poll_ops senseact_poll_init ops).1.senseact_poll_users) ∧
    (0 < (run_poll_ops senseact_poll_init ops).1.senseact_poll_users →
      ∃ w, (run_poll_ops senseact_poll_init ops).1.senseact_poll_wq = some w ∧
        (run_poll_ops senseact_poll_init ops).1.workqueues = [w]) ∧
    (run_poll_ops senseact_poll_init ops).1.senseact_poll_users =
      (successful_poll_opens senseact_poll_init ops : Int) - (poll_close_calls ops : Int) := by
  have hlen2 : (ops.length : Int) < 2147483648 := by
    have : ops.length < 2147483648 := by
      have h2 : (2 : Nat) ^ 31 = 2147483648 := by norm_num
      omega
    exact_mod_cast this
  obtain ⟨i1, i2, i3⟩ := poll_ops_invariant ops senseact_poll_init
    (fun h => absurd h (by decide)) (fun _ => rfl)
    (by
      show -2147483648 < (0 : Int) - (ops.length : Int)
      omega)
    (by
      show (0 : Int) + (ops.length : Int) < 2147483648
      omega)
  refine ⟨poll_start_interrupted, poll_start_in_use, poll_start_created, ?_, poll_start_result,
    ?_, ?_, i1, ?_⟩
  · intro s hs
    rw [poll_start_failed s hs]
    exact ⟨rfl, hs, rfl⟩
  · intro s
    unfold senseact_poll_stop_workqueue
    by_cases h : s32_dec s.senseact_poll_users = 0
    · simp only [h, if_true]
      exact ⟨trivial, trivial, trivial⟩
    · simp only [h, if_false]
      exact ⟨trivial, trivial, trivial⟩
  · constructor
    · intro hne
      by_contra hpos
      exact hne (i2 (by omega))
    · intro hpos
      obtain ⟨w, _, hq⟩ := i1 hpos
      rw [hq]
      exact List.cons_ne_nil _ _
  · rw [i3]
    show (0 : Int) + _ - _ = _
    omega

/-- C21 on a sequence of seven calls: two opens, an interrupted open, two closes (the
second destroys workqueue 5), an open whose workqueue cannot be created, and an open that
creates workqueue 6. Afterwards one user is counted and workqueue 6 is the only one. -/
theorem senseact_poll_workqueue_users_witness :
    poll_example.length < 2 ^ 31 ∧
    (run_poll_ops senseact_poll_init poll_example).2 = [0, 0, -4, -12, 0] ∧
    (run_poll_ops senseact_poll_init poll_example).1.workqueues = [6] ∧
    (run_poll_ops senseact_poll_init poll_example).1.senseact_poll_wq = some 6 ∧
    (run_poll_ops senseact_poll_init poll_example).1.senseact_poll_users = 1 ∧
    (run_poll_ops senseact_poll_init poll_example).1.senseact_poll_users =
      (successful_poll_opens senseact_poll_init poll_example : Int) -
        (poll_close_calls poll_example : Int) :=
  ⟨by decide, by decide, by decide, by decide, by decide,
    (senseact_poll_workqueue_users poll_example (by decide)).2.2.2.2.2.2.2.2⟩

end Senseact
